import Mathlib

/-! loop4r_control: the pedal / OSC bridge of `Source/Main.cpp`

A shallow embedding of the control logic of `loop4r_readApplication`:
the pedal decoder, the LED panel, the per-loop LED state machine, the
mode-dependent pedal dispatcher and the OSC message handlers.

Conventions of the embedding.

* C++ `int` values are `Int`; bytes written to the controller are `Nat`
  reduced modulo 256.
* `juce::Array::getReference (i)` is only defined for `0 <= i < size()`;
  every function that goes through it returns `Option`, and `none` stands
  for the undefined behaviour of an out-of-range access.
* The mutable members of the application object are gathered in `App`;
  every member function becomes a function `App → Option App` (or
  `App → App` when it cannot fail).
* Everything sent to the outside is appended to a trace kept in `App`:
  `oscOut` for `oscSender` (commands to the looper), `ledOsc` for
  `oscLedSender` (the monitoring listener) and `midiOut` for the bytes
  given to `snd_rawmidi_write` (the controller LEDs).  Text written to
  `std::cerr` / `std::cout` is not modelled.
-/

namespace Loop4r

/-! ## Enumerations and constants -/

/-! The `LoopStates` enumeration is kept as its underlying `int`: the handler
of `/ctrl` casts an arbitrary received number to `LoopStates`, so a loop state
is any `Int` and the enumerators are the constants below. -/

@[simp] def Unknown : Int := -1
@[simp] def Off : Int := 0
@[simp] def WaitStart : Int := 1
@[simp] def Recording : Int := 2
@[simp] def WaitStop : Int := 3
@[simp] def Playing : Int := 4
@[simp] def Overdubbing : Int := 5
@[simp] def Multiplying : Int := 6
@[simp] def Inserting : Int := 7
@[simp] def Replacing : Int := 8
@[simp] def Delay : Int := 9
@[simp] def Muted : Int := 10
@[simp] def Scratching : Int := 11
@[simp] def OneShot : Int := 12
@[simp] def Substitute : Int := 13
@[simp] def Paused : Int := 14
@[simp] def Last : Int := 20

/-- The `LedStates` enumeration (only ever assigned from its enumerators). -/
inductive LedStates where
  | Dark
  | Light
  | Blink
  | FastBlink
deriving DecidableEq, Repr

/-- The value of `(int) led.state_`. -/
def LedStates.toInt : LedStates → Int
  | .Dark => 0
  | .Light => 1
  | .Blink => 2
  | .FastBlink => 3

/-- The `Modes` enumeration (`Play = 0`, `Rec = 20`). -/
inductive Modes where
  | Play
  | Rec
deriving DecidableEq, Repr

@[simp] def UP : Int := 10
@[simp] def DOWN : Int := 11
@[simp] def NUM_LEDS : Nat := 23

@[simp] def TIMER_OFF : Int := 0
@[simp] def TIMER_FASTBLINK : Int := 1
@[simp] def TIMER_BLINK : Int := 3

@[simp] def TRACK1 : Int := 0
@[simp] def TRACK2 : Int := 1
@[simp] def TRACK3 : Int := 2
@[simp] def TRACK4 : Int := 3
@[simp] def RECORD : Int := 4
@[simp] def MULTIPLY : Int := 5
@[simp] def REPLACE : Int := 6
@[simp] def INSERT : Int := 7
@[simp] def SUBSTITUTE : Int := 8
@[simp] def UNDO : Int := 9
@[simp] def CLEAR : Int := UP
@[simp] def MUTE : Int := DOWN
@[simp] def CONFIG : Int := 23

/-- The status byte `MIDI_CMD_CONTROL` of `<alsa/asoundlib.h>` (control change). -/
@[simp] def MIDI_CMD_CONTROL : Nat := 0xB0

/-! ## Pedal decoding -/

/-- `pedalIndex`: the `switch` over the raw controller value. -/
def pedalIndex (controllerValue : Int) : Int :=
  if controllerValue = 1 ∨ controllerValue = 2 ∨ controllerValue = 3 ∨
      controllerValue = 4 ∨ controllerValue = 5 ∨ controllerValue = 6 ∨
      controllerValue = 7 ∨ controllerValue = 8 ∨ controllerValue = 9 then
    controllerValue - 1
  else if controllerValue = 0 then 9
  else if controllerValue = 10 then UP
  else if controllerValue = 11 then DOWN
  else controllerValue

/-- `ledNumber`: the hardware slot of a pedal LED, returned as `uint8`. -/
def ledNumber (pedalIdx : Int) : Nat :=
  if pedalIdx = 0 ∨ pedalIdx = 1 ∨ pedalIdx = 2 ∨ pedalIdx = 3 ∨ pedalIdx = 4 ∨
      pedalIdx = 5 ∨ pedalIdx = 6 ∨ pedalIdx = 7 ∨ pedalIdx = 8 then
    ((pedalIdx + 1) % 256).toNat
  else if pedalIdx = 9 then 0
  else (pedalIdx % 256).toNat

/-! ## Data model -/

/-- The `LED` record. -/
structure LED where
  index_ : Int
  on_ : Bool
  timer_ : Int
  state_ : LedStates
deriving DecidableEq, Repr

/-- The `Loop` record.  The member `LED& led_` is always bound to
`leds_.getReference (i)` with `i` the value given to `index_`, and `leds_` is
never resized after construction, so `led_` is `leds_[index_]`. -/
structure Loop where
  index_ : Int
  state_ : Int
  empty_ : Bool
deriving DecidableEq, Repr

/-- One OSC argument.  A `float32` carries the (finite) number it denotes. -/
inductive OSCArgument where
  | int32 (v : Int)
  | float32 (v : ℚ)
  | string (s : String)
  | blob
deriving DecidableEq

/-- An OSC message: address pattern and arguments. -/
structure OSCMessage where
  address : String
  args : List OSCArgument
deriving DecidableEq

/-- What the dispatcher reads of a `MidiMessage`: whether it is a controller
event, and then its controller number and value. -/
inductive MidiMessage where
  | controller (number : Int) (value : Int)
  | other
deriving DecidableEq

/-- The mutable members of `loop4r_readApplication` used by the bridge,
followed by the three output traces.  `filterCommandsEmpty` is
`filterCommands_.isEmpty ()`, the only thing the handlers read of that array. -/
structure App where
  leds_ : List LED
  loops_ : List Loop
  mode_ : Modes
  selectedLoop_ : Int
  loopCount_ : Int
  engineId_ : Int
  heartbeat_ : Int
  heartbeatOn_ : Bool
  hostUrl_ : String
  version_ : String
  pinged_ : Bool
  oscSendPort_ : Int
  oscReceivePort_ : Int
  currentSendPort_ : Int
  currentReceivePort_ : Int
  oscLedSenderInitialized_ : Bool
  filterCommandsEmpty : Bool
  oscOut : List OSCMessage
  ledOsc : List OSCMessage
  midiOut : List (List Nat)

/-- The state left by the constructor: 23 dark LEDs, no loops, mode Play. -/
def App.init : App where
  leds_ := (List.range NUM_LEDS).map fun (i : Nat) =>
    { index_ := (i : Int), on_ := false, timer_ := TIMER_OFF, state_ := .Dark }
  loops_ := []
  mode_ := .Play
  selectedLoop_ := -1
  loopCount_ := 0
  engineId_ := 0
  heartbeat_ := 5
  heartbeatOn_ := false
  hostUrl_ := ""
  version_ := ""
  pinged_ := false
  oscSendPort_ := 9951
  oscReceivePort_ := 9000
  currentSendPort_ := -1
  currentReceivePort_ := -1
  oscLedSenderInitialized_ := false
  filterCommandsEmpty := true
  oscOut := []
  ledOsc := []
  midiOut := []

/-- `Array::getReference`: an unchecked access, defined only for an index
inside the array. -/
def getReference {α : Type} (xs : List α) (i : Int) : Option α :=
  if i < 0 then none else xs[i.toNat]?

/-- Write through a reference obtained from `leds_.getReference (i)`. -/
def modifyLed (i : Int) (f : LED → LED) (a : App) : Option App :=
  match getReference a.leds_ i with
  | none => none
  | some led => some { a with leds_ := a.leds_.set i.toNat (f led) }

/-- `oscSender.send (address, args...)`. -/
def oscSend (address : String) (args : List OSCArgument) (a : App) : App :=
  { a with oscOut := a.oscOut ++ [{ address := address, args := args }] }

/-! ## The LED panel -/

/-- The `/led` message published to the monitoring listener. -/
def ledMessage (led : LED) : OSCMessage :=
  { address := "/led",
    args := [.int32 led.index_, .int32 (if led.on_ then 1 else 0), .int32 led.timer_,
             .int32 led.state_.toInt] }

/-- Common body of `ledOn` (flag `true`, control number 106) and `ledOff`
(flag `false`, control number 107): set `on_`, write the three bytes, and
publish `/led` when the monitoring listener is attached. -/
def ledWrite (flag : Bool) (cc : Nat) (pedalIdx : Int) (a : App) : Option App :=
  match getReference a.leds_ pedalIdx with
  | none => none
  | some led0 =>
    let led : LED := { led0 with on_ := flag }
    some { a with
      leds_ := a.leds_.set pedalIdx.toNat led
      midiOut := a.midiOut ++ [[MIDI_CMD_CONTROL, cc, ledNumber pedalIdx]]
      ledOsc := if a.oscLedSenderInitialized_ then a.ledOsc ++ [ledMessage led] else a.ledOsc }

/-- `ledOn`. -/
def ledOn (pedalIdx : Int) (a : App) : Option App := ledWrite true 106 pedalIdx a

/-- `ledOff`. -/
def ledOff (pedalIdx : Int) (a : App) : Option App := ledWrite false 107 pedalIdx a

/-! ## The per-loop LED state machine -/

/-- The assignments `loop.led_.state_ = st; loop.led_.timer_ = t;`. -/
def setLoopLed (loop : Loop) (st : LedStates) (t : Int) (a : App) : Option App :=
  modifyLed loop.index_ (fun led => { led with state_ := st, timer_ := t }) a

/-- First `switch` of `updateLoopLedState`: the pattern of the loop LED and
the LEDs switched on for the new state. -/
def applyNewState (loop : Loop) (newState : Int) (a : App) : Option App :=
  if newState = Unknown ∨ newState = Off then
    setLoopLed loop .Dark TIMER_OFF a >>= ledOff loop.index_
  else if newState = WaitStart ∨ newState = WaitStop then
    setLoopLed loop .FastBlink TIMER_FASTBLINK a >>= ledOn loop.index_
  else if newState = Recording then
    setLoopLed loop .Light TIMER_OFF a >>= ledOn loop.index_
  else if newState = Overdubbing then
    setLoopLed loop .Light TIMER_OFF a >>= ledOn loop.index_
  else if newState = Inserting then
    setLoopLed loop .FastBlink TIMER_FASTBLINK a >>= ledOn loop.index_ >>= ledOn INSERT
  else if newState = Replacing then
    setLoopLed loop .FastBlink TIMER_FASTBLINK a >>= ledOn loop.index_ >>= ledOn REPLACE
  else if newState = Substitute then
    setLoopLed loop .FastBlink TIMER_FASTBLINK a >>= ledOn loop.index_ >>= ledOn SUBSTITUTE
  else if newState = Multiplying then
    setLoopLed loop .FastBlink TIMER_FASTBLINK a >>= ledOn loop.index_ >>= ledOn MULTIPLY
  else if newState = Delay then
    setLoopLed loop .Light TIMER_OFF a >>= ledOn loop.index_
  else if newState = Scratching then
    setLoopLed loop .Light TIMER_OFF a >>= ledOn loop.index_
  else if newState = OneShot then
    setLoopLed loop .Light TIMER_OFF a >>= ledOn loop.index_
  else if newState = Playing then
    if a.mode_ = .Play then
      setLoopLed loop .Light TIMER_OFF a >>= ledOn loop.index_
    else
      setLoopLed loop .Blink TIMER_BLINK a >>= ledOn loop.index_
  else if newState = Muted ∨ newState = Paused then
    setLoopLed loop .Blink TIMER_BLINK a >>= ledOn loop.index_
  else if newState = Last then
    setLoopLed loop .Dark TIMER_OFF a >>= ledOff loop.index_
  else
    setLoopLed loop .Dark TIMER_OFF a >>= ledOff loop.index_

/-- Second `switch` of `updateLoopLedState`, over the state the loop leaves. -/
def clearOldState (oldState : Int) (a : App) : Option App :=
  if oldState = Multiplying then ledOff MULTIPLY a
  else if oldState = Replacing then ledOff REPLACE a
  else if oldState = Inserting then ledOff INSERT a
  else if oldState = Substitute then ledOff SUBSTITUTE a
  else some a

/-- `updateLoopLedState (loop, newState)` where `loop` is the element of
`loops_` at position `k`. -/
def updateLoopLedState (k : Nat) (newState : Int) (a : App) : Option App :=
  match a.loops_[k]? with
  | none => none
  | some loop =>
    (applyNewState loop newState a >>= fun a1 =>
      if newState ≠ loop.state_ then clearOldState loop.state_ a1 else some a1) >>= fun a2 =>
    some { a2 with
      loops_ := a2.loops_.set k { loop with state_ := newState, empty_ := decide (newState = Off) } }

/-- The body of the `for` loop of `updateLoops`, run over the positions `ks`. -/
def updateLoopsFrom : List Nat → App → Option App
  | [], a => some a
  | k :: ks, a =>
    match a.loops_[k]? with
    | none => none
    | some loop => updateLoopLedState k loop.state_ a >>= updateLoopsFrom ks

/-- `updateLoops`: re-apply to every loop its own state. -/
def updateLoops (a : App) : Option App :=
  updateLoopsFrom (List.range a.loops_.length) a

/-! ## Commands sent to the looper -/

/-- `sendClearAll`. -/
def sendClearAll (down : Bool) (a : App) : App :=
  oscSend ("/sl/-1/" ++ (if down then "down" else "up")) [.string "undo_all"] a

/-- `sendClearSelected`. -/
def sendClearSelected (down : Bool) (a : App) : App :=
  oscSend ("/sl/-3/" ++ (if down then "down" else "up")) [.string "undo_all"] a

/-- `sendInsert` (the argument `loop` is only logged). -/
def sendInsert (_loop : Int) (down : Bool) (a : App) : App :=
  oscSend ("/sl/-3/" ++ (if down then "down" else "up")) [.string "insert"] a

/-- `sendMultiply` (the argument `loop` is only logged). -/
def sendMultiply (_loop : Int) (down : Bool) (a : App) : App :=
  oscSend ("/sl/-3/" ++ (if down then "down" else "up")) [.string "multiply"] a

/-- `sendMute` (the argument `loop` is only logged). -/
def sendMute (_loop : Int) (down : Bool) (a : App) : App :=
  oscSend ("/sl/-3/" ++ (if down then "down" else "up")) [.string "mute"] a

/-- `sendMuteAll`. -/
def sendMuteAll (a : App) : App :=
  oscSend "/sl/-1/hit" [.string "mute_on"] a

/-- `sendMuteOffAll`. -/
def sendMuteOffAll (a : App) : App :=
  oscSend "/sl/-1/hit" [.string "mute_off"] a

/-- `sendMuteSelected`. -/
def sendMuteSelected (down : Bool) (a : App) : App :=
  oscSend ("/sl/-3/" ++ (if down then "down" else "up")) [.string "mute"] a

/-- `sendRecordOrOverdubSelected`: reads `loops_.getReference (selectedLoop_)`. -/
def sendRecordOrOverdubSelected (down : Bool) (a : App) : Option App :=
  let buf := "/sl/-3/" ++ (if down then "down" else "up")
  match getReference a.loops_ a.selectedLoop_ with
  | none => none
  | some loop =>
    if loop.state_ = Recording then some (oscSend buf [.string "record"] a)
    else if loop.state_ = Overdubbing then some (oscSend buf [.string "overdub"] a)
    else if loop.empty_ then some (oscSend buf [.string "record"] a)
    else some (oscSend buf [.string "overdub"] a)

/-- `sendReplace` (the argument `loop` is only logged). -/
def sendReplace (_loop : Int) (down : Bool) (a : App) : App :=
  oscSend ("/sl/-3/" ++ (if down then "down" else "up")) [.string "replace"] a

/-- `sendSelectTrack`. -/
def sendSelectTrack (track : Int) (a : App) : App :=
  oscSend "/set" [.string "selected_loop_num", .int32 track] { a with selectedLoop_ := track }

/-- `sendSubstitute` (the argument `loop` is only logged). -/
def sendSubstitute (_loop : Int) (down : Bool) (a : App) : App :=
  oscSend ("/sl/-3/" ++ (if down then "down" else "up")) [.string "substitute"] a

/-- `sendUndoSelected`. -/
def sendUndoSelected (down : Bool) (a : App) : App :=
  oscSend ("/sl/-3/" ++ (if down then "down" else "up")) [.string "undo"] a

/-- `sendTriggerAll`. -/
def sendTriggerAll (a : App) : App :=
  oscSend "/sl/-1/hit" [.string "trigger"] a

/-- The flag `allMute` computed by the Mute pedal: no loop is in a state
other than Unknown, Off, Muted or Paused. -/
def allMute (loops : List Loop) : Bool :=
  loops.all fun loop =>
    !(decide (loop.state_ ≠ Unknown) && decide (loop.state_ ≠ Off) &&
      decide (loop.state_ ≠ Muted) && decide (loop.state_ ≠ Paused))

/-! ## The pedal dispatcher -/

/-- The `switch (pedalIdx)` of `handleIncomingMidiMessage`. -/
def dispatchPedal (pedalIdx : Int) (down : Bool) (a : App) : Option App :=
  if pedalIdx = TRACK1 ∨ pedalIdx = TRACK2 ∨ pedalIdx = TRACK3 ∨ pedalIdx = TRACK4 then
    let a1 := sendSelectTrack pedalIdx a
    if a1.mode_ = .Rec then sendRecordOrOverdubSelected down a1
    else some (sendMuteSelected down a1)
  else if pedalIdx = MULTIPLY then
    if a.mode_ = .Rec then some (sendMultiply a.selectedLoop_ down a) else some a
  else if pedalIdx = CLEAR then
    if a.mode_ = .Rec then some (sendClearSelected down a) else some (sendClearAll down a)
  else if pedalIdx = REPLACE then
    if a.mode_ = .Rec then some (sendReplace a.selectedLoop_ down a) else some a
  else if pedalIdx = INSERT then
    if a.mode_ = .Rec then some (sendInsert a.selectedLoop_ down a) else some a
  else if pedalIdx = SUBSTITUTE then
    if a.mode_ = .Rec then some (sendSubstitute a.selectedLoop_ down a) else some a
  else if pedalIdx = MUTE then
    if a.mode_ = .Rec then some (sendMuteSelected down a)
    else if down then
      if allMute a.loops_ then some (sendMuteOffAll (sendTriggerAll a))
      else some (sendMuteAll a)
    else some a
  else if pedalIdx = UNDO then
    if a.mode_ = .Rec then some (sendUndoSelected down a) else some a
  else if pedalIdx = RECORD then
    let a1 : App :=
      if !down then { a with mode_ := if a.mode_ = .Rec then .Play else .Rec } else a
    if a1.mode_ = .Rec then ledOn RECORD a1 else ledOff RECORD a1
  else some a

/-- `handleIncomingMidiMessage`.  With a non-empty `filterCommands_` the
function returns before looking at the message (`filtered` is never set);
the console dump that follows the dispatch changes no state. -/
def handleIncomingMidiMessage (msg : MidiMessage) (a : App) : Option App :=
  if !a.filterCommandsEmpty then some a
  else
    match msg with
    | .controller number value =>
      let pedalIdx := pedalIndex value
      let down : Bool := if number = 104 then true else false
      dispatchPedal pedalIdx down a >>= updateLoops
    | .other => some a

/-! ## Requests sent to the looper by the session handlers -/

/-- The reply URL `"osc.udp://localhost:" + std::to_string (currentReceivePort_) + "/"`. -/
def replyUrl (a : App) : String :=
  "osc.udp://localhost:" ++ toString a.currentReceivePort_ ++ "/"

/-- `getCurrentState`. -/
def getCurrentState (index : Int) (a : App) : App :=
  oscSend ("/sl" ++ "/" ++ toString index ++ "/get")
    [.string "state", .string (replyUrl a), .string "/ctrl"] a

/-- `getSelectedLoop`. -/
def getSelectedLoop (a : App) : App :=
  oscSend "/get" [.string "selected_loop_num", .string (replyUrl a), .string "/ctrl"] a

/-- `registerAutoUpdates`. -/
def registerAutoUpdates (index : Int) (unreg : Bool) (a : App) : App :=
  if unreg then
    oscSend ("/sl" ++ "/" ++ toString index ++ "/unregister_auto_update")
      [.string "state", .int32 100, .string (replyUrl a), .string "/ctrl"] a
  else
    oscSend ("/sl" ++ "/" ++ toString index ++ "/register_auto_update")
      [.string "state", .int32 100, .string (replyUrl a), .string "/ctrl"] a

/-- `registerGlobalUpdates`. -/
def registerGlobalUpdates (unreg : Bool) (a : App) : App :=
  if unreg then
    oscSend ("" ++ "/unregister_update")
      [.string "selected_loop_num", .string (replyUrl a), .string "/ctrl"] a
  else
    oscSend ("" ++ "/register_update")
      [.string "selected_loop_num", .string (replyUrl a), .string "/ctrl"] a

/-- `selectLoop`: show the selected loop on the controller display. -/
def selectLoop (a : App) : App :=
  { a with
    midiOut := a.midiOut ++ [[MIDI_CMD_CONTROL, 108, ((a.selectedLoop_ + 1) % 256).toNat]]
    ledOsc := if a.oscLedSenderInitialized_ then
        a.ledOsc ++ [{ address := "/display", args := [.int32 a.selectedLoop_] }]
      else a.ledOsc }

/-- `loops_.add ({i, Off, true, leds_.getReference (i)})`. -/
def addLoop (i : Int) (a : App) : Option App :=
  match getReference a.leds_ i with
  | none => none
  | some _ => some { a with loops_ := a.loops_ ++ [{ index_ := i, state_ := Off, empty_ := true }] }

/-- A `for` loop whose counter takes the values of `is` in turn. -/
def forEach (body : Int → App → Option App) : List Int → App → Option App
  | [], a => some a
  | i :: is, a => body i a >>= forEach body is

/-- The values `lo, lo+1, ..., hi-1` of the counter of `for (i = lo; i < hi; i++)`. -/
def counterRange (lo hi : Int) : List Int :=
  (List.range (hi - lo).toNat).map fun (j : Nat) => lo + (j : Int)

/-- The conversion of a `float` to `int`: truncation toward zero, undefined
when the result does not fit. -/
def floatToInt (v : ℚ) : Option Int :=
  let t := Int.tdiv v.num v.den
  if -2147483648 ≤ t ∧ t ≤ 2147483647 then some t else none

/-! ## Session handlers -/

/-- The argument loop of `handlePingAckMessage`; `i` is the position of the
first argument of the list. -/
def pingAckArgs : Nat → List OSCArgument → App → App
  | _, [], a => a
  | i, arg :: rest, a =>
    let a1 : App :=
      match i, arg with
      | 0, .string s => { a with hostUrl_ := s }
      | 1, .string s => { a with version_ := s }
      | 2, .int32 v => { a with loopCount_ := v }
      | 3, .int32 v => { a with engineId_ := v }
      | _, _ => a
    pingAckArgs (i + 1) rest a1

/-- `handlePingAckMessage`. -/
def handlePingAckMessage (message : OSCMessage) (a : App) : Option App :=
  if message.args.isEmpty then some a
  else
    let a1 := pingAckArgs 0 message.args a
    (if a1.loopCount_ > 0 then
      forEach (fun i b => (addLoop i b).map fun b1 =>
          getCurrentState i (registerAutoUpdates i false b1))
        (counterRange 0 a1.loopCount_) { a1 with loops_ := [] } >>= fun a2 =>
      some (registerGlobalUpdates false (getSelectedLoop a2))
    else some a1) >>= fun a3 =>
    some { a3 with heartbeat_ := 5 }

/-- The argument loop of `handleHeartbeatMessage`: the members `hostUrl_`,
`version_` and the locals `numloops`, `uid`. -/
def heartbeatArgs : Nat → List OSCArgument → App × Int × Int → App × Int × Int
  | _, [], r => r
  | i, arg :: rest, (a, numloops, uid) =>
    let r1 : App × Int × Int :=
      match i, arg with
      | 0, .string s => ({ a with hostUrl_ := s }, numloops, uid)
      | 1, .string s => ({ a with version_ := s }, numloops, uid)
      | 2, .int32 v => (a, v, uid)
      | 3, .int32 v => (a, numloops, v)
      | _, _ => (a, numloops, uid)
    heartbeatArgs (i + 1) rest r1

/-- `handleHeartbeatMessage`. -/
def handleHeartbeatMessage (message : OSCMessage) (a : App) : Option App :=
  if message.args.isEmpty then some a
  else
    match heartbeatArgs 0 message.args (a, 0, a.engineId_) with
    | (a1, numloops, uid) =>
      (if uid ≠ a1.engineId_ then
        if numloops > 0 then
          forEach (fun i b => (addLoop i b).map fun b1 =>
              getCurrentState i (registerAutoUpdates i false b1))
            (counterRange 0 numloops) { a1 with loopCount_ := numloops, loops_ := [] } >>= fun a2 =>
          updateLoops (getSelectedLoop a2) >>= fun a3 =>
          some (registerGlobalUpdates false a3)
        else some a1
      else
        if a1.loopCount_ ≠ numloops then
          forEach (fun i b => addLoop i (registerAutoUpdates i false b))
            (counterRange a1.loopCount_ numloops) a1 >>= fun a2 =>
          updateLoops (getSelectedLoop a2) >>= fun a3 =>
          some { a3 with loopCount_ := numloops }
        else some a1) >>= fun a4 =>
      some { a4 with heartbeat_ := 5 }

/-- `handleCtrlMessage`.  Reading an argument behind the last one is an
out-of-range read, hence `none`. -/
def handleCtrlMessage (message : OSCMessage) (a : App) : Option App :=
  match message.args with
  | [] => some a
  | .int32 loopIndex :: rest =>
    if loopIndex = -2 then
      match rest with
      | [] => none
      | .string s :: rest2 =>
        if s = "selected_loop_num" then
          match rest2 with
          | [] => none
          | .float32 v :: _ =>
            (floatToInt v).map fun n => selectLoop { a with selectedLoop_ := n }
          | _ :: _ => some a
        else some a
      | _ :: _ => some a
    else if loopIndex < 0 then some a
    else
      (match rest with
      | [] => none
      | .string s :: rest2 =>
        if s = "state" then
          match rest2 with
          | [] => none
          | .float32 v :: _ =>
            (floatToInt v) >>= fun loopState =>
            updateLoopLedState loopIndex.toNat loopState a
          | _ :: _ => some a
        else some a
      | _ :: _ => some a) >>= fun a1 =>
      some { a1 with heartbeat_ := 5 }
  | _ :: _ => some a

/-! ## The periodic tick -/

/-- What the outside world answers during one `timerCallback`: whether the
controller output port gets opened on this tick (the port is named, not yet
open, and `snd_rawmidi_open` succeeds), and what `oscSender.connect` and
`oscReceiver.connect` would return. -/
structure TickEnv where
  midiOutOpened : Bool
  senderConnects : Bool
  receiverConnects : Bool
deriving DecidableEq

/-- `isValidOscPort`. -/
def isValidOscPort (port : Int) : Bool :=
  decide (port > 0 ∧ port < 65536)

/-- `connect`: open the receive port. -/
def connect (env : TickEnv) (a : App) : App :=
  let portToConnect := a.oscReceivePort_
  if !isValidOscPort portToConnect then a
  else if env.receiverConnects then { a with currentReceivePort_ := portToConnect }
  else a

/-- `tryToConnectOsc`: the new state and the returned flag. -/
def tryToConnectOsc (env : TickEnv) (a : App) : App × Bool :=
  let a1 : App :=
    if a.currentSendPort_ < 0 then
      if env.senderConnects then { a with currentSendPort_ := a.oscSendPort_ } else a
    else a
  let a2 : App := if a1.currentReceivePort_ < 0 then connect env a1 else a1
  if a2.currentSendPort_ > 0 ∧ a2.currentReceivePort_ > 0 then
    if !a2.pinged_ then
      (oscSend "/ping" [.string (replyUrl a2), .string "/pingack"] a2, true)
    else (a2, true)
  else (a2, false)

/-- The heartbeat part of `timerCallback` (both ports connected). -/
def heartbeatTick (env : TickEnv) (a : App) : App :=
  if a.heartbeat_ = 0 then
    { a with
      midiOut := a.midiOut ++
        [[MIDI_CMD_CONTROL, if a.heartbeatOn_ then 107 else 106, (CONFIG % 256).toNat]]
      heartbeatOn_ := !a.heartbeatOn_ }
  else if a.heartbeat_ < -5 then
    match tryToConnectOsc env { a with currentReceivePort_ := -1, currentSendPort_ := -1 } with
    | (a1, true) => { a1 with heartbeat_ := 5 }
    | (a1, false) => a1
  else { a with heartbeat_ := a.heartbeat_ - 1 }

/-- The body of the loop over `leds_` in `timerCallback`, for the LED at
position `j`. -/
def blinkLed (j : Int) (a : App) : Option App :=
  match getReference a.leds_ j with
  | none => none
  | some led =>
    if led.state_ = .Blink ∨ led.state_ = .FastBlink then
      if led.timer_ ≤ 0 then
        (if led.on_ then ledOff led.index_ a else ledOn led.index_ a) >>=
          modifyLed j fun l =>
            { l with timer_ := if led.state_ = .Blink then TIMER_BLINK else TIMER_FASTBLINK }
      else modifyLed j (fun l => { l with timer_ := l.timer_ - 1 }) a
    else some a

/-- `timerCallback`, from the opening of the controller output port on.
The search for MIDI ports before that touches none of the members of `App`. -/
def timerCallback (env : TickEnv) (a : App) : Option App :=
  (if env.midiOutOpened then forEach ledOff (counterRange 0 NUM_LEDS) a else some a) >>= fun a1 =>
  if a1.currentReceivePort_ < 0 ∨ a1.currentSendPort_ < 0 then
    match tryToConnectOsc env a1 with
    | (a2, true) => some { a2 with heartbeat_ := 5 }
    | (a2, false) => some a2
  else
    forEach blinkLed (counterRange 0 a1.leds_.length) (heartbeatTick env a1)

/-! ## Events -/

/-- The events the bridge reacts to. -/
inductive Event where
  | pingack (message : OSCMessage)
  | heartbeat (message : OSCMessage)
  | ctrl (message : OSCMessage)
  | pedal (msg : MidiMessage)
  | tick (env : TickEnv)

/-- One event handled to completion. -/
def step (a : App) : Event → Option App
  | .pingack message => handlePingAckMessage message a
  | .heartbeat message => handleHeartbeatMessage message a
  | .ctrl message => handleCtrlMessage message a
  | .pedal msg => handleIncomingMidiMessage msg a
  | .tick env => timerCallback env a

/-- A sequence of events handled one after the other. -/
def run : App → List Event → Option App
  | a, [] => some a
  | a, e :: es => step a e >>= fun a1 => run a1 es

/-- The states reachable from startup. -/
def Reachable (a : App) : Prop :=
  ∃ es : List Event, run App.init es = some a

/-! ## Observations and well-formedness -/

/-- The `on_` flag of LED `i`, when there is such an LED. -/
def ledOnAt (a : App) (i : Int) : Option Bool :=
  (getReference a.leds_ i).map fun led => led.on_

/-- The pattern `state_` of LED `i`, when there is such an LED. -/
def ledPatternAt (a : App) (i : Int) : Option LedStates :=
  (getReference a.leds_ i).map fun led => led.state_

/-- The LED array has its 23 entries and every loop refers to one of them. -/
def App.WF (a : App) : Prop :=
  a.leds_.length = NUM_LEDS ∧ ∀ l ∈ a.loops_, 0 ≤ l.index_ ∧ l.index_ < NUM_LEDS

instance (a : App) : Decidable a.WF := by
  unfold App.WF
  infer_instance

/-! ## Closed forms of the LED operations (used by the proofs) -/

/-- The state after a successful `ledWrite` on LED `n`. -/
def ledWritten (flag : Bool) (cc : Nat) (n : Nat) (a : App) : App :=
  { a with
    leds_ := a.leds_.modify (fun l => { l with on_ := flag }) n
    midiOut := a.midiOut ++ [[MIDI_CMD_CONTROL, cc, ledNumber n]]
    ledOsc := if a.oscLedSenderInitialized_ then
        a.ledOsc ++ (a.leds_[n]?.map fun l => ledMessage { l with on_ := flag }).toList
      else a.ledOsc }

/-- The state after a successful `modifyLed` on LED `n`. -/
def ledModified (f : LED → LED) (n : Nat) (a : App) : App :=
  { a with leds_ := a.leds_.modify f n }

/-- Pattern and timer that the first `switch` of `updateLoopLedState` gives
to the loop LED. -/
def newPattern (mode : Modes) (s : Int) : LedStates × Int :=
  if s = Unknown ∨ s = Off then (.Dark, TIMER_OFF)
  else if s = WaitStart ∨ s = WaitStop then (.FastBlink, TIMER_FASTBLINK)
  else if s = Recording then (.Light, TIMER_OFF)
  else if s = Overdubbing then (.Light, TIMER_OFF)
  else if s = Inserting then (.FastBlink, TIMER_FASTBLINK)
  else if s = Replacing then (.FastBlink, TIMER_FASTBLINK)
  else if s = Substitute then (.FastBlink, TIMER_FASTBLINK)
  else if s = Multiplying then (.FastBlink, TIMER_FASTBLINK)
  else if s = Delay then (.Light, TIMER_OFF)
  else if s = Scratching then (.Light, TIMER_OFF)
  else if s = OneShot then (.Light, TIMER_OFF)
  else if s = Playing then (if mode = .Play then (.Light, TIMER_OFF) else (.Blink, TIMER_BLINK))
  else if s = Muted ∨ s = Paused then (.Blink, TIMER_BLINK)
  else (.Dark, TIMER_OFF)

/-- Whether the first `switch` ends with `ledOn (loop.index_)` rather than
`ledOff (loop.index_)`. -/
def newFlag (s : Int) : Bool :=
  if s = Unknown ∨ s = Off then false
  else if s = WaitStart ∨ s = WaitStop ∨ s = Recording ∨ s = Overdubbing ∨ s = Inserting ∨
      s = Replacing ∨ s = Substitute ∨ s = Multiplying ∨ s = Delay ∨ s = Scratching ∨
      s = OneShot ∨ s = Playing ∨ s = Muted ∨ s = Paused then true
  else false

/-- The side LED belonging to a loop state, if it has one. -/
def sideLed (s : Int) : Option Nat :=
  if s = Multiplying then some 5
  else if s = Replacing then some 6
  else if s = Inserting then some 7
  else if s = Substitute then some 8
  else none

/-- Switch on or off an optional LED. -/
def sideWritten (flag : Bool) (cc : Nat) (side : Option Nat) (a : App) : App :=
  match side with
  | none => a
  | some i => ledWritten flag cc i a

/-- The state after the first `switch` of `updateLoopLedState` on a loop whose
LED is LED `n`. -/
def appliedNew (n : Nat) (s : Int) (a : App) : App :=
  sideWritten true 106 (sideLed s)
    (ledWritten (newFlag s) (if newFlag s then 106 else 107) n
      (ledModified (fun led => { led with state_ := (newPattern a.mode_ s).1,
                                          timer_ := (newPattern a.mode_ s).2 }) n a))

/-- The state after the whole of `updateLoopLedState`. -/
def updated (k : Nat) (loop : Loop) (s : Int) (a : App) : App :=
  let a1 := appliedNew loop.index_.toNat s a
  let a2 := if s ≠ loop.state_ then sideWritten false 107 (sideLed loop.state_) a1 else a1
  { a2 with loops_ := a2.loops_.set k { loop with state_ := s, empty_ := decide (s = Off) } }

/-- The LED at position `j` after `updateLoopLedState`, from the LED before. -/
def ledAfter (n : Nat) (mode : Modes) (old s : Int) (j : Nat) (l : LED) : LED :=
  let l1 : LED := if n = j then { l with state_ := (newPattern mode s).1, timer_ := (newPattern mode s).2 } else l
  let l2 : LED := if n = j then { l1 with on_ := newFlag s } else l1
  let l3 : LED := if sideLed s = some j then { l2 with on_ := true } else l2
  if s ≠ old ∧ sideLed old = some j then { l3 with on_ := false } else l3

/-- The two states agree on everything but the LED array, the loop
collection and the two LED traces. -/
def LedsOnly (a b : App) : Prop :=
  { b with leds_ := a.leds_, loops_ := a.loops_, midiOut := a.midiOut, ledOsc := a.ledOsc } = a

/-- The state reached from startup by a `/pingack` announcing six loops. -/
def sixLoops : Option App :=
  run App.init [.pingack ⟨"/pingack", [.string "x", .string "1.0", .int32 6, .int32 7]⟩]

/-- A loop with `empty_` recomputed from `state_`. -/
def fixEmpty (l : Loop) : Loop :=
  { l with empty_ := decide (l.state_ = Off) }

/-- The loop record created for index `i` by a rebuild. -/
def freshLoop (i : Int) : Loop :=
  { index_ := i, state_ := Off, empty_ := true }

/-- The two states agree on everything but the loop collection and the
trace of the messages sent to the looper. -/
def OscOnly (a b : App) : Prop :=
  { b with oscOut := a.oscOut, loops_ := a.loops_ } = a

/-- A well-formed state with two loops (Playing and Multiplying), used to
instantiate the theorems below. -/
def demoApp : App :=
  { App.init with
    loops_ := [{ index_ := 0, state_ := Playing, empty_ := false },
               { index_ := 1, state_ := Multiplying, empty_ := false }]
    loopCount_ := 2 }

/-- A `/pingack` or `/heartbeat` payload announcing two loops of engine 7. -/
def demoMessage : OSCMessage :=
  { address := "/pingack", args := [.string "x", .string "1.0", .int32 2, .int32 7] }

/-- The events of the counterexample to C5: two loops are announced, both start
multiplying, then loop 0 goes on to Playing. -/
def twoMultiplying : List Event :=
  [.pingack ⟨"/pingack", [.string "x", .string "1.0", .int32 2, .int32 7]⟩,
   .ctrl ⟨"/ctrl", [.int32 0, .string "state", .float32 6]⟩,
   .ctrl ⟨"/ctrl", [.int32 1, .string "state", .float32 6]⟩,
   .ctrl ⟨"/ctrl", [.int32 0, .string "state", .float32 4]⟩]

/-- The only out-of-range access a pedal event can make in a well-formed state:
a track pedal in mode Rec reads `loops_[pedalIdx]`.  `PedalDefined` says that
this loop exists. -/
def PedalDefined (a : App) (value : Int) : Prop :=
  a.mode_ = .Rec → 0 ≤ pedalIndex value ∧ pedalIndex value ≤ 3 →
    pedalIndex value < a.loops_.length

instance (a : App) (value : Int) : Decidable (PedalDefined a value) := by
  unfold PedalDefined
  infer_instance

/-- The action name chosen by `sendRecordOrOverdubSelected` for a loop. -/
def recordOrOverdub (loop : Loop) : String :=
  if loop.state_ = Recording then "record"
  else if loop.state_ = Overdubbing then "overdub"
  else if loop.empty_ then "record"
  else "overdub"

/-- The events of the scenario of C8: two loops announced, loop 1 reported
Overdubbing, the Record pedal released (mode Rec), then Track2 pressed. -/
def track2Events : List Event :=
  [.pingack ⟨"/pingack", [.string "x", .string "1.0", .int32 2, .int32 7]⟩,
   .ctrl ⟨"/ctrl", [.int32 1, .string "state", .float32 5]⟩,
   .pedal (.controller 105 5),
   .pedal (.controller 104 2)]

/-- A well-formed state in mode Rec whose loop 1 is Overdubbing. -/
def overdubApp : App :=
  { App.init with
    mode_ := .Rec
    loops_ := [{ index_ := 0, state_ := Off, empty_ := true },
               { index_ := 1, state_ := Overdubbing, empty_ := false }]
    loopCount_ := 2 }

/-- The events of the counterexample to C12: five loops are announced, loop 4
(which owns LED 4, the Record LED) is reported Recording, then two loops are
announced. -/
def staleRecordLed : List Event :=
  [.pingack ⟨"/pingack", [.string "x", .string "1.0", .int32 5, .int32 7]⟩,
   .ctrl ⟨"/ctrl", [.int32 4, .string "state", .float32 2]⟩,
   .pingack ⟨"/pingack", [.string "x", .string "1.0", .int32 2, .int32 7]⟩]

/-- A second run for C12, with no loop at all: the Record pedal is released (mode
Rec, Record LED on), then a tick opens the controller output port, which switches
every LED off. -/
def recordLedReset : List Event :=
  [.pedal (.controller 105 5),
   .tick { midiOutOpened := true, senderConnects := false, receiverConnects := false }]

/-- What one tick does to the record of a single LED. -/
def tickLed (l : LED) : LED :=
  if l.state_ = .Blink ∨ l.state_ = .FastBlink then
    if l.timer_ ≤ 0 then
      { l with on_ := !l.on_, timer_ := if l.state_ = .Blink then TIMER_BLINK else TIMER_FASTBLINK }
    else { l with timer_ := l.timer_ - 1 }
  else l

/-- Every LED record carries its own position as `index_`, as set up by the
constructor of the application. -/
def LedsIndexed (a : App) : Prop :=
  a.leds_.map (fun l => l.index_) = (List.range a.leds_.length).map fun (j : Nat) => (j : Int)

instance (a : App) : Decidable (LedsIndexed a) := by
  unfold LedsIndexed
  infer_instance

/-- The state after a successful `blinkLed` on LED `j`. -/
def blinked (j : Nat) (a : App) : App :=
  match a.leds_[j]? with
  | none => a
  | some led =>
    if led.state_ = .Blink ∨ led.state_ = .FastBlink then
      if led.timer_ ≤ 0 then
        ledModified
          (fun l => { l with timer_ := if led.state_ = .Blink then TIMER_BLINK else TIMER_FASTBLINK })
          j (ledWritten (!led.on_) (if led.on_ then 107 else 106) j a)
      else ledModified (fun l => { l with timer_ := l.timer_ - 1 }) j a
    else a

/-- The number of ticks, among the next `n`, on which the on flag of the LED
record flips. -/
def flipsWithin (n : Nat) (l : LED) : Nat :=
  ((List.range n).filter fun k => (tickLed^[k + 1] l).on_ != (tickLed^[k] l).on_).length

/-- A tick on which both OSC ports can be connected and the controller output
port is not being opened. -/
def connectingTick : TickEnv :=
  { midiOutOpened := false, senderConnects := true, receiverConnects := true }

/-- A connected state whose LED 0 has pattern Blink (on, timer 3) and LED 1
pattern FastBlink (on, timer 1); the other LEDs are Dark. -/
def blinkingApp : App :=
  { App.init with
    currentReceivePort_ := 9000
    currentSendPort_ := 9951
    leds_ := (List.range NUM_LEDS).map fun (i : Nat) =>
      { index_ := (i : Int), on_ := decide (i < 2),
        timer_ := if i = 0 then TIMER_BLINK else if i = 1 then TIMER_FASTBLINK else TIMER_OFF,
        state_ := if i = 0 then .Blink else if i = 1 then .FastBlink else .Dark } }

/-- The events that leave LED 0 blinking: the ports get connected, one loop is
announced and reported Muted (state 10). -/
def mutedLoop : List Event :=
  [.tick connectingTick,
   .pingack ⟨"/pingack", [.string "x", .string "1.0", .int32 1, .int32 7]⟩,
   .ctrl ⟨"/ctrl", [.int32 0, .string "state", .float32 10]⟩]

/-- The events that leave LED 0 blinking fast: the ports get connected, one loop
is announced and reported WaitStart (state 1). -/
def waitingLoop : List Event :=
  [.tick connectingTick,
   .pingack ⟨"/pingack", [.string "x", .string "1.0", .int32 1, .int32 7]⟩,
   .ctrl ⟨"/ctrl", [.int32 0, .string "state", .float32 1]⟩]

/-- A connected state whose heartbeat countdown has run down to 0. -/
def silentApp : App :=
  { blinkingApp with heartbeat_ := 0 }

/-- The events before the `/ctrl` message of C15: the ports get connected, two
loops are announced, and two ticks pass without traffic. -/
def twoQuietTicks : List Event :=
  [.tick connectingTick,
   .pingack ⟨"/pingack", [.string "x", .string "1.0", .int32 2, .int32 7]⟩,
   .tick connectingTick,
   .tick connectingTick]

/-- The message sent by `registerAutoUpdates (i, false)` when the receive port
marker is `port`. -/
def registerAutoUpdateMessage (port i : Int) : OSCMessage :=
  { address := "/sl" ++ "/" ++ toString i ++ "/register_auto_update",
    args := [.string "state", .int32 100,
      .string ("osc.udp://localhost:" ++ toString port ++ "/"), .string "/ctrl"] }

/-- The message sent by `getCurrentState (i)`. -/
def getStateMessage (port i : Int) : OSCMessage :=
  { address := "/sl" ++ "/" ++ toString i ++ "/get",
    args := [.string "state", .string ("osc.udp://localhost:" ++ toString port ++ "/"),
      .string "/ctrl"] }

/-- The message sent by `getSelectedLoop ()`. -/
def getSelectedMessage (port : Int) : OSCMessage :=
  { address := "/get",
    args := [.string "selected_loop_num",
      .string ("osc.udp://localhost:" ++ toString port ++ "/"), .string "/ctrl"] }

/-- The message sent by `registerGlobalUpdates (false)`. -/
def registerUpdateMessage (port : Int) : OSCMessage :=
  { address := "" ++ "/register_update",
    args := [.string "selected_loop_num",
      .string ("osc.udp://localhost:" ++ toString port ++ "/"), .string "/ctrl"] }

/-- The events of the counterexample to C17: two loops are announced, then a
`/pingack` announces zero loops. -/
def zeroLoopsAnnounced : List Event :=
  [.pingack ⟨"/pingack", [.string "x", .string "1.0", .int32 2, .int32 7]⟩,
   .pingack ⟨"/pingack", [.string "x", .string "1.0", .int32 0, .int32 7]⟩]

/-- The events of the counterexample to C19: two loops of engine 7 are announced,
then a `/heartbeat` of engine 8 reports zero loops. -/
def newEngineNoLoops : List Event :=
  [.pingack ⟨"/pingack", [.string "x", .string "1.0", .int32 2, .int32 7]⟩,
   .heartbeat ⟨"/heartbeat", [.string "x", .string "1.0", .int32 0, .int32 8]⟩]

/-- The reload value of the timer for each LED pattern. -/
def period : LedStates → Int
  | .Blink => TIMER_BLINK
  | .FastBlink => TIMER_FASTBLINK
  | .Dark => TIMER_OFF
  | .Light => TIMER_OFF

/-- A pattern and a timer value within the period of the pattern. -/
def PatternOk (p : LedStates × Int) : Prop :=
  0 ≤ p.2 ∧ p.2 ≤ period p.1

instance (p : LedStates × Int) : Decidable (PatternOk p) := by
  unfold PatternOk
  infer_instance

/-- The timer of an LED record lies between 0 and the period of its pattern. -/
def TimerOk (l : LED) : Prop :=
  0 ≤ l.timer_ ∧ l.timer_ ≤ period l.state_

instance (l : LED) : Decidable (TimerOk l) := by
  unfold TimerOk
  infer_instance

/-- Every LED of the array has its timer within bounds. -/
def TimersOk (a : App) : Prop :=
  ∀ l ∈ a.leds_, TimerOk l

instance (a : App) : Decidable (TimersOk a) := by
  unfold TimersOk
  infer_instance

/-- What the LED operations and the pedal dispatcher leave alone: the heartbeat
countdown, the loop count, the engine id and the size of the loop collection;
and they keep the LED timers within bounds. -/
def Calm (a b : App) : Prop :=
  b.heartbeat_ = a.heartbeat_ ∧ b.loopCount_ = a.loopCount_ ∧ b.engineId_ = a.engineId_ ∧
    b.loops_.length = a.loops_.length ∧ (TimersOk a → TimersOk b)

/-- The invariant of the reachable states used for C21, C27 and C29: the
heartbeat countdown lies in 0..5, every LED timer is within the period of its
pattern, and the loop count does not exceed the size of the loop collection. -/
def Inv (a : App) : Prop :=
  (0 ≤ a.heartbeat_ ∧ a.heartbeat_ ≤ 5) ∧ TimersOk a ∧ a.loopCount_ ≤ a.loops_.length

/-- The events of the second counterexample to C21: three loops of engine 7 are
announced, then a `/heartbeat` of the same engine reports two loops. -/
def fewerLoopsReported : List Event :=
  [.pingack ⟨"/pingack", [.string "x", .string "1.0", .int32 3, .int32 7]⟩,
   .heartbeat ⟨"/heartbeat", [.string "x", .string "1.0", .int32 2, .int32 7]⟩]

/-- The events before the malformed messages of C23: the ports get connected, two
loops are announced, loop 0 is reported Playing, and two ticks pass. -/
def playingThenQuiet : List Event :=
  [.tick connectingTick,
   .pingack ⟨"/pingack", [.string "x", .string "1.0", .int32 2, .int32 7]⟩,
   .ctrl ⟨"/ctrl", [.int32 0, .string "state", .float32 4]⟩,
   .tick connectingTick,
   .tick connectingTick]

/-- The events before the last message of the counterexamples to C24 and C26: one
loop is announced and reported Multiplying. -/
def oneMultiplying : List Event :=
  [.pingack ⟨"/pingack", [.string "x", .string "1.0", .int32 1, .int32 7]⟩,
   .ctrl ⟨"/ctrl", [.int32 0, .string "state", .float32 6]⟩]

/-- The string that `isString()` and `getString()` give for the argument at
position `i` of an argument list, when there is such an argument and it is a
string. -/
def stringAt (args : List OSCArgument) (i : Nat) : Option String :=
  match args.get? i with
  | some (.string s) => some s
  | _ => none

/-- The integer that `isInt32()` and `getInt32()` give for the argument at
position `i` of an argument list, when there is such an argument and it is an
int32. -/
def int32At (args : List OSCArgument) (i : Nat) : Option Int :=
  match args.get? i with
  | some (.int32 v) => some v
  | _ => none

/-! ## Lemmas on the LED operations -/

theorem set_getElem_eq_modify {α : Type} (f : α → α) (n : Nat) (l : List α) (h : n < l.length) :
    l.set n (f l[n]) = l.modify f n := by
  apply List.ext_getElem
  · simp
  · intro m h1 h2
    simp only [List.getElem_set, List.getElem_modify]
    split_ifs with hm
    · subst hm; rfl
    · rfl

theorem ledWrite_valid (flag : Bool) (cc : Nat) (i : Int) (a : App)
    (h0 : 0 ≤ i) (h1 : i.toNat < a.leds_.length) :
    ledWrite flag cc i a = some (ledWritten flag cc i.toNat a) := by
  lift i to ℕ using h0 with n
  have ht : ((n : Int)).toNat = n := by simp
  rw [ht] at h1 ⊢
  have hg : getReference a.leds_ (n : Int) = some a.leds_[n] := by simp [getReference, h1]
  simp only [ledWrite, hg, ledWritten, ht, List.getElem?_eq_getElem h1, Option.map_some', Option.toList_some]
  rw [set_getElem_eq_modify (fun l : LED => { l with on_ := flag }) n a.leds_ h1]

theorem modifyLed_valid (f : LED → LED) (i : Int) (a : App)
    (h0 : 0 ≤ i) (h1 : i.toNat < a.leds_.length) :
    modifyLed i f a = some (ledModified f i.toNat a) := by
  lift i to ℕ using h0 with n
  have ht : ((n : Int)).toNat = n := by simp
  rw [ht] at h1 ⊢
  have hg : getReference a.leds_ (n : Int) = some a.leds_[n] := by simp [getReference, h1]
  simp only [modifyLed, hg, ledModified, ht]
  rw [set_getElem_eq_modify f n a.leds_ h1]

@[simp] theorem ledWritten_length (flag : Bool) (cc n : Nat) (a : App) :
    (ledWritten flag cc n a).leds_.length = a.leds_.length := by
  simp [ledWritten]

@[simp] theorem ledModified_length (f : LED → LED) (n : Nat) (a : App) :
    (ledModified f n a).leds_.length = a.leds_.length := by
  simp [ledModified]

@[simp] theorem sideWritten_length (flag : Bool) (cc : Nat) (side : Option Nat) (a : App) :
    (sideWritten flag cc side a).leds_.length = a.leds_.length := by
  cases side <;> simp [sideWritten]

@[simp] theorem appliedNew_length (n : Nat) (s : Int) (a : App) :
    (appliedNew n s a).leds_.length = a.leds_.length := by
  simp [appliedNew]

theorem sideLed_lt (s : Int) (i : Nat) (h : sideLed s = some i) : i < 9 := by
  unfold sideLed at h
  split_ifs at h <;> simp at h <;> omega

theorem loopState_cases (s : Int) :
    (s = -1 ∨ s = 0 ∨ s = 1 ∨ s = 2 ∨ s = 3 ∨ s = 4 ∨ s = 5 ∨ s = 6 ∨ s = 7 ∨ s = 8 ∨ s = 9 ∨
      s = 10 ∨ s = 11 ∨ s = 12 ∨ s = 13 ∨ s = 14 ∨ s = 20) ∨
    ((s < -1 ∨ 14 < s) ∧ s ≠ 20) := by
  omega

/-- The first `switch` of `updateLoopLedState` as a table: a pattern, a write
to the loop LED, and possibly a side LED switched on. -/
theorem applyNewState_table (loop : Loop) (s : Int) (a : App) :
    applyNewState loop s a =
      match sideLed s with
      | none =>
        setLoopLed loop (newPattern a.mode_ s).1 (newPattern a.mode_ s).2 a >>=
          ledWrite (newFlag s) (if newFlag s then 106 else 107) loop.index_
      | some i =>
        setLoopLed loop (newPattern a.mode_ s).1 (newPattern a.mode_ s).2 a >>=
          ledWrite (newFlag s) (if newFlag s then 106 else 107) loop.index_ >>=
          ledWrite true 106 (i : Int) := by
  rcases loopState_cases s with h | h
  · rcases h with h | h | h | h | h | h | h | h | h | h | h | h | h | h | h | h | h <;> subst h <;>
      first
        | rfl
        | (by_cases hm : a.mode_ = .Play
           · simp only [applyNewState, newPattern, hm]; rfl
           · simp only [applyNewState, newPattern, hm]; rfl)
  · obtain ⟨h1, h2⟩ := h
    have n1 : ¬ s = -1 := by omega
    have n2 : ¬ s = 0 := by omega
    have n3 : ¬ s = 1 := by omega
    have n4 : ¬ s = 2 := by omega
    have n5 : ¬ s = 3 := by omega
    have n6 : ¬ s = 4 := by omega
    have n7 : ¬ s = 5 := by omega
    have n8 : ¬ s = 6 := by omega
    have n9 : ¬ s = 7 := by omega
    have n10 : ¬ s = 8 := by omega
    have n11 : ¬ s = 9 := by omega
    have n12 : ¬ s = 10 := by omega
    have n13 : ¬ s = 11 := by omega
    have n14 : ¬ s = 12 := by omega
    have n15 : ¬ s = 13 := by omega
    have n16 : ¬ s = 14 := by omega
    have e1 : applyNewState loop s a = setLoopLed loop .Dark TIMER_OFF a >>= ledOff loop.index_ := by
      unfold applyNewState
      simp only [Unknown, Off, WaitStart, WaitStop, Recording, Overdubbing, Inserting, Replacing,
        Substitute, Multiplying, Delay, Scratching, OneShot, Playing, Muted, Paused, Last,
        n1, n2, n3, n4, n5, n6, n7, n8, n9, n10, n11, n12, n13, n14, n15, n16, h2, or_self, if_false]
    have e2 : newPattern a.mode_ s = (.Dark, TIMER_OFF) := by
      unfold newPattern
      simp only [Unknown, Off, WaitStart, WaitStop, Recording, Overdubbing, Inserting, Replacing,
        Substitute, Multiplying, Delay, Scratching, OneShot, Playing, Muted, Paused, Last,
        n1, n2, n3, n4, n5, n6, n7, n8, n9, n10, n11, n12, n13, n14, n15, n16, h2, or_self, if_false]
    have e3 : newFlag s = false := by
      unfold newFlag
      simp only [Unknown, Off, WaitStart, WaitStop, Recording, Overdubbing, Inserting, Replacing,
        Substitute, Multiplying, Delay, Scratching, OneShot, Playing, Muted, Paused, Last,
        n1, n2, n3, n4, n5, n6, n7, n8, n9, n10, n11, n12, n13, n14, n15, n16, h2, or_self, if_false]
    have e4 : sideLed s = none := by
      unfold sideLed
      simp only [Inserting, Replacing, Substitute, Multiplying, n8, n9, n10, n15, if_false]
    rw [e1, e2, e3, e4]
    rfl

theorem ledWrite_nat (flag : Bool) (cc : Nat) (i : Nat) (a : App) (h : i < a.leds_.length) :
    ledWrite flag cc (i : Int) a = some (ledWritten flag cc i a) := by
  have := ledWrite_valid flag cc (i : Int) a (by simp) (by simpa using h)
  simpa using this

theorem sideWrite_valid (flag : Bool) (cc : Nat) (s : Int) (a : App) (h8 : 8 < a.leds_.length) :
    (match sideLed s with
      | none => some a
      | some i => ledWrite flag cc (i : Int) a) = some (sideWritten flag cc (sideLed s) a) := by
  cases hs : sideLed s with
  | none => rfl
  | some i =>
    have := sideLed_lt s i hs
    simp only [sideWritten]
    exact ledWrite_nat flag cc i a (by omega)

theorem applyNewState_valid (loop : Loop) (s : Int) (a : App)
    (h0 : 0 ≤ loop.index_) (h1 : loop.index_.toNat < a.leds_.length) (h8 : 8 < a.leds_.length) :
    applyNewState loop s a = some (appliedNew loop.index_.toNat s a) := by
  rw [applyNewState_table]
  have e1 : setLoopLed loop (newPattern a.mode_ s).1 (newPattern a.mode_ s).2 a >>=
      ledWrite (newFlag s) (if newFlag s then 106 else 107) loop.index_ =
      some (ledWritten (newFlag s) (if newFlag s then 106 else 107) loop.index_.toNat
        (ledModified (fun led => { led with state_ := (newPattern a.mode_ s).1,
                                            timer_ := (newPattern a.mode_ s).2 })
          loop.index_.toNat a)) := by
    unfold setLoopLed
    rw [modifyLed_valid _ _ _ h0 h1]
    exact ledWrite_valid _ _ _ _ h0 (by simpa using h1)
  rw [e1]
  have e2 := sideWrite_valid true 106 s
    (ledWritten (newFlag s) (if newFlag s then 106 else 107) loop.index_.toNat
        (ledModified (fun led => { led with state_ := (newPattern a.mode_ s).1,
                                            timer_ := (newPattern a.mode_ s).2 })
          loop.index_.toNat a)) (by simpa using h8)
  unfold appliedNew
  rw [← e2]
  cases sideLed s <;> rfl

theorem clearOldState_table (old : Int) (a : App) :
    clearOldState old a =
      match sideLed old with
      | none => some a
      | some i => ledWrite false 107 (i : Int) a := by
  unfold clearOldState sideLed
  split_ifs <;> rfl

theorem updateLoopLedState_valid (k : Nat) (loop : Loop) (s : Int) (a : App)
    (hk : a.loops_[k]? = some loop)
    (h0 : 0 ≤ loop.index_) (h1 : loop.index_.toNat < a.leds_.length) (h8 : 8 < a.leds_.length) :
    updateLoopLedState k s a = some (updated k loop s a) := by
  unfold updateLoopLedState updated
  simp only [hk]
  rw [applyNewState_valid loop s a h0 h1 h8]
  by_cases hs : s = loop.state_
  · simp [hs]
  · have e := sideWrite_valid false 107 loop.state_ (appliedNew loop.index_.toNat s a)
      (by simpa using h8)
    simp only [ne_eq, hs, not_false_eq_true, if_true, Option.some_bind, Option.bind_eq_bind,
      clearOldState_table, e]

theorem ledWritten_getElem? (flag : Bool) (cc n : Nat) (a : App) (j : Nat) :
    (ledWritten flag cc n a).leds_[j]? =
      (a.leds_[j]?).map fun l => if n = j then { l with on_ := flag } else l := by
  simp [ledWritten, List.getElem?_modify]

theorem ledModified_getElem? (f : LED → LED) (n : Nat) (a : App) (j : Nat) :
    (ledModified f n a).leds_[j]? = (a.leds_[j]?).map fun l => if n = j then f l else l := by
  simp [ledModified, List.getElem?_modify]

theorem sideWritten_getElem? (flag : Bool) (cc : Nat) (side : Option Nat) (a : App) (j : Nat) :
    (sideWritten flag cc side a).leds_[j]? =
      (a.leds_[j]?).map fun l => if side = some j then { l with on_ := flag } else l := by
  cases side with
  | none => simp [sideWritten]
  | some i => simp [sideWritten, ledWritten_getElem?]

theorem updated_getElem? (k : Nat) (loop : Loop) (s : Int) (a : App) (j : Nat) :
    (updated k loop s a).leds_[j]? =
      (a.leds_[j]?).map (ledAfter loop.index_.toNat a.mode_ loop.state_ s j) := by
  have e : (updated k loop s a).leds_[j]? =
      (if s ≠ loop.state_ then sideWritten false 107 (sideLed loop.state_)
          (appliedNew loop.index_.toNat s a)
        else appliedNew loop.index_.toNat s a).leds_[j]? := rfl
  rw [e]
  by_cases hs : s = loop.state_
  · simp only [hs, ne_eq, not_true_eq_false, if_false, appliedNew, sideWritten_getElem?,
      ledWritten_getElem?, ledModified_getElem?, Option.map_map]
    cases a.leds_[j]? with
    | none => rfl
    | some l => simp [ledAfter]
  · simp only [hs, ne_eq, not_false_eq_true, if_true, appliedNew, sideWritten_getElem?,
      ledWritten_getElem?, ledModified_getElem?, Option.map_map]
    cases a.leds_[j]? with
    | none => rfl
    | some l => simp [ledAfter, hs]

theorem ledsOnly_refl (a : App) : LedsOnly a a := by
  cases a; rfl

theorem ledsOnly_trans {a b c : App} (h1 : LedsOnly a b) (h2 : LedsOnly b c) : LedsOnly a c := by
  cases a; cases b; cases c
  simp only [LedsOnly, App.mk.injEq, true_and] at *
  obtain ⟨e1, e2, e3, e4, e5, e6, e7, e8, e9, e10, e11, e12, e13, e14, e15, e16⟩ := h1
  obtain ⟨f1, f2, f3, f4, f5, f6, f7, f8, f9, f10, f11, f12, f13, f14, f15, f16⟩ := h2
  simp_all

theorem ledsOnly_mode {a b : App} (h : LedsOnly a b) : b.mode_ = a.mode_ :=
  by
  unfold LedsOnly at h
  have e := congrArg App.mode_ h
  exact e

theorem ledsOnly_selectedLoop {a b : App} (h : LedsOnly a b) : b.selectedLoop_ = a.selectedLoop_ :=
  by
  unfold LedsOnly at h
  have e := congrArg App.selectedLoop_ h
  exact e

theorem ledsOnly_oscOut {a b : App} (h : LedsOnly a b) : b.oscOut = a.oscOut :=
  by
  unfold LedsOnly at h
  have e := congrArg App.oscOut h
  exact e

theorem ledWritten_ledsOnly (flag : Bool) (cc n : Nat) (a : App) :
    LedsOnly a (ledWritten flag cc n a) := by
  cases a; rfl

theorem ledModified_ledsOnly (f : LED → LED) (n : Nat) (a : App) :
    LedsOnly a (ledModified f n a) := by
  cases a; rfl

theorem sideWritten_ledsOnly (flag : Bool) (cc : Nat) (side : Option Nat) (a : App) :
    LedsOnly a (sideWritten flag cc side a) := by
  cases side with
  | none => exact ledsOnly_refl a
  | some i => exact ledWritten_ledsOnly flag cc i a

theorem updated_ledsOnly (k : Nat) (loop : Loop) (s : Int) (a : App) :
    LedsOnly a (updated k loop s a) := by
  have h1 : LedsOnly a (appliedNew loop.index_.toNat s a) :=
    ledsOnly_trans (ledsOnly_trans (ledModified_ledsOnly _ _ a) (ledWritten_ledsOnly _ _ _ _))
      (sideWritten_ledsOnly _ _ _ _)
  have h2 : LedsOnly a (if s ≠ loop.state_ then
      sideWritten false 107 (sideLed loop.state_) (appliedNew loop.index_.toNat s a)
      else appliedNew loop.index_.toNat s a) := by
    split_ifs
    · exact ledsOnly_trans h1 (sideWritten_ledsOnly _ _ _ _)
    · exact h1
  exact h2

theorem getReference_natCast {α : Type} (xs : List α) (n : Nat) :
    getReference xs (n : Int) = xs[n]? := by
  simp [getReference]

theorem getReference_of_nonneg {α : Type} (xs : List α) (i : Int) (h : 0 ≤ i) :
    getReference xs i = xs[i.toNat]? := by
  simp [getReference, not_lt.mpr h]

theorem ledAfter_state (n : Nat) (mode : Modes) (old s : Int) (l : LED) :
    (ledAfter n mode old s n l).state_ = (newPattern mode s).1 := by
  unfold ledAfter
  simp only [if_true]
  split_ifs <;> rfl

theorem wf_loop_valid {a : App} (hwf : a.WF) {k : Nat} {loop : Loop}
    (hk : a.loops_[k]? = some loop) :
    0 ≤ loop.index_ ∧ loop.index_.toNat < a.leds_.length ∧ 8 < a.leds_.length := by
  obtain ⟨hl, hv⟩ := hwf
  have hmem : loop ∈ a.loops_ := List.getElem?_mem hk
  obtain ⟨h0, h1⟩ := hv loop hmem
  simp only [NUM_LEDS] at hl h1
  refine ⟨h0, ?_, ?_⟩ <;> omega

theorem updateLoopLedState_wf (k : Nat) (loop : Loop) (s : Int) (a : App)
    (hk : a.loops_[k]? = some loop) (hwf : a.WF) :
    updateLoopLedState k s a = some (updated k loop s a) := by
  obtain ⟨h0, h1, h8⟩ := wf_loop_valid hwf hk
  exact updateLoopLedState_valid k loop s a hk h0 h1 h8

theorem ledPatternAt_updated (k : Nat) (loop : Loop) (s : Int) (a : App)
    (hk : a.loops_[k]? = some loop) (hwf : a.WF) :
    ledPatternAt (updated k loop s a) loop.index_ = some (newPattern a.mode_ s).1 := by
  obtain ⟨h0, h1, h8⟩ := wf_loop_valid hwf hk
  unfold ledPatternAt
  rw [getReference_of_nonneg _ _ h0, updated_getElem?, List.getElem?_eq_getElem h1]
  simp [ledAfter_state]

theorem ledAfter_on (n : Nat) (mode : Modes) (old s : Int) (j : Nat) (l : LED) :
    (ledAfter n mode old s j l).on_ =
      if s ≠ old ∧ sideLed old = some j then false
      else if sideLed s = some j then true
      else if n = j then newFlag s
      else l.on_ := by
  unfold ledAfter
  split_ifs <;> rfl

theorem sideLed_eq_some_iff (s : Int) (j : Nat) :
    sideLed s = some j ↔ (s = 6 ∧ j = 5) ∨ (s = 8 ∧ j = 6) ∨ (s = 7 ∧ j = 7) ∨ (s = 13 ∧ j = 8) := by
  unfold sideLed
  simp only [Multiplying, Replacing, Inserting, Substitute]
  split_ifs <;> simp <;> omega

theorem ledOnAt_nat (a : App) (j : Nat) :
    ledOnAt a (j : Int) = (a.leds_[j]?).map fun l => l.on_ := by
  rw [ledOnAt, getReference_natCast]

theorem ledOnAt_updated (k : Nat) (loop : Loop) (s : Int) (a : App) (j : Nat) :
    ledOnAt (updated k loop s a) (j : Int) =
      (a.leds_[j]?).map fun l =>
        if s ≠ loop.state_ ∧ sideLed loop.state_ = some j then false
        else if sideLed s = some j then true
        else if loop.index_.toNat = j then newFlag s
        else l.on_ := by
  rw [ledOnAt_nat, updated_getElem?]
  cases a.leds_[j]? with
  | none => rfl
  | some l => simp [ledAfter_on]

theorem updated_loops (k : Nat) (loop : Loop) (s : Int) (a : App) :
    (updated k loop s a).loops_ =
      a.loops_.set k { loop with state_ := s, empty_ := decide (s = Off) } := by
  unfold updated
  have h1 : (appliedNew loop.index_.toNat s a).loops_ = a.loops_ := by
    unfold appliedNew
    cases sideLed s <;> rfl
  have h2 : ∀ b : App, (sideWritten false 107 (sideLed loop.state_) b).loops_ = b.loops_ := by
    intro b
    cases sideLed loop.state_ <;> rfl
  by_cases hs : s = loop.state_
  · subst hs
    simp [h1]
  · simp [hs, h1, h2]

theorem updated_length (k : Nat) (loop : Loop) (s : Int) (a : App) :
    (updated k loop s a).leds_.length = a.leds_.length := by
  unfold updated
  by_cases hs : s = loop.state_
  · simp [hs]
  · simp [hs]

theorem updated_wf (k : Nat) (loop : Loop) (s : Int) (a : App)
    (hk : a.loops_[k]? = some loop) (hwf : a.WF) : (updated k loop s a).WF := by
  obtain ⟨hl, hv⟩ := hwf
  refine ⟨by rw [updated_length]; exact hl, ?_⟩
  intro l hmem
  rw [updated_loops] at hmem
  rcases List.mem_or_eq_of_mem_set hmem with h | h
  · exact hv l h
  · subst h
    exact hv loop (List.getElem?_mem hk)

theorem updateLoopsFrom_valid (ks : List Nat) :
    ∀ a : App, a.WF → (∀ k ∈ ks, k < a.loops_.length) →
      ∃ a', updateLoopsFrom ks a = some a' ∧ LedsOnly a a' ∧ a'.WF ∧
        ∀ j, a'.loops_[j]? = (a.loops_[j]?).map fun l => if j ∈ ks then fixEmpty l else l := by
  induction ks with
  | nil =>
    intro a hwf _
    exact ⟨a, rfl, ledsOnly_refl a, hwf, fun j => by simp⟩
  | cons k ks ih =>
    intro a hwf hks
    have hk : k < a.loops_.length := hks k (List.mem_cons_self k ks)
    have hget : a.loops_[k]? = some a.loops_[k] := List.getElem?_eq_getElem hk
    have hstep := updateLoopLedState_wf k a.loops_[k] a.loops_[k].state_ a hget hwf
    have hwf1 := updated_wf k a.loops_[k] a.loops_[k].state_ a hget hwf
    have hlen1 : (updated k a.loops_[k] a.loops_[k].state_ a).loops_.length = a.loops_.length := by
      rw [updated_loops]; simp
    obtain ⟨a', hrun, hfr, hwf', hloops⟩ := ih _ hwf1
      (fun k' hk' => by rw [hlen1]; exact hks k' (List.mem_cons_of_mem k hk'))
    refine ⟨a', ?_, ledsOnly_trans (updated_ledsOnly _ _ _ _) hfr, hwf', ?_⟩
    · simp only [updateLoopsFrom, hget, hstep, Option.some_bind, Option.bind_eq_bind]
      exact hrun
    · intro j
      rw [hloops j, updated_loops, List.getElem?_set]
      by_cases hkj : k = j
      · subst hkj
        simp only [if_true, hk, hget, Option.map_some', List.mem_cons, true_or]
        congr 1
        split_ifs <;> rfl
      · have hjk : ¬ j = k := fun h => hkj h.symm
        simp only [hkj, if_false, List.mem_cons, hjk, false_or]

theorem updateLoops_valid (a : App) (hwf : a.WF) :
    ∃ a', updateLoops a = some a' ∧ LedsOnly a a' ∧ a'.WF ∧
      a'.loops_ = a.loops_.map fixEmpty := by
  obtain ⟨a', hrun, hfr, hwf', hloops⟩ := updateLoopsFrom_valid (List.range a.loops_.length) a hwf
    (fun _ hk => List.mem_range.mp hk)
  refine ⟨a', hrun, hfr, hwf', ?_⟩
  apply List.ext_getElem?
  intro j
  rw [hloops j, List.getElem?_map]
  by_cases hj : j < a.loops_.length
  · simp [List.mem_range, hj]
  · rw [List.getElem?_eq_none (by omega)]
    rfl

theorem ledsOnly_listener {a b : App} (h : LedsOnly a b) :
    b.oscLedSenderInitialized_ = a.oscLedSenderInitialized_ := by
  unfold LedsOnly at h
  have e := congrArg App.oscLedSenderInitialized_ h
  exact e

theorem ledWritten_ledOsc (flag : Bool) (cc n : Nat) (a : App)
    (h : a.oscLedSenderInitialized_ = false) : (ledWritten flag cc n a).ledOsc = a.ledOsc := by
  simp [ledWritten, h]

theorem sideWritten_ledOsc (flag : Bool) (cc : Nat) (side : Option Nat) (a : App)
    (h : a.oscLedSenderInitialized_ = false) : (sideWritten flag cc side a).ledOsc = a.ledOsc := by
  cases side with
  | none => rfl
  | some i => exact ledWritten_ledOsc flag cc i a h

theorem updated_ledOsc (k : Nat) (loop : Loop) (s : Int) (a : App)
    (h : a.oscLedSenderInitialized_ = false) : (updated k loop s a).ledOsc = a.ledOsc := by
  have h1 : (appliedNew loop.index_.toNat s a).ledOsc = a.ledOsc := by
    unfold appliedNew
    rw [sideWritten_ledOsc _ _ _ _ (by
      rw [ledsOnly_listener (ledWritten_ledsOnly _ _ _ _)]
      exact h)]
    exact ledWritten_ledOsc _ _ _ _ h
  have h2 : (appliedNew loop.index_.toNat s a).oscLedSenderInitialized_ = false := by
    have hfr : LedsOnly a (appliedNew loop.index_.toNat s a) :=
      ledsOnly_trans (ledsOnly_trans (ledModified_ledsOnly _ _ a) (ledWritten_ledsOnly _ _ _ _))
        (sideWritten_ledsOnly _ _ _ _)
    rw [ledsOnly_listener hfr]
    exact h
  show (if s ≠ loop.state_ then sideWritten false 107 (sideLed loop.state_)
      (appliedNew loop.index_.toNat s a) else appliedNew loop.index_.toNat s a).ledOsc = a.ledOsc
  split_ifs
  · rw [sideWritten_ledOsc _ _ _ _ h2, h1]
  · exact h1

theorem updateLoopsFrom_ledOsc (ks : List Nat) :
    ∀ a a' : App, a.WF → (∀ k ∈ ks, k < a.loops_.length) → a.oscLedSenderInitialized_ = false →
      updateLoopsFrom ks a = some a' → a'.ledOsc = a.ledOsc := by
  induction ks with
  | nil =>
    intro a a' _ _ _ h
    cases h
    rfl
  | cons k ks ih =>
    intro a a' hwf hks hflag h
    have hk : k < a.loops_.length := hks k (List.mem_cons_self k ks)
    have hget : a.loops_[k]? = some a.loops_[k] := List.getElem?_eq_getElem hk
    have hstep := updateLoopLedState_wf k a.loops_[k] a.loops_[k].state_ a hget hwf
    simp only [updateLoopsFrom, hget, hstep, Option.some_bind, Option.bind_eq_bind] at h
    have hlen1 : (updated k a.loops_[k] a.loops_[k].state_ a).loops_.length = a.loops_.length := by
      rw [updated_loops]; simp
    have := ih _ a' (updated_wf k _ _ a hget hwf)
      (fun k' hk' => by rw [hlen1]; exact hks k' (List.mem_cons_of_mem k hk'))
      (by rw [ledsOnly_listener (updated_ledsOnly _ _ _ _)]; exact hflag) h
    rw [this, updated_ledOsc _ _ _ _ hflag]

theorem updateLoops_ledOsc (a a' : App) (hwf : a.WF) (hflag : a.oscLedSenderInitialized_ = false)
    (h : updateLoops a = some a') : a'.ledOsc = a.ledOsc :=
  updateLoopsFrom_ledOsc (List.range a.loops_.length) a a' hwf
    (fun _ hk => List.mem_range.mp hk) hflag h

theorem oscOnly_refl (a : App) : OscOnly a a := by
  cases a; rfl

theorem oscOnly_trans {a b c : App} (h1 : OscOnly a b) (h2 : OscOnly b c) : OscOnly a c := by
  cases a; cases b; cases c
  simp only [OscOnly, App.mk.injEq, true_and] at *
  simp_all

theorem oscOnly_leds {a b : App} (h : OscOnly a b) : b.leds_ = a.leds_ := by
  unfold OscOnly at h
  have e := congrArg App.leds_ h
  exact e

theorem oscOnly_mode {a b : App} (h : OscOnly a b) : b.mode_ = a.mode_ := by
  unfold OscOnly at h
  have e := congrArg App.mode_ h
  exact e

theorem oscSend_oscOnly (address : String) (args : List OSCArgument) (a : App) :
    OscOnly a (oscSend address args a) := by
  cases a; rfl

theorem oscSend_loops (address : String) (args : List OSCArgument) (a : App) :
    (oscSend address args a).loops_ = a.loops_ := rfl

theorem registerAutoUpdates_oscOnly (i : Int) (unreg : Bool) (a : App) :
    OscOnly a (registerAutoUpdates i unreg a) := by
  unfold registerAutoUpdates
  split_ifs <;> exact oscSend_oscOnly _ _ _

theorem registerAutoUpdates_loops (i : Int) (unreg : Bool) (a : App) :
    (registerAutoUpdates i unreg a).loops_ = a.loops_ := by
  unfold registerAutoUpdates
  split_ifs <;> rfl

theorem registerGlobalUpdates_oscOnly (unreg : Bool) (a : App) :
    OscOnly a (registerGlobalUpdates unreg a) := by
  unfold registerGlobalUpdates
  split_ifs <;> exact oscSend_oscOnly _ _ _

theorem registerGlobalUpdates_loops (unreg : Bool) (a : App) :
    (registerGlobalUpdates unreg a).loops_ = a.loops_ := by
  unfold registerGlobalUpdates
  split_ifs <;> rfl

theorem addLoop_valid (i : Int) (a : App) (h0 : 0 ≤ i) (h1 : i.toNat < a.leds_.length) :
    addLoop i a = some { a with loops_ := a.loops_ ++ [freshLoop i] } := by
  unfold addLoop
  rw [getReference_of_nonneg _ _ h0, List.getElem?_eq_getElem h1]
  rfl

theorem forEach_addLoops (body : Int → App → Option App)
    (hbody : ∀ i b, 0 ≤ i → i.toNat < b.leds_.length →
      ∃ b1, body i b = some b1 ∧ b1.loops_ = b.loops_ ++ [freshLoop i] ∧ OscOnly b b1)
    (is : List Int) :
    ∀ b : App, (∀ i ∈ is, 0 ≤ i ∧ i.toNat < b.leds_.length) →
      ∃ b', forEach body is b = some b' ∧ b'.loops_ = b.loops_ ++ is.map freshLoop ∧
        OscOnly b b' := by
  induction is with
  | nil =>
    intro b _
    exact ⟨b, rfl, by simp, oscOnly_refl b⟩
  | cons i is ih =>
    intro b hv
    obtain ⟨h0, h1⟩ := hv i (List.mem_cons_self i is)
    obtain ⟨b1, hb1, hl1, hf1⟩ := hbody i b h0 h1
    obtain ⟨b', hb', hl', hf'⟩ := ih b1 (fun i' hi' => by
      rw [oscOnly_leds hf1]
      exact hv i' (List.mem_cons_of_mem i hi'))
    refine ⟨b', ?_, ?_, oscOnly_trans hf1 hf'⟩
    · simp only [forEach, hb1, Option.some_bind, Option.bind_eq_bind]
      exact hb'
    · rw [hl', hl1]
      simp

theorem counterRange_mem (lo hi : Int) (i : Int) (h : i ∈ counterRange lo hi) :
    lo ≤ i ∧ i < hi := by
  unfold counterRange at h
  rw [List.mem_map] at h
  obtain ⟨j, hj, rfl⟩ := h
  rw [List.mem_range] at hj
  omega

theorem rebuildBody_valid (i : Int) (b : App) (h0 : 0 ≤ i) (h1 : i.toNat < b.leds_.length) :
    ∃ b1, ((addLoop i b).map fun b1 => getCurrentState i (registerAutoUpdates i false b1)) = some b1 ∧
      b1.loops_ = b.loops_ ++ [freshLoop i] ∧ OscOnly b b1 := by
  rw [addLoop_valid i b h0 h1]
  refine ⟨_, rfl, ?_, ?_⟩
  · unfold getCurrentState
    rw [oscSend_loops, registerAutoUpdates_loops]
  · have e1 : OscOnly b { b with loops_ := b.loops_ ++ [freshLoop i] } := by
      cases b; rfl
    exact oscOnly_trans (oscOnly_trans e1 (registerAutoUpdates_oscOnly _ _ _)) (oscSend_oscOnly _ _ _)

theorem appendBody_valid (i : Int) (b : App) (h0 : 0 ≤ i) (h1 : i.toNat < b.leds_.length) :
    ∃ b1, addLoop i (registerAutoUpdates i false b) = some b1 ∧
      b1.loops_ = b.loops_ ++ [freshLoop i] ∧ OscOnly b b1 := by
  have hl : (registerAutoUpdates i false b).leds_ = b.leds_ :=
    oscOnly_leds (registerAutoUpdates_oscOnly i false b)
  rw [addLoop_valid i _ h0 (by rw [hl]; exact h1)]
  refine ⟨_, rfl, ?_, ?_⟩
  · simp [registerAutoUpdates_loops]
  · have e1 : OscOnly (registerAutoUpdates i false b)
        { registerAutoUpdates i false b with
          loops_ := (registerAutoUpdates i false b).loops_ ++ [freshLoop i] } := by
      cases (registerAutoUpdates i false b); rfl
    exact oscOnly_trans (registerAutoUpdates_oscOnly _ _ _) e1

theorem pingAckArgs_leds (args : List OSCArgument) :
    ∀ (i : Nat) (a : App), (pingAckArgs i args a).leds_ = a.leds_ := by
  induction args with
  | nil => intro i a; rfl
  | cons arg rest ih =>
    intro i a
    unfold pingAckArgs
    simp only
    rw [ih]
    split <;> rfl

theorem heartbeatArgs_leds (args : List OSCArgument) :
    ∀ (i : Nat) (r : App × Int × Int),
      (heartbeatArgs i args r).1.leds_ = r.1.leds_ ∧
      (heartbeatArgs i args r).1.loops_ = r.1.loops_ ∧
      (heartbeatArgs i args r).1.engineId_ = r.1.engineId_ ∧
      (heartbeatArgs i args r).1.loopCount_ = r.1.loopCount_ := by
  induction args with
  | nil => intro i r; exact ⟨rfl, rfl, rfl, rfl⟩
  | cons arg rest ih =>
    intro i r
    obtain ⟨a, numloops, uid⟩ := r
    unfold heartbeatArgs
    simp only
    obtain ⟨h1, h2, h3, h4⟩ := ih (i + 1)
      (match i, arg with
        | 0, .string s => ({ a with hostUrl_ := s }, numloops, uid)
        | 1, .string s => ({ a with version_ := s }, numloops, uid)
        | 2, .int32 v => (a, v, uid)
        | 3, .int32 v => (a, numloops, v)
        | _, _ => (a, numloops, uid))
    rw [h1, h2, h3, h4]
    split <;> exact ⟨rfl, rfl, rfl, rfl⟩

theorem counterRange_valid (n : Int) (b : App) (hn : n ≤ b.leds_.length) :
    ∀ i ∈ counterRange 0 n, 0 ≤ i ∧ i.toNat < b.leds_.length := by
  intro i hi
  have := counterRange_mem 0 n i hi
  omega

theorem handlePingAckMessage_rebuild (message : OSCMessage) (a : App)
    (hne : message.args ≠ []) (hl : a.leds_.length = NUM_LEDS)
    (h0 : 0 < (pingAckArgs 0 message.args a).loopCount_)
    (h1 : (pingAckArgs 0 message.args a).loopCount_ ≤ NUM_LEDS) :
    ∃ a', handlePingAckMessage message a = some a' ∧
      a'.loops_ = (counterRange 0 (pingAckArgs 0 message.args a).loopCount_).map freshLoop ∧
      a'.leds_ = a.leds_ := by
  have hlen : ({ pingAckArgs 0 message.args a with loops_ := [] } : App).leds_.length = NUM_LEDS := by
    show (pingAckArgs 0 message.args a).leds_.length = NUM_LEDS
    rw [pingAckArgs_leds]; exact hl
  obtain ⟨b', hb', hloops, hfr⟩ := forEach_addLoops
    (fun i b => (addLoop i b).map fun b1 => getCurrentState i (registerAutoUpdates i false b1))
    rebuildBody_valid (counterRange 0 (pingAckArgs 0 message.args a).loopCount_)
    { pingAckArgs 0 message.args a with loops_ := [] }
    (counterRange_valid _ _ (by rw [hlen]; exact_mod_cast h1))
  have hemp : message.args.isEmpty = false := by
    cases hargs : message.args with
    | nil => exact absurd hargs hne
    | cons x xs => rfl
  refine ⟨{ registerGlobalUpdates false (getSelectedLoop b') with heartbeat_ := 5 }, ?_, ?_, ?_⟩
  · unfold handlePingAckMessage
    simp only [hemp, Bool.false_eq_true, if_false, gt_iff_lt, h0, if_true, hb', Option.some_bind,
      Option.bind_eq_bind]
  · show (registerGlobalUpdates false (getSelectedLoop b')).loops_ = _
    rw [registerGlobalUpdates_loops]
    unfold getSelectedLoop
    rw [oscSend_loops, hloops]
    rfl
  · show (registerGlobalUpdates false (getSelectedLoop b')).leds_ = _
    rw [oscOnly_leds (registerGlobalUpdates_oscOnly _ _)]
    unfold getSelectedLoop
    rw [oscOnly_leds (oscSend_oscOnly _ _ _), oscOnly_leds hfr]
    exact pingAckArgs_leds _ _ _

theorem fixEmpty_freshLoop (i : Int) : fixEmpty (freshLoop i) = freshLoop i := rfl

theorem handleHeartbeatMessage_rebuild (message : OSCMessage) (a a1 : App) (numloops uid : Int)
    (hne : message.args ≠ []) (hl : a.leds_.length = NUM_LEDS)
    (hr : heartbeatArgs 0 message.args (a, 0, a.engineId_) = (a1, numloops, uid))
    (huid : uid ≠ a.engineId_) (h0 : 0 < numloops) (h1 : numloops ≤ NUM_LEDS) :
    ∃ a', handleHeartbeatMessage message a = some a' ∧
      a'.loops_ = (counterRange 0 numloops).map freshLoop ∧
      a'.leds_.length = NUM_LEDS := by
  obtain ⟨e1, e2, e3, e4⟩ := heartbeatArgs_leds message.args 0 (a, 0, a.engineId_)
  rw [hr] at e1 e2 e3 e4
  simp only at e1 e2 e3 e4
  have hlen : ({ a1 with loopCount_ := numloops, loops_ := [] } : App).leds_.length = NUM_LEDS := by
    show a1.leds_.length = NUM_LEDS
    rw [e1]; exact hl
  obtain ⟨b', hb', hloops, hfr⟩ := forEach_addLoops
    (fun i b => (addLoop i b).map fun b1 => getCurrentState i (registerAutoUpdates i false b1))
    rebuildBody_valid (counterRange 0 numloops)
    { a1 with loopCount_ := numloops, loops_ := [] }
    (counterRange_valid _ _ (by rw [hlen]; exact_mod_cast h1))
  have hloops' : (getSelectedLoop b').loops_ = (counterRange 0 numloops).map freshLoop := by
    unfold getSelectedLoop
    rw [oscSend_loops, hloops]
    rfl
  have hleds' : (getSelectedLoop b').leds_.length = NUM_LEDS := by
    unfold getSelectedLoop
    rw [oscOnly_leds (oscSend_oscOnly _ _ _), oscOnly_leds hfr]
    exact hlen
  have hwf : (getSelectedLoop b').WF := by
    refine ⟨hleds', ?_⟩
    intro l hmem
    rw [hloops', List.mem_map] at hmem
    obtain ⟨i, hi, rfl⟩ := hmem
    have := counterRange_mem 0 numloops i hi
    simp only [freshLoop, NUM_LEDS] at h1 ⊢
    omega
  obtain ⟨a3, ha3, hfr3, hwf3, hl3⟩ := updateLoops_valid (getSelectedLoop b') hwf
  have hemp : message.args.isEmpty = false := by
    cases hargs : message.args with
    | nil => exact absurd hargs hne
    | cons x xs => rfl
  have huid' : uid ≠ a1.engineId_ := by rw [e3]; exact huid
  refine ⟨{ registerGlobalUpdates false a3 with heartbeat_ := 5 }, ?_, ?_, ?_⟩
  · unfold handleHeartbeatMessage
    simp only [hemp, Bool.false_eq_true, if_false, hr, ne_eq, huid', not_false_eq_true, if_true,
      gt_iff_lt, h0, hb', Option.some_bind, Option.bind_eq_bind, ha3]
  · show (registerGlobalUpdates false a3).loops_ = _
    rw [registerGlobalUpdates_loops, hl3, hloops', List.map_map]
    apply List.map_congr_left
    intro i _
    rfl
  · show (registerGlobalUpdates false a3).leds_.length = _
    rw [oscOnly_leds (registerGlobalUpdates_oscOnly _ _)]
    exact hwf3.1

theorem side_on_after (a : App) (k : Nat) (loop : Loop) (s : Int) (j : Nat) (S : Int)
    (hjS : sideLed S = some j) (hlen : 8 < a.leds_.length) (hidx : loop.index_.toNat ≠ j) :
    ledOnAt (updated k loop s a) (j : Int) =
      if s = S then some true else if loop.state_ = S then some false else ledOnAt a (j : Int) := by
  have hj : j < a.leds_.length := by
    have := sideLed_lt S j hjS
    omega
  have key : ∀ x : Int, sideLed x = some j ↔ x = S := by
    intro x
    rw [sideLed_eq_some_iff] at hjS ⊢
    omega
  rw [ledOnAt_updated, ledOnAt_nat, List.getElem?_eq_getElem hj]
  simp only [Option.map_some', key, if_neg hidx]
  by_cases h1 : s = S
  · subst h1
    have : ¬ (s ≠ loop.state_ ∧ loop.state_ = s) := fun h => h.1 h.2.symm
    simp [this]
  · by_cases h2 : loop.state_ = S
    · have : s ≠ loop.state_ ∧ loop.state_ = S := ⟨fun h => h1 (h.trans h2), h2⟩
      simp [this, h1, h2]
    · simp [h1, h2]

theorem sendRecordOrOverdubSelected_valid (down : Bool) (a : App) (loop : Loop)
    (h : getReference a.loops_ a.selectedLoop_ = some loop) :
    sendRecordOrOverdubSelected down a =
      some (oscSend ("/sl/-3/" ++ (if down then "down" else "up"))
        [.string (recordOrOverdub loop)] a) := by
  unfold sendRecordOrOverdubSelected recordOrOverdub
  simp only [h]
  split_ifs <;> rfl

theorem oscSend_wf (address : String) (args : List OSCArgument) (a : App) (hwf : a.WF) :
    (oscSend address args a).WF := hwf

theorem ledWritten_wf (flag : Bool) (cc n : Nat) (a : App) (hwf : a.WF) :
    (ledWritten flag cc n a).WF :=
  ⟨by rw [ledWritten_length]; exact hwf.1, hwf.2⟩

theorem ledWrite_record (flag : Bool) (cc : Nat) (a : App) (hwf : a.WF) :
    ledWrite flag cc RECORD a = some (ledWritten flag cc 4 a) := by
  have h4 : 4 < a.leds_.length := by
    have := hwf.1
    simp only [NUM_LEDS] at this
    omega
  have := ledWrite_nat flag cc 4 a h4
  simpa using this

theorem dispatchPedal_track (p : Int) (down : Bool) (a : App) (hwf : a.WF)
    (htrack : p = TRACK1 ∨ p = TRACK2 ∨ p = TRACK3 ∨ p = TRACK4)
    (hsel : a.mode_ = .Rec → p < a.loops_.length) :
    ∃ a1, dispatchPedal p down a = some a1 ∧ a1.WF ∧ a1.loops_ = a.loops_ ∧ a1.mode_ = a.mode_ := by
  have hp : 0 ≤ p ∧ p ≤ 3 := by
    simp only [TRACK1, TRACK2, TRACK3, TRACK4] at htrack
    omega
  unfold dispatchPedal
  rw [if_pos htrack]
  by_cases hmode : a.mode_ = .Rec
  · have hlt := hsel hmode
    have hget : getReference (sendSelectTrack p a).loops_ (sendSelectTrack p a).selectedLoop_ =
        some a.loops_[p.toNat] := by
      show getReference a.loops_ p = _
      rw [getReference_of_nonneg _ _ hp.1, List.getElem?_eq_getElem]
    have hm : (sendSelectTrack p a).mode_ = .Rec := hmode
    simp only [hm, if_true]
    rw [sendRecordOrOverdubSelected_valid down _ _ hget]
    exact ⟨_, rfl, hwf, rfl, rfl⟩
  · have hm : ¬ (sendSelectTrack p a).mode_ = .Rec := hmode
    simp only [hm, if_false]
    exact ⟨_, rfl, hwf, rfl, rfl⟩

theorem dispatchPedal_record (down : Bool) (a : App) (hwf : a.WF) :
    ∃ a1, dispatchPedal RECORD down a = some a1 ∧ a1.WF ∧ a1.loops_ = a.loops_ ∧
      a1.mode_ = (if down = false then (if a.mode_ = .Rec then .Play else .Rec) else a.mode_) := by
  have hled : ∀ b : App, b.WF → b.loops_ = a.loops_ →
      ∃ a1, (if b.mode_ = .Rec then ledOn RECORD b else ledOff RECORD b) = some a1 ∧ a1.WF ∧
        a1.loops_ = a.loops_ ∧ a1.mode_ = b.mode_ := by
    intro b hb hl
    by_cases hm : b.mode_ = .Rec
    · rw [if_pos hm]
      exact ⟨_, ledWrite_record true 106 b hb, ledWritten_wf _ _ _ _ hb, hl, rfl⟩
    · rw [if_neg hm]
      exact ⟨_, ledWrite_record false 107 b hb, ledWritten_wf _ _ _ _ hb, hl, rfl⟩
  have hd : dispatchPedal RECORD down a =
      (if (if !down then { a with mode_ := if a.mode_ = .Rec then .Play else .Rec } else a).mode_
          = .Rec then
        ledOn RECORD (if !down then { a with mode_ := if a.mode_ = .Rec then .Play else .Rec }
          else a)
      else
        ledOff RECORD (if !down then { a with mode_ := if a.mode_ = .Rec then .Play else .Rec }
          else a)) := by
    unfold dispatchPedal
    rfl
  rw [hd]
  cases down
  · obtain ⟨a1, h1, h2, h3, h4⟩ :=
      hled { a with mode_ := if a.mode_ = .Rec then .Play else .Rec } hwf rfl
    exact ⟨a1, h1, h2, h3, by rw [h4]; simp⟩
  · obtain ⟨a1, h1, h2, h3, h4⟩ := hled a hwf rfl
    exact ⟨a1, h1, h2, h3, by rw [h4]; simp⟩

theorem dispatchPedal_multiply (down : Bool) (a : App) :
    dispatchPedal MULTIPLY down a =
      if a.mode_ = .Rec then some (sendMultiply a.selectedLoop_ down a) else some a := rfl

theorem dispatchPedal_clear (down : Bool) (a : App) :
    dispatchPedal CLEAR down a =
      if a.mode_ = .Rec then some (sendClearSelected down a) else some (sendClearAll down a) := rfl

theorem dispatchPedal_replace (down : Bool) (a : App) :
    dispatchPedal REPLACE down a =
      if a.mode_ = .Rec then some (sendReplace a.selectedLoop_ down a) else some a := rfl

theorem dispatchPedal_insert (down : Bool) (a : App) :
    dispatchPedal INSERT down a =
      if a.mode_ = .Rec then some (sendInsert a.selectedLoop_ down a) else some a := rfl

theorem dispatchPedal_substitute (down : Bool) (a : App) :
    dispatchPedal SUBSTITUTE down a =
      if a.mode_ = .Rec then some (sendSubstitute a.selectedLoop_ down a) else some a := rfl

theorem dispatchPedal_mute (down : Bool) (a : App) :
    dispatchPedal MUTE down a =
      if a.mode_ = .Rec then some (sendMuteSelected down a)
      else if down then
        if allMute a.loops_ then some (sendMuteOffAll (sendTriggerAll a))
        else some (sendMuteAll a)
      else some a := rfl

theorem dispatchPedal_undo (down : Bool) (a : App) :
    dispatchPedal UNDO down a =
      if a.mode_ = .Rec then some (sendUndoSelected down a) else some a := rfl

theorem dispatchPedal_default (p : Int) (down : Bool) (a : App) (h : p < 0 ∨ 11 < p) :
    dispatchPedal p down a = some a := by
  have n0 : ¬ p = 0 := by omega
  have n1 : ¬ p = 1 := by omega
  have n2 : ¬ p = 2 := by omega
  have n3 : ¬ p = 3 := by omega
  have n4 : ¬ p = 4 := by omega
  have n5 : ¬ p = 5 := by omega
  have n6 : ¬ p = 6 := by omega
  have n7 : ¬ p = 7 := by omega
  have n8 : ¬ p = 8 := by omega
  have n9 : ¬ p = 9 := by omega
  have n10 : ¬ p = 10 := by omega
  have n11 : ¬ p = 11 := by omega
  unfold dispatchPedal
  simp only [TRACK1, TRACK2, TRACK3, TRACK4, RECORD, MULTIPLY, CLEAR, UP, REPLACE, INSERT,
    SUBSTITUTE, MUTE, DOWN, UNDO, n0, n1, n2, n3, n4, n5, n6, n7, n8, n9, n10, n11, or_self,
    if_false]

/-- A pedal that is neither a track pedal nor the Record pedal only appends
messages to the looper. -/
theorem dispatchPedal_other (p : Int) (down : Bool) (a : App)
    (htrack : ¬ (p = TRACK1 ∨ p = TRACK2 ∨ p = TRACK3 ∨ p = TRACK4)) (hrec : ¬ p = RECORD) :
    ∃ msgs, dispatchPedal p down a = some { a with oscOut := a.oscOut ++ msgs } := by
  have hnil : some a = some { a with oscOut := a.oscOut ++ [] } := by
    cases a; simp
  simp only [TRACK1, TRACK2, TRACK3, TRACK4, RECORD] at htrack hrec
  have hcases : p = 5 ∨ p = 10 ∨ p = 6 ∨ p = 7 ∨ p = 8 ∨ p = 11 ∨ p = 9 ∨ (p < 0 ∨ 11 < p) := by
    omega
  rcases hcases with h | h | h | h | h | h | h | h
  · subst h
    rw [show dispatchPedal 5 down a = _ from dispatchPedal_multiply down a]
    split_ifs
    · exact ⟨_, rfl⟩
    · exact ⟨[], hnil⟩
  · subst h
    rw [show dispatchPedal 10 down a = _ from dispatchPedal_clear down a]
    split_ifs
    · exact ⟨_, rfl⟩
    · exact ⟨_, rfl⟩
  · subst h
    rw [show dispatchPedal 6 down a = _ from dispatchPedal_replace down a]
    split_ifs
    · exact ⟨_, rfl⟩
    · exact ⟨[], hnil⟩
  · subst h
    rw [show dispatchPedal 7 down a = _ from dispatchPedal_insert down a]
    split_ifs
    · exact ⟨_, rfl⟩
    · exact ⟨[], hnil⟩
  · subst h
    rw [show dispatchPedal 8 down a = _ from dispatchPedal_substitute down a]
    split_ifs
    · exact ⟨_, rfl⟩
    · exact ⟨[], hnil⟩
  · subst h
    rw [show dispatchPedal 11 down a = _ from dispatchPedal_mute down a]
    split_ifs
    · exact ⟨_, rfl⟩
    · exact ⟨[⟨"/sl/-1/hit", [.string "trigger"]⟩, ⟨"/sl/-1/hit", [.string "mute_off"]⟩],
        by simp [sendMuteOffAll, sendTriggerAll, oscSend]⟩
    · exact ⟨_, rfl⟩
    · exact ⟨[], hnil⟩
  · subst h
    rw [show dispatchPedal 9 down a = _ from dispatchPedal_undo down a]
    split_ifs
    · exact ⟨_, rfl⟩
    · exact ⟨[], hnil⟩
  · rw [dispatchPedal_default p down a h]
    exact ⟨[], hnil⟩

theorem dispatchPedal_valid (p : Int) (down : Bool) (a : App) (hwf : a.WF)
    (hsel : a.mode_ = .Rec → 0 ≤ p ∧ p ≤ 3 → p < a.loops_.length) :
    ∃ a1, dispatchPedal p down a = some a1 ∧ a1.WF ∧ a1.loops_ = a.loops_ ∧
      a1.mode_ = (if p = RECORD ∧ down = false then (if a.mode_ = .Rec then .Play else .Rec)
        else a.mode_) := by
  by_cases htrack : p = TRACK1 ∨ p = TRACK2 ∨ p = TRACK3 ∨ p = TRACK4
  · have hp : 0 ≤ p ∧ p ≤ 3 := by
      simp only [TRACK1, TRACK2, TRACK3, TRACK4] at htrack
      omega
    have hne : ¬ (p = RECORD ∧ down = false) := fun h => by
      have := h.1
      simp only [RECORD] at this
      omega
    rw [if_neg hne]
    exact dispatchPedal_track p down a hwf htrack (fun hm => hsel hm hp)
  · by_cases hrec : p = RECORD
    · subst hrec
      obtain ⟨a1, h1, h2, h3, h4⟩ := dispatchPedal_record down a hwf
      exact ⟨a1, h1, h2, h3, by rw [h4]; simp⟩
    · obtain ⟨msgs, h⟩ := dispatchPedal_other p down a htrack hrec
      have hne : ¬ (p = RECORD ∧ down = false) := fun h => hrec h.1
      rw [if_neg hne]
      exact ⟨_, h, hwf, rfl, rfl⟩

theorem ledsOnly_loopsFree {a b : App} (h : LedsOnly a b) :
    b.filterCommandsEmpty = a.filterCommandsEmpty := by
  unfold LedsOnly at h
  have e := congrArg App.filterCommandsEmpty h
  exact e

/-- A controller event in a well-formed state, with the loop read by a track
pedal in place: the dispatch returns, `updateLoops` returns, and the final state
differs from the dispatched one only in the LEDs and the `empty_` flags. -/
theorem handleIncomingMidiMessage_valid (a : App) (number value : Int) (hwf : a.WF)
    (hdef : PedalDefined a value) (hf : a.filterCommandsEmpty = true) :
    ∃ a1 a', dispatchPedal (pedalIndex value) (if number = 104 then true else false) a = some a1 ∧
      handleIncomingMidiMessage (.controller number value) a = some a' ∧
      LedsOnly a1 a' ∧ a'.loops_ = a.loops_.map fixEmpty ∧ a'.WF ∧
      a1.mode_ = (if pedalIndex value = RECORD ∧ (if number = 104 then true else false) = false
        then (if a.mode_ = .Rec then .Play else .Rec) else a.mode_) ∧
      (a1.oscLedSenderInitialized_ = false → a'.ledOsc = a1.ledOsc) := by
  obtain ⟨a1, h1, hwf1, hl1, hm1⟩ :=
    dispatchPedal_valid (pedalIndex value) (if number = 104 then true else false) a hwf hdef
  obtain ⟨a', h2, hfr, hwf', hl'⟩ := updateLoops_valid a1 hwf1
  refine ⟨a1, a', h1, ?_, hfr, by rw [hl', hl1], hwf', hm1,
    fun hflag => updateLoops_ledOsc a1 a' hwf1 hflag h2⟩
  unfold handleIncomingMidiMessage
  simp only [hf, Bool.not_true, Bool.false_eq_true, if_false, h1, Option.some_bind,
    Option.bind_eq_bind, h2]

theorem dispatchPedal_track2_rec (down : Bool) (a : App) (hmode : a.mode_ = .Rec) :
    dispatchPedal TRACK2 down a = sendRecordOrOverdubSelected down (sendSelectTrack TRACK2 a) := by
  have h : dispatchPedal TRACK2 down a =
      if (sendSelectTrack TRACK2 a).mode_ = .Rec then
        sendRecordOrOverdubSelected down (sendSelectTrack TRACK2 a)
      else some (sendMuteSelected down (sendSelectTrack TRACK2 a)) := rfl
  rw [h, if_pos (show (sendSelectTrack TRACK2 a).mode_ = .Rec from hmode)]

theorem allMute_iff (loops : List Loop) :
    allMute loops = true ↔
      ∀ l ∈ loops, l.state_ = Off ∨ l.state_ = Muted ∨ l.state_ = Paused ∨ l.state_ = Unknown := by
  unfold allMute
  rw [List.all_eq_true]
  constructor
  · intro h l hl
    have := h l hl
    simp only [Unknown, Off, Muted, Paused, ne_eq, Bool.not_eq_true', Bool.and_eq_false_imp,
      Bool.and_eq_true, decide_eq_true_eq, decide_eq_false_iff_not, not_not, and_imp] at this ⊢
    by_cases h1 : l.state_ = -1
    · exact Or.inr (Or.inr (Or.inr h1))
    · by_cases h2 : l.state_ = 0
      · exact Or.inl h2
      · by_cases h3 : l.state_ = 10
        · exact Or.inr (Or.inl h3)
        · exact Or.inr (Or.inr (Or.inl (this h1 h2 h3)))
  · intro h l hl
    have := h l hl
    simp only [Unknown, Off, Muted, Paused] at this ⊢
    rcases this with h1 | h1 | h1 | h1 <;> simp [h1]

theorem pedalDefined_of_not_track (a : App) (value : Int)
    (h : pedalIndex value < 0 ∨ 3 < pedalIndex value) : PedalDefined a value := by
  intro _ hp
  omega

theorem map_state_fixEmpty (loops : List Loop) :
    (loops.map fixEmpty).map (fun l => l.state_) = loops.map (fun l => l.state_) := by
  rw [List.map_map]
  rfl

/-- What the dispatcher does for one of the five function pedals. -/
theorem dispatchPedal_function (p : Int) (name : String) (down : Bool) (a : App)
    (hp : (p, name) ∈ [(MULTIPLY, "multiply"), (REPLACE, "replace"), (INSERT, "insert"),
      (SUBSTITUTE, "substitute"), (UNDO, "undo")]) :
    dispatchPedal p down a =
      if a.mode_ = .Rec then
        some (oscSend ("/sl/-3/" ++ (if down = true then "down" else "up")) [.string name] a)
      else some a := by
  simp only [List.mem_cons, Prod.mk.injEq, List.mem_singleton, List.not_mem_nil, or_false] at hp
  rcases hp with ⟨rfl, rfl⟩ | ⟨rfl, rfl⟩ | ⟨rfl, rfl⟩ | ⟨rfl, rfl⟩ | ⟨rfl, rfl⟩ <;> rfl

/-! ## The properties of the bridge -/

/-- C1. `pedalIndex` is total and follows this table: every `v` in 1..9 gives
`v - 1`; 0 gives 9 (UNDO); 10 gives 10 (CLEAR); 11 gives 11 (MUTE); every other
integer is returned unchanged. -/
theorem pedalIndex_table (v : Int) :
    pedalIndex v =
      if 1 ≤ v ∧ v ≤ 9 then v - 1
      else if v = 0 then UNDO
      else if v = 10 then CLEAR
      else if v = 11 then MUTE
      else v := by
  unfold pedalIndex
  simp only [UP, DOWN, UNDO, CLEAR, MUTE]
  split_ifs <;> first | rfl | omega

/-- C2. In a well-formed state (23 LEDs, every loop bound to one of them), for
every loop, whatever its previous state and the global mode, and for every
`newState` (any integer, inside the enumeration or not), `updateLoopLedState`
returns and leaves the loop with `state_ == newState` and
`empty_ == (state_ == Off)`.  The same equation holds for every loop of the
collection rebuilt by a `/pingack` and by a `/heartbeat` that carries a new engine
id: the rebuild runs when the loop count left by the argument loop of the handler
(`pingAckArgs`, `heartbeatArgs`) is positive, and stays inside the LED array when
that count is at most 23. -/
theorem updateLoopLedState_state_empty (a : App) (hwf : a.WF) :
    (∀ (k : Nat) (loop : Loop) (newState : Int), a.loops_[k]? = some loop →
      ∃ a' loop', updateLoopLedState k newState a = some a' ∧ a'.loops_[k]? = some loop' ∧
        loop'.state_ = newState ∧ loop'.empty_ = decide (loop'.state_ = Off)) ∧
    (∀ message : OSCMessage, message.args ≠ [] →
      0 < (pingAckArgs 0 message.args a).loopCount_ ∧
        (pingAckArgs 0 message.args a).loopCount_ ≤ NUM_LEDS →
      ∃ a', handlePingAckMessage message a = some a' ∧
        ∀ l ∈ a'.loops_, l.empty_ = decide (l.state_ = Off)) ∧
    (∀ message : OSCMessage, message.args ≠ [] →
      (heartbeatArgs 0 message.args (a, 0, a.engineId_)).2.2 ≠ a.engineId_ ∧
        0 < (heartbeatArgs 0 message.args (a, 0, a.engineId_)).2.1 ∧
        (heartbeatArgs 0 message.args (a, 0, a.engineId_)).2.1 ≤ NUM_LEDS →
      ∃ a', handleHeartbeatMessage message a = some a' ∧
        ∀ l ∈ a'.loops_, l.empty_ = decide (l.state_ = Off)) := by
  have hfresh : ∀ (n : Int) (l : Loop), l ∈ (counterRange 0 n).map freshLoop →
      l.empty_ = decide (l.state_ = Off) := by
    intro n l hmem
    rw [List.mem_map] at hmem
    obtain ⟨i, _, rfl⟩ := hmem
    rfl
  refine ⟨?_, ?_, ?_⟩
  · intro k loop newState hk
    have hklt : k < a.loops_.length := by
      by_contra hc
      rw [List.getElem?_eq_none (by omega)] at hk
      cases hk
    refine ⟨_, { loop with state_ := newState, empty_ := decide (newState = Off) },
      updateLoopLedState_wf k loop newState a hk hwf, ?_, rfl, rfl⟩
    rw [updated_loops]
    simp [hklt]
  · intro message hne hping
    obtain ⟨a', h, hloops, _⟩ := handlePingAckMessage_rebuild message a hne hwf.1 hping.1 hping.2
    exact ⟨a', h, fun l hl => hfresh _ l (hloops ▸ hl)⟩
  · intro message hne hbeat
    obtain ⟨a', h, hloops, _⟩ := handleHeartbeatMessage_rebuild message a _ _ _ hne hwf.1 rfl
      hbeat.1 hbeat.2.1 hbeat.2.2
    exact ⟨a', h, fun l hl => hfresh _ l (hloops ▸ hl)⟩

/-- C2 at a concrete input: loop 0 of `demoApp` moved to state 99 (outside the
enumeration), and the rebuilds triggered by `demoMessage`. -/
theorem updateLoopLedState_state_empty_witness :
    demoApp.WF ∧
    (∃ a' loop', updateLoopLedState 0 99 demoApp = some a' ∧ a'.loops_[0]? = some loop' ∧
      loop'.state_ = 99 ∧ loop'.empty_ = decide (loop'.state_ = Off)) ∧
    (∃ a', handlePingAckMessage demoMessage demoApp = some a' ∧
      ∀ l ∈ a'.loops_, l.empty_ = decide (l.state_ = Off)) ∧
    (∃ a', handleHeartbeatMessage demoMessage demoApp = some a' ∧
      ∀ l ∈ a'.loops_, l.empty_ = decide (l.state_ = Off)) :=
  ⟨by decide,
   (updateLoopLedState_state_empty demoApp (by decide)).1 0
     { index_ := 0, state_ := Playing, empty_ := false } 99 (by decide),
   (updateLoopLedState_state_empty demoApp (by decide)).2.1 demoMessage (by decide) (by decide),
   (updateLoopLedState_state_empty demoApp (by decide)).2.2 demoMessage (by decide) (by decide)⟩

/-- C3. The pattern that `updateLoopLedState` gives to the loop's own LED depends
only on the new state and the global mode: two calls with the same new state, in
any two well-formed application states with the same mode, on any two loops, leave
the same pattern in the loop LED, whatever the previous loop states and LED
contents.  Playing gives Light in mode Play and Blink in mode Rec; Muted and Paused
give Blink; Off, Unknown and Last give Dark. -/
theorem updateLoopLedState_pattern (a b : App) (k m : Nat) (loop loop2 : Loop) (newState : Int)
    (hk : a.loops_[k]? = some loop) (hwf : a.WF)
    (hm : b.loops_[m]? = some loop2) (hwfb : b.WF) :
    ∃ a' b', updateLoopLedState k newState a = some a' ∧
      updateLoopLedState m newState b = some b' ∧
      (a.mode_ = b.mode_ → ledPatternAt a' loop.index_ = ledPatternAt b' loop2.index_) ∧
      (newState = Playing → a.mode_ = .Play → ledPatternAt a' loop.index_ = some .Light) ∧
      (newState = Playing → a.mode_ = .Rec → ledPatternAt a' loop.index_ = some .Blink) ∧
      (newState = Muted ∨ newState = Paused → ledPatternAt a' loop.index_ = some .Blink) ∧
      (newState = Off ∨ newState = Unknown ∨ newState = Last →
        ledPatternAt a' loop.index_ = some .Dark) := by
  refine ⟨_, _, updateLoopLedState_wf k loop newState a hk hwf,
    updateLoopLedState_wf m loop2 newState b hm hwfb, ?_, ?_, ?_, ?_, ?_⟩
  · intro hmode
    rw [ledPatternAt_updated k loop newState a hk hwf, ledPatternAt_updated m loop2 newState b hm hwfb,
      hmode]
  · intro hs hmode
    rw [ledPatternAt_updated k loop newState a hk hwf, hs, hmode]
    rfl
  · intro hs hmode
    rw [ledPatternAt_updated k loop newState a hk hwf, hs, hmode]
    rfl
  · intro hs
    rw [ledPatternAt_updated k loop newState a hk hwf]
    rcases hs with hs | hs <;> subst hs <;> rfl
  · intro hs
    rw [ledPatternAt_updated k loop newState a hk hwf]
    rcases hs with hs | hs | hs <;> subst hs <;> rfl

/-- C3 at a concrete input: loop 0 of `demoApp` (mode Play) and loop 1 of the
same state, both moved to Playing. -/
theorem updateLoopLedState_pattern_witness :
    demoApp.WF ∧
    ∃ a' b', updateLoopLedState 0 Playing demoApp = some a' ∧
      updateLoopLedState 1 Playing demoApp = some b' ∧
      ledPatternAt a' 0 = ledPatternAt b' 1 ∧ ledPatternAt a' 0 = some .Light := by
  obtain ⟨a', b', h1, h2, h3, h4, _⟩ :=
    updateLoopLedState_pattern demoApp demoApp 0 1
      { index_ := 0, state_ := Playing, empty_ := false }
      { index_ := 1, state_ := Multiplying, empty_ := false } Playing
      (by decide) (by decide) (by decide) (by decide)
  exact ⟨by decide, a', b', h1, h2, h3 rfl, h4 rfl rfl⟩

/-- C4, as stated, fails: after a `/pingack` announcing six loops, the loop at
position 5 owns LED 5, which is also the Multiply LED.  Moving that loop to
Recording (not one of the four states with a side LED) turns the Multiply LED,
off before the call, on. -/
theorem updateLoopLedState_side_on_counterexample :
    sixLoops.bind (fun a => ledOnAt a MULTIPLY) = some false ∧
    (sixLoops.bind (updateLoopLedState 5 Recording)).bind (fun a => ledOnAt a MULTIPLY)
      = some true ∧
    Recording ≠ Multiplying ∧ Recording ≠ Replacing ∧ Recording ≠ Inserting ∧
    Recording ≠ Substitute := by
  decide

/-- C4, amended. For every loop of a well-formed state and every previous state,
after `updateLoopLedState (loop, s)` with `s` one of Multiplying, Replacing,
Inserting, Substitute the corresponding side LED (5, 6, 7, 8) is on.  For every
other new state, and every loop whose own LED is not one of the four side LEDs
(index outside 5..8), no side LED is turned on by the call: a side LED that is on
after the call was on before it. -/
theorem updateLoopLedState_side_on (a : App) (k : Nat) (loop : Loop) (s : Int)
    (hk : a.loops_[k]? = some loop) (hwf : a.WF) :
    ∃ a', updateLoopLedState k s a = some a' ∧
      (s = Multiplying → ledOnAt a' MULTIPLY = some true) ∧
      (s = Replacing → ledOnAt a' REPLACE = some true) ∧
      (s = Inserting → ledOnAt a' INSERT = some true) ∧
      (s = Substitute → ledOnAt a' SUBSTITUTE = some true) ∧
      (s ≠ Multiplying → s ≠ Replacing → s ≠ Inserting → s ≠ Substitute →
        (loop.index_ < 5 ∨ 8 < loop.index_) →
        ∀ i : Int, i = MULTIPLY ∨ i = REPLACE ∨ i = INSERT ∨ i = SUBSTITUTE →
          ledOnAt a' i = some true → ledOnAt a i = some true) := by
  obtain ⟨h0, h1, h8⟩ := wf_loop_valid hwf hk
  have on5 := ledOnAt_updated k loop s a 5
  have on6 := ledOnAt_updated k loop s a 6
  have on7 := ledOnAt_updated k loop s a 7
  have on8 := ledOnAt_updated k loop s a 8
  have b5 := ledOnAt_nat a 5
  have b6 := ledOnAt_nat a 6
  have b7 := ledOnAt_nat a 7
  have b8 := ledOnAt_nat a 8
  simp only [Nat.cast_ofNat] at on5 on6 on7 on8 b5 b6 b7 b8
  rw [List.getElem?_eq_getElem (show 5 < a.leds_.length by omega)] at on5 b5
  rw [List.getElem?_eq_getElem (show 6 < a.leds_.length by omega)] at on6 b6
  rw [List.getElem?_eq_getElem (show 7 < a.leds_.length by omega)] at on7 b7
  rw [List.getElem?_eq_getElem (show 8 < a.leds_.length by omega)] at on8 b8
  refine ⟨_, updateLoopLedState_wf k loop s a hk hwf, ?_, ?_, ?_, ?_, ?_⟩
  · intro hs
    subst hs
    rw [MULTIPLY, on5]
    simp only [Option.map_some', sideLed_eq_some_iff, Multiplying, Replacing, Inserting, Substitute]
    simp
    omega
  · intro hs
    subst hs
    rw [REPLACE, on6]
    simp only [Option.map_some', sideLed_eq_some_iff, Multiplying, Replacing, Inserting, Substitute]
    simp
    omega
  · intro hs
    subst hs
    rw [INSERT, on7]
    simp only [Option.map_some', sideLed_eq_some_iff, Multiplying, Replacing, Inserting, Substitute]
    simp
    omega
  · intro hs
    subst hs
    rw [SUBSTITUTE, on8]
    simp only [Option.map_some', sideLed_eq_some_iff, Multiplying, Replacing, Inserting, Substitute]
    simp
    omega
  · intro n1 n2 n3 n4 hidx i hi
    have hside : sideLed s = none := by
      simp only [Multiplying, Replacing, Inserting, Substitute] at n1 n2 n3 n4
      simp [sideLed, n1, n2, n3, n4]
    have hn5 : loop.index_.toNat ≠ 5 := by omega
    have hn6 : loop.index_.toNat ≠ 6 := by omega
    have hn7 : loop.index_.toNat ≠ 7 := by omega
    have hn8 : loop.index_.toNat ≠ 8 := by omega
    rcases hi with hi | hi | hi | hi <;> subst hi
    · intro hv
      rw [MULTIPLY, on5] at hv
      rw [MULTIPLY, b5]
      simp only [Option.map_some', Option.some.injEq] at hv ⊢
      have c2 : ¬ sideLed s = some 5 := by rw [hside]; simp
      rw [if_neg c2, if_neg hn5] at hv
      by_cases hc : s ≠ loop.state_ ∧ sideLed loop.state_ = some 5
      · rw [if_pos hc] at hv
        exact absurd hv (by decide)
      · rw [if_neg hc] at hv
        exact hv
    · intro hv
      rw [REPLACE, on6] at hv
      rw [REPLACE, b6]
      simp only [Option.map_some', Option.some.injEq] at hv ⊢
      have c2 : ¬ sideLed s = some 6 := by rw [hside]; simp
      rw [if_neg c2, if_neg hn6] at hv
      by_cases hc : s ≠ loop.state_ ∧ sideLed loop.state_ = some 6
      · rw [if_pos hc] at hv
        exact absurd hv (by decide)
      · rw [if_neg hc] at hv
        exact hv
    · intro hv
      rw [INSERT, on7] at hv
      rw [INSERT, b7]
      simp only [Option.map_some', Option.some.injEq] at hv ⊢
      have c2 : ¬ sideLed s = some 7 := by rw [hside]; simp
      rw [if_neg c2, if_neg hn7] at hv
      by_cases hc : s ≠ loop.state_ ∧ sideLed loop.state_ = some 7
      · rw [if_pos hc] at hv
        exact absurd hv (by decide)
      · rw [if_neg hc] at hv
        exact hv
    · intro hv
      rw [SUBSTITUTE, on8] at hv
      rw [SUBSTITUTE, b8]
      simp only [Option.map_some', Option.some.injEq] at hv ⊢
      have c2 : ¬ sideLed s = some 8 := by rw [hside]; simp
      rw [if_neg c2, if_neg hn8] at hv
      by_cases hc : s ≠ loop.state_ ∧ sideLed loop.state_ = some 8
      · rw [if_pos hc] at hv
        exact absurd hv (by decide)
      · rw [if_neg hc] at hv
        exact hv

/-- C4 (amended) at a concrete input: loop 0 of `demoApp` moved to Multiplying
switches the Multiply LED on. -/
theorem updateLoopLedState_side_on_witness :
    demoApp.WF ∧
    ∃ a', updateLoopLedState 0 Multiplying demoApp = some a' ∧
      ledOnAt a' MULTIPLY = some true := by
  obtain ⟨a', h1, h2, _⟩ :=
    updateLoopLedState_side_on demoApp 0 { index_ := 0, state_ := Playing, empty_ := false }
      Multiplying (by decide) (by decide)
  exact ⟨by decide, a', h1, h2 rfl⟩

/-- C5, as stated, fails.  After the events `twoMultiplying` from startup (two
loops, so at most four) loop 1 is still Multiplying but the Multiply LED is off:
it was on while both loops were multiplying, and was switched off when loop 0
left the state. -/
theorem side_led_invariant_counterexample :
    (run App.init (twoMultiplying.take 3)).map
        (fun a => (a.loops_.map (fun l => l.state_), ledOnAt a MULTIPLY))
      = some ([Multiplying, Multiplying], some true) ∧
    (run App.init twoMultiplying).map
        (fun a => (a.loops_.map (fun l => l.state_), ledOnAt a MULTIPLY))
      = some ([Playing, Multiplying], some false) := by
  decide

/-- C5, amended.  Side LEDs follow the transition edges of the loop that is
updated, not the set of loops in a state.  In a well-formed state, for a loop
whose own LED is none of the four side LEDs (as with at most 4 loops), after
`updateLoopLedState (loop, s)` each side LED (Multiply, Replace, Insert,
Substitute) is on if `s` is its state (Multiplying, Replacing, Inserting,
Substitute), off if `s` is not its state but the state the loop leaves is, whatever
the states of the other loops, and otherwise as it was before the call. -/
theorem updateLoopLedState_side_edges (a : App) (k : Nat) (loop : Loop) (s : Int)
    (hk : a.loops_[k]? = some loop) (hwf : a.WF)
    (hidx : loop.index_ < 5 ∨ 8 < loop.index_) :
    ∃ a', updateLoopLedState k s a = some a' ∧
      ∀ (i S : Int), (i, S) ∈ [(MULTIPLY, Multiplying), (REPLACE, Replacing),
          (INSERT, Inserting), (SUBSTITUTE, Substitute)] →
        ledOnAt a' i =
          if s = S then some true else if loop.state_ = S then some false else ledOnAt a i := by
  obtain ⟨h0, h1, h8⟩ := wf_loop_valid hwf hk
  refine ⟨_, updateLoopLedState_wf k loop s a hk hwf, ?_⟩
  intro i S hmem
  simp only [List.mem_cons, Prod.mk.injEq, List.mem_singleton, List.not_mem_nil, or_false] at hmem
  rcases hmem with ⟨rfl, rfl⟩ | ⟨rfl, rfl⟩ | ⟨rfl, rfl⟩ | ⟨rfl, rfl⟩
  · exact side_on_after a k loop s 5 Multiplying rfl h8 (by omega)
  · exact side_on_after a k loop s 6 Replacing rfl h8 (by omega)
  · exact side_on_after a k loop s 7 Inserting rfl h8 (by omega)
  · exact side_on_after a k loop s 8 Substitute rfl h8 (by omega)

/-- C5 (amended) at a concrete input: in `demoApp` loop 1 is Multiplying; moving
it to Playing switches the Multiply LED off. -/
theorem updateLoopLedState_side_edges_witness :
    demoApp.WF ∧
    (∃ a', updateLoopLedState 1 Playing demoApp = some a' ∧ ledOnAt a' MULTIPLY = some false) := by
  obtain ⟨a', h1, h2⟩ :=
    updateLoopLedState_side_edges demoApp 1 { index_ := 1, state_ := Multiplying, empty_ := false }
      Playing (by decide) (by decide) (by decide)
  refine ⟨by decide, a', h1, ?_⟩
  rw [h2 MULTIPLY Multiplying (by decide)]
  rfl

/-- C6. For a controller event in a well-formed state (with the loop read by a
track pedal in place), `handleIncomingMidiMessage` returns, and the mode after it
equals the mode before whenever the phase is down (controller number 104),
whatever the pedal, and whenever the decoded pedal is not RECORD, whatever the
phase.  On a RECORD event with phase up the mode flips between Play and Rec. -/
theorem handleIncomingMidiMessage_mode (a : App) (number value : Int) (hwf : a.WF)
    (hdef : PedalDefined a value) :
    ∃ a', handleIncomingMidiMessage (.controller number value) a = some a' ∧
      (number = 104 → a'.mode_ = a.mode_) ∧
      (pedalIndex value ≠ RECORD → a'.mode_ = a.mode_) ∧
      (a.filterCommandsEmpty = true → pedalIndex value = RECORD → number ≠ 104 →
        a'.mode_ = (if a.mode_ = .Rec then .Play else .Rec)) := by
  by_cases hf : a.filterCommandsEmpty = true
  · obtain ⟨a1, a', _, h, hfr, _, _, hm1, _⟩ :=
      handleIncomingMidiMessage_valid a number value hwf hdef hf
    have hm : a'.mode_ = a1.mode_ := ledsOnly_mode hfr
    refine ⟨a', h, ?_, ?_, ?_⟩
    · intro hn
      rw [hm, hm1, if_neg]
      intro hc
      simp [hn] at hc
    · intro hp
      rw [hm, hm1, if_neg (fun hc => hp hc.1)]
    · intro _ hp hn
      rw [hm, hm1, if_pos ⟨hp, by simp [hn]⟩]
  · refine ⟨a, ?_, fun _ => rfl, fun _ => rfl, fun h => absurd h hf⟩
    unfold handleIncomingMidiMessage
    simp [hf]

/-- C6 at concrete inputs: in `demoApp` (mode Play) a Record press leaves the
mode at Play and a Record release moves it to Rec. -/
theorem handleIncomingMidiMessage_mode_witness :
    demoApp.WF ∧ PedalDefined demoApp 5 ∧
    (∃ a', handleIncomingMidiMessage (.controller 104 5) demoApp = some a' ∧ a'.mode_ = .Play) ∧
    (∃ a', handleIncomingMidiMessage (.controller 105 5) demoApp = some a' ∧ a'.mode_ = .Rec) := by
  obtain ⟨a', h1, h2, _, _⟩ := handleIncomingMidiMessage_mode demoApp 104 5 (by decide) (by decide)
  obtain ⟨b', g1, _, _, g4⟩ := handleIncomingMidiMessage_mode demoApp 105 5 (by decide) (by decide)
  exact ⟨by decide, by decide, ⟨a', h1, h2 rfl⟩, ⟨b', g1, g4 rfl (by decide) (by decide)⟩⟩

/-- C7. For every selected loop (`selectedLoop_` an index into `loops_`),
`sendRecordOrOverdubSelected` returns and sends exactly one OSC message, whose
single argument is the action name chosen from the loop: state Recording gives
"record", state Overdubbing gives "overdub", otherwise an empty loop gives
"record" and any other loop "overdub"; the address ends in "down" when the pedal
phase is down and in "up" when it is up. -/
theorem sendRecordOrOverdubSelected_action (down : Bool) (a : App) (loop : Loop)
    (h : getReference a.loops_ a.selectedLoop_ = some loop) :
    ∃ a' m, sendRecordOrOverdubSelected down a = some a' ∧ a'.oscOut = a.oscOut ++ [m] ∧
      m.args = [.string
        (if loop.state_ = Recording then "record"
         else if loop.state_ = Overdubbing then "overdub"
         else if loop.empty_ = true then "record"
         else "overdub")] ∧
      m.address = "/sl/-3/" ++ (if down = true then "down" else "up") := by
  refine ⟨_, _, sendRecordOrOverdubSelected_valid down a loop h, rfl, ?_, rfl⟩
  unfold recordOrOverdub
  rfl

/-- C7 at a concrete input: loop 1 of `demoApp` (Multiplying, not empty) selected,
pedal down. -/
theorem sendRecordOrOverdubSelected_action_witness :
    ∃ a' m, sendRecordOrOverdubSelected true { demoApp with selectedLoop_ := 1 } = some a' ∧
      a'.oscOut = [m] ∧ m.args = [.string "overdub"] ∧ m.address = "/sl/-3/down" := by
  obtain ⟨a', m, h1, h2, h3, h4⟩ :=
    sendRecordOrOverdubSelected_action true { demoApp with selectedLoop_ := 1 }
      { index_ := 1, state_ := Multiplying, empty_ := false } (by decide)
  exact ⟨a', m, h1, h2, h3, h4⟩

/-- C8, as stated, fails.  From startup, with mode Rec and loop 1 Overdubbing, a
press of Track2 sends `/set selected_loop_num 1` and then `/sl/(-3)/down overdub`;
no message is addressed to `/sl/1/down`. -/
theorem track2_record_counterexample :
    (run App.init (track2Events.take 3)).map
        (fun a => (a.mode_, a.loops_.map (fun l => l.state_), a.oscOut.length))
      = some (.Rec, [Off, Overdubbing], 6) ∧
    (run App.init track2Events).map (fun a => a.oscOut.drop 6)
      = some [⟨"/set", [.string "selected_loop_num", .int32 1]⟩,
              ⟨"/sl/-3/down", [.string "overdub"]⟩] ∧
    (run App.init track2Events).map
        (fun a => a.oscOut.any (fun m => decide (m.address = "/sl/1/down")))
      = some false := by
  decide

/-- C8, amended.  When the Track2 pedal (decoded pedal id 1, controller value 2) is
pressed while mode is Rec and loop 1 is Overdubbing, the bridge sends
`/set selected_loop_num 1` and then the message with address `/sl/(-3)/down` and
string argument "overdub".  More generally every per-loop action is addressed to
`/sl/(-3)/down` or `/sl/(-3)/up`, where -3 is the looper's name for the selected loop,
not the loop's own index. -/
theorem track2_record_overdub (a : App) (loop : Loop) (hwf : a.WF)
    (hf : a.filterCommandsEmpty = true) (hmode : a.mode_ = .Rec)
    (h1 : a.loops_[1]? = some loop) (hs : loop.state_ = Overdubbing) :
    (∃ a', handleIncomingMidiMessage (.controller 104 2) a = some a' ∧
      a'.oscOut = a.oscOut ++ [⟨"/set", [.string "selected_loop_num", .int32 1]⟩,
                               ⟨"/sl/-3/down", [.string "overdub"]⟩]) ∧
    (∀ (i : Int) (down : Bool) (b : App),
      let address := "/sl/-3/" ++ (if down = true then "down" else "up")
      (sendMultiply i down b).oscOut = b.oscOut ++ [⟨address, [.string "multiply"]⟩] ∧
      (sendReplace i down b).oscOut = b.oscOut ++ [⟨address, [.string "replace"]⟩] ∧
      (sendInsert i down b).oscOut = b.oscOut ++ [⟨address, [.string "insert"]⟩] ∧
      (sendSubstitute i down b).oscOut = b.oscOut ++ [⟨address, [.string "substitute"]⟩] ∧
      (sendMute i down b).oscOut = b.oscOut ++ [⟨address, [.string "mute"]⟩] ∧
      (sendMuteSelected down b).oscOut = b.oscOut ++ [⟨address, [.string "mute"]⟩] ∧
      (sendUndoSelected down b).oscOut = b.oscOut ++ [⟨address, [.string "undo"]⟩] ∧
      (sendClearSelected down b).oscOut = b.oscOut ++ [⟨address, [.string "undo_all"]⟩] ∧
      ∀ b', sendRecordOrOverdubSelected down b = some b' →
        ∃ action, b'.oscOut = b.oscOut ++ [⟨address, [.string action]⟩]) := by
  constructor
  · have hlt : 1 < a.loops_.length := by
      by_contra hc
      rw [List.getElem?_eq_none (by omega)] at h1
      cases h1
    have hdef : PedalDefined a 2 := by
      intro _ _
      show (1 : Int) < a.loops_.length
      exact_mod_cast hlt
    obtain ⟨a1, a', hd, h, hfr, _, _, _⟩ := handleIncomingMidiMessage_valid a 104 2 hwf hdef hf
    refine ⟨a', h, ?_⟩
    rw [ledsOnly_oscOut hfr]
    have hd' : dispatchPedal TRACK2 true a = some a1 := hd
    rw [dispatchPedal_track2_rec true a hmode] at hd'
    have hget : getReference (sendSelectTrack TRACK2 a).loops_
        (sendSelectTrack TRACK2 a).selectedLoop_ = some loop := by
      show getReference a.loops_ 1 = some loop
      rw [getReference_of_nonneg _ _ (by decide)]
      exact h1
    rw [sendRecordOrOverdubSelected_valid true _ loop hget] at hd'
    have e : a1 = _ := (Option.some.inj hd').symm
    rw [e]
    simp [oscSend, sendSelectTrack, recordOrOverdub, hs]
  · intro i down b
    refine ⟨rfl, rfl, rfl, rfl, rfl, rfl, rfl, rfl, ?_⟩
    intro b' hb'
    cases hg : getReference b.loops_ b.selectedLoop_ with
    | none =>
      unfold sendRecordOrOverdubSelected at hb'
      simp [hg] at hb'
    | some l =>
      rw [sendRecordOrOverdubSelected_valid down b l hg] at hb'
      cases hb'
      exact ⟨recordOrOverdub l, rfl⟩

/-- C8 (amended) at a concrete input: Track2 pressed in `overdubApp`. -/
theorem track2_record_overdub_witness :
    overdubApp.WF ∧
    ∃ a', handleIncomingMidiMessage (.controller 104 2) overdubApp = some a' ∧
      a'.oscOut = [⟨"/set", [.string "selected_loop_num", .int32 1]⟩,
                   ⟨"/sl/-3/down", [.string "overdub"]⟩] :=
  ⟨by decide,
   (track2_record_overdub overdubApp { index_ := 1, state_ := Overdubbing, empty_ := false }
    (by decide) (by decide) (by decide) (by decide) (by decide)).1⟩

/-- C9. In a well-formed state in mode Play, when the Mute pedal is pressed (phase
down, controller number 104): if every loop of the collection is in one of Off,
Muted, Paused, Unknown (an empty collection included) the messages sent to the
looper are exactly `/sl/(-1)/hit trigger` followed by `/sl/(-1)/hit mute_off`;
otherwise exactly one message `/sl/(-1)/hit mute_on` is sent.  When the Mute
pedal is released (any other controller number) no message is sent.  The messages
are those given to `oscSender`; nothing is published to the monitoring listener
either when none is attached. -/
theorem mute_pedal_play (a : App) (number value : Int) (hwf : a.WF)
    (hf : a.filterCommandsEmpty = true) (hmode : a.mode_ = .Play)
    (hp : pedalIndex value = MUTE) :
    ∃ a', handleIncomingMidiMessage (.controller number value) a = some a' ∧
      (number = 104 →
        (∀ l ∈ a.loops_, l.state_ = Off ∨ l.state_ = Muted ∨ l.state_ = Paused ∨
          l.state_ = Unknown) →
        a'.oscOut = a.oscOut ++ [⟨"/sl/-1/hit", [.string "trigger"]⟩,
                                 ⟨"/sl/-1/hit", [.string "mute_off"]⟩]) ∧
      (number = 104 →
        ¬ (∀ l ∈ a.loops_, l.state_ = Off ∨ l.state_ = Muted ∨ l.state_ = Paused ∨
          l.state_ = Unknown) →
        a'.oscOut = a.oscOut ++ [⟨"/sl/-1/hit", [.string "mute_on"]⟩]) ∧
      (number ≠ 104 → a'.oscOut = a.oscOut) ∧
      (a.oscLedSenderInitialized_ = false → a'.ledOsc = a.ledOsc) := by
  have hdef : PedalDefined a value := pedalDefined_of_not_track a value (by
    rw [hp]; right; decide)
  obtain ⟨a1, a', hd, h, hfr, _, _, _, hosc⟩ :=
    handleIncomingMidiMessage_valid a number value hwf hdef hf
  obtain ⟨msgs, hmsgs⟩ := dispatchPedal_other (pedalIndex value)
    (if number = 104 then true else false) a (by rw [hp]; decide) (by rw [hp]; decide)
  have ha1 : a1 = { a with oscOut := a.oscOut ++ msgs } := by
    rw [hd] at hmsgs
    exact Option.some.inj hmsgs
  have hnr : ¬ a.mode_ = .Rec := by rw [hmode]; decide
  rw [hp, dispatchPedal_mute, if_neg hnr] at hd
  refine ⟨a', h, ?_, ?_, ?_, fun hflag => by rw [hosc (by rw [ha1]; exact hflag), ha1]⟩
  · intro hn hall
    rw [ledsOnly_oscOut hfr]
    simp only [hn, if_true, (allMute_iff a.loops_).mpr hall] at hd
    cases hd
    simp [sendMuteOffAll, sendTriggerAll, oscSend]
  · intro hn hall
    rw [ledsOnly_oscOut hfr]
    have hna : ¬ allMute a.loops_ = true := fun hc => hall ((allMute_iff a.loops_).mp hc)
    simp only [hn, if_true, hna, if_false] at hd
    cases hd
    rfl
  · intro hn
    rw [ledsOnly_oscOut hfr]
    simp only [hn, if_false, Bool.false_eq_true] at hd
    cases hd
    rfl

/-- C9 at concrete inputs: the Mute pedal pressed at startup (no loop) and in
`demoApp` (a loop is Playing). -/
theorem mute_pedal_play_witness :
    (∃ a', handleIncomingMidiMessage (.controller 104 11) App.init = some a' ∧
      a'.oscOut = [⟨"/sl/-1/hit", [.string "trigger"]⟩, ⟨"/sl/-1/hit", [.string "mute_off"]⟩]) ∧
    (∃ a', handleIncomingMidiMessage (.controller 104 11) demoApp = some a' ∧
      a'.oscOut = [⟨"/sl/-1/hit", [.string "mute_on"]⟩]) := by
  obtain ⟨a', h1, h2, _, _⟩ :=
    mute_pedal_play App.init 104 11 (by decide) (by decide) (by decide) (by decide)
  obtain ⟨b', g1, _, g3, _⟩ :=
    mute_pedal_play demoApp 104 11 (by decide) (by decide) (by decide) (by decide)
  exact ⟨⟨a', h1, h2 rfl (by decide)⟩, ⟨b', g1, g3 rfl (by decide)⟩⟩

/-- C10. In a well-formed state, for a controller event of either phase whose
decoded pedal is Multiply, Replace, Insert, Substitute or Undo: in mode Play no
message is sent to the looper and the mode, the selected loop index and the state
of every loop are unchanged; in mode Rec exactly one message is sent, whose string
argument is "multiply", "replace", "insert", "substitute" or "undo" respectively.
The messages are those given to `oscSender`; nothing is published to the
monitoring listener either when none is attached. -/
theorem function_pedals (a : App) (number value : Int) (p : Int) (name : String) (hwf : a.WF)
    (hf : a.filterCommandsEmpty = true)
    (hpn : (p, name) ∈ [(MULTIPLY, "multiply"), (REPLACE, "replace"), (INSERT, "insert"),
      (SUBSTITUTE, "substitute"), (UNDO, "undo")])
    (hp : pedalIndex value = p) :
    ∃ a', handleIncomingMidiMessage (.controller number value) a = some a' ∧
      (a.mode_ = .Play →
        a'.oscOut = a.oscOut ∧ a'.mode_ = a.mode_ ∧ a'.selectedLoop_ = a.selectedLoop_ ∧
        a'.loops_.map (fun l => l.state_) = a.loops_.map (fun l => l.state_)) ∧
      (a.mode_ = .Rec →
        ∃ m, a'.oscOut = a.oscOut ++ [m] ∧ m.args = [.string name]) ∧
      (a.oscLedSenderInitialized_ = false → a'.ledOsc = a.ledOsc) := by
  have hrange : 5 ≤ p ∧ p ≤ 9 := by
    simp only [List.mem_cons, Prod.mk.injEq, List.mem_singleton, List.not_mem_nil, or_false,
      MULTIPLY, REPLACE, INSERT, SUBSTITUTE, UNDO] at hpn
    omega
  have hdef : PedalDefined a value := pedalDefined_of_not_track a value (by rw [hp]; omega)
  obtain ⟨a1, a', hd, h, hfr, hl, _, _, hosc⟩ :=
    handleIncomingMidiMessage_valid a number value hwf hdef hf
  obtain ⟨msgs, hmsgs⟩ := dispatchPedal_other (pedalIndex value)
    (if number = 104 then true else false) a
    (by rw [hp]; simp only [TRACK1, TRACK2, TRACK3, TRACK4]; omega)
    (by rw [hp]; simp only [RECORD]; omega)
  have ha1 : a1 = { a with oscOut := a.oscOut ++ msgs } := by
    rw [hd] at hmsgs
    exact Option.some.inj hmsgs
  rw [hp, dispatchPedal_function p name _ a hpn] at hd
  refine ⟨a', h, ?_, ?_, fun hflag => by rw [hosc (by rw [ha1]; exact hflag), ha1]⟩
  · intro hmode
    have hnr : ¬ a.mode_ = .Rec := by rw [hmode]; decide
    rw [if_neg hnr] at hd
    cases hd
    refine ⟨ledsOnly_oscOut hfr, ledsOnly_mode hfr, ledsOnly_selectedLoop hfr, ?_⟩
    rw [hl, map_state_fixEmpty]
  · intro hmode
    rw [if_pos hmode] at hd
    cases hd
    exact ⟨_, ledsOnly_oscOut hfr, rfl⟩

/-- C10 at concrete inputs: the Multiply pedal (controller value 6) pressed in
`demoApp` (mode Play) and in `overdubApp` (mode Rec). -/
theorem function_pedals_witness :
    (∃ a', handleIncomingMidiMessage (.controller 104 6) demoApp = some a' ∧
      a'.oscOut = [] ∧ a'.mode_ = .Play) ∧
    (∃ a' m, handleIncomingMidiMessage (.controller 104 6) overdubApp = some a' ∧
      a'.oscOut = [m] ∧ m.args = [.string "multiply"]) := by
  obtain ⟨a', h1, h2, _⟩ :=
    function_pedals demoApp 104 6 MULTIPLY "multiply" (by decide) (by decide) (by decide) (by decide)
  obtain ⟨b', g1, _, g3, _⟩ :=
    function_pedals overdubApp 104 6 MULTIPLY "multiply" (by decide) (by decide) (by decide)
      (by decide)
  obtain ⟨m, hm1, hm2⟩ := g3 rfl
  exact ⟨⟨a', h1, (h2 rfl).1, (h2 rfl).2.1⟩, ⟨b', m, g1, hm1, hm2⟩⟩

theorem selected_not_all (down : Bool) (t : String) :
    "/sl/-3/" ++ (if down = true then "down" else "up") ≠ "/sl/-1/" ++ t := by
  intro h
  have h2 := congrArg String.data h
  cases down <;> simp [String.data_append] at h2

/-- C11. In a well-formed state, a controller event of either phase whose decoded
pedal is Clear (id 10) returns and sends exactly one message to the looper, with
the single string argument "undo_all".  In mode Play its address is "/sl/(-1)/down"
when the controller number is 104 and "/sl/(-1)/up" otherwise (all loops); in mode
Rec it is "/sl/(-3)/down" or "/sl/(-3)/up" (the selected loop), which never starts
with "/sl/(-1)/". -/
theorem clear_pedal_undo_all (a : App) (number value : Int) (hwf : a.WF)
    (hf : a.filterCommandsEmpty = true) (hp : pedalIndex value = CLEAR) :
    ∃ a' m, handleIncomingMidiMessage (.controller number value) a = some a' ∧
      a'.oscOut = a.oscOut ++ [m] ∧ m.args = [.string "undo_all"] ∧
      (a.mode_ = .Play → m.address = "/sl/-1/" ++ (if number = 104 then "down" else "up")) ∧
      (a.mode_ = .Rec → m.address = "/sl/-3/" ++ (if number = 104 then "down" else "up") ∧
        ∀ t : String, m.address ≠ "/sl/-1/" ++ t) := by
  have hdef : PedalDefined a value :=
    pedalDefined_of_not_track a value (by rw [hp]; simp only [CLEAR, UP]; omega)
  obtain ⟨a1, a', hd, h, hfr, _, _, _, _⟩ :=
    handleIncomingMidiMessage_valid a number value hwf hdef hf
  rw [hp, dispatchPedal_clear] at hd
  by_cases hmode : a.mode_ = .Rec
  · rw [if_pos hmode] at hd
    cases hd
    refine ⟨a', _, h, ledsOnly_oscOut hfr, rfl, fun hplay => ?_, fun _ => ⟨?_, fun t => ?_⟩⟩
    · rw [hmode] at hplay
      cases hplay
    · by_cases hn : number = 104 <;> simp [hn]
    · exact selected_not_all _ t
  · rw [if_neg hmode] at hd
    cases hd
    refine ⟨a', _, h, ledsOnly_oscOut hfr, rfl, fun _ => ?_, fun hrec => absurd hrec hmode⟩
    by_cases hn : number = 104 <;> simp [hn]

/-- C11 at concrete inputs: the Clear pedal (controller value 10) released in
`demoApp` (mode Play) and pressed in `overdubApp` (mode Rec). -/
theorem clear_pedal_undo_all_witness :
    (∃ a', handleIncomingMidiMessage (.controller 105 10) demoApp = some a' ∧
      a'.oscOut = [{ address := "/sl/-1/up", args := [.string "undo_all"] }]) ∧
    (∃ a', handleIncomingMidiMessage (.controller 104 10) overdubApp = some a' ∧
      a'.oscOut = [{ address := "/sl/-3/down", args := [.string "undo_all"] }]) := by
  obtain ⟨a', m, h1, h2, h3, h4, _⟩ :=
    clear_pedal_undo_all demoApp 105 10 (by decide) (by decide) (by decide)
  obtain ⟨b', n, g1, g2, g3, _, g5⟩ :=
    clear_pedal_undo_all overdubApp 104 10 (by decide) (by decide) (by decide)
  refine ⟨⟨a', h1, ?_⟩, ⟨b', g1, ?_⟩⟩
  · rw [h2]
    cases m
    simp only at h3
    have h4' := h4 rfl
    simp only at h4'
    rw [h3, h4']
    rfl
  · rw [g2]
    cases n
    simp only at g3
    have g5' := (g5 rfl).1
    simp only at g5'
    rw [g3, g5']
    rfl

theorem ledOnAt_ledWritten (flag : Bool) (cc n : Nat) (a : App) (j : Nat) :
    ledOnAt (ledWritten flag cc n a) (j : Int) =
      (a.leds_[j]?).map fun l => if n = j then flag else l.on_ := by
  rw [ledOnAt_nat, ledWritten_getElem?]
  cases a.leds_[j]? with
  | none => rfl
  | some l => by_cases h : n = j <;> simp [h]

theorem updateLoopsFrom_ledOnAt (j : Nat) (hj : j < 5 ∨ 8 < j) (ks : List Nat) :
    ∀ a a' : App, a.WF → (∀ k ∈ ks, k < a.loops_.length) →
      (∀ l ∈ a.loops_, l.index_.toNat ≠ j) →
      updateLoopsFrom ks a = some a' → ledOnAt a' (j : Int) = ledOnAt a (j : Int) := by
  induction ks with
  | nil =>
    intro a a' _ _ _ h
    cases h
    rfl
  | cons k ks ih =>
    intro a a' hwf hks hfree h
    have hk : k < a.loops_.length := hks k (List.mem_cons_self k ks)
    have hget : a.loops_[k]? = some a.loops_[k] := List.getElem?_eq_getElem hk
    have hstep := updateLoopLedState_wf k a.loops_[k] a.loops_[k].state_ a hget hwf
    simp only [updateLoopsFrom, hget, hstep, Option.some_bind, Option.bind_eq_bind] at h
    have hlen1 : (updated k a.loops_[k] a.loops_[k].state_ a).loops_.length = a.loops_.length := by
      rw [updated_loops]; simp
    have hfree1 : ∀ l ∈ (updated k a.loops_[k] a.loops_[k].state_ a).loops_,
        l.index_.toNat ≠ j := by
      intro l hmem
      rw [updated_loops] at hmem
      rcases List.mem_or_eq_of_mem_set hmem with h1 | h1
      · exact hfree l h1
      · rw [h1]
        exact hfree a.loops_[k] (List.getElem?_mem hget)
    have := ih _ a' (updated_wf k _ _ a hget hwf)
      (fun k' hk' => by rw [hlen1]; exact hks k' (List.mem_cons_of_mem k hk')) hfree1 h
    rw [this, ledOnAt_updated, ledOnAt_nat]
    have hside : ∀ s : Int, ¬ sideLed s = some j := by
      intro s hs
      rw [sideLed_eq_some_iff] at hs
      omega
    have hidx : ¬ a.loops_[k].index_.toNat = j := hfree _ (List.getElem?_mem hget)
    cases a.leds_[j]? with
    | none => rfl
    | some l => simp [hside, hidx]

theorem updateLoops_ledOnAt (j : Nat) (hj : j < 5 ∨ 8 < j) (a a' : App) (hwf : a.WF)
    (hfree : ∀ l ∈ a.loops_, l.index_.toNat ≠ j) (h : updateLoops a = some a') :
    ledOnAt a' (j : Int) = ledOnAt a (j : Int) :=
  updateLoopsFrom_ledOnAt j hj (List.range a.loops_.length) a a' hwf
    (fun _ hk => List.mem_range.mp hk) hfree h

theorem dispatchPedal_record_led (down : Bool) (a : App) (hwf : a.WF) :
    ∃ a1, dispatchPedal RECORD down a = some a1 ∧
      ledOnAt a1 RECORD = some (decide (a1.mode_ = .Rec)) ∧
      a1.filterCommandsEmpty = a.filterCommandsEmpty := by
  have h4 : 4 < a.leds_.length := by
    have := hwf.1
    simp only [NUM_LEDS] at this
    omega
  have hled : ∀ b : App, b.WF → b.filterCommandsEmpty = a.filterCommandsEmpty →
      ∃ a1, (if b.mode_ = .Rec then ledOn RECORD b else ledOff RECORD b) = some a1 ∧
        ledOnAt a1 RECORD = some (decide (a1.mode_ = .Rec)) ∧
        a1.filterCommandsEmpty = a.filterCommandsEmpty := by
    intro b hb hfb
    have hb4 : 4 < b.leds_.length := by
      have := hb.1
      simp only [NUM_LEDS] at this
      omega
    have hon : ∀ (flag : Bool) (cc : Nat), ledOnAt (ledWritten flag cc 4 b) RECORD = some flag := by
      intro flag cc
      have := ledOnAt_ledWritten flag cc 4 b 4
      rw [List.getElem?_eq_getElem hb4] at this
      simpa using this
    by_cases hm : b.mode_ = .Rec
    · rw [if_pos hm]
      refine ⟨_, ledWrite_record true 106 b hb, ?_, hfb⟩
      rw [hon]
      have : (ledWritten true 106 4 b).mode_ = .Rec := hm
      simp [this]
    · rw [if_neg hm]
      refine ⟨_, ledWrite_record false 107 b hb, ?_, hfb⟩
      rw [hon]
      have : ¬ (ledWritten false 107 4 b).mode_ = .Rec := hm
      simp [this]
  have hd : dispatchPedal RECORD down a =
      (if (if !down then { a with mode_ := if a.mode_ = .Rec then .Play else .Rec } else a).mode_
          = .Rec then
        ledOn RECORD (if !down then { a with mode_ := if a.mode_ = .Rec then .Play else .Rec }
          else a)
      else
        ledOff RECORD (if !down then { a with mode_ := if a.mode_ = .Rec then .Play else .Rec }
          else a)) := by
    unfold dispatchPedal
    rfl
  rw [hd]
  cases down
  · exact hled { a with mode_ := if a.mode_ = .Rec then .Play else .Rec } hwf rfl
  · exact hled a hwf rfl

theorem record_pedal_valid (a : App) (number value : Int) (hwf : a.WF)
    (hf : a.filterCommandsEmpty = true) (hp : pedalIndex value = RECORD)
    (hfour : ∀ l ∈ a.loops_, l.index_ < 4) :
    ∃ a', handleIncomingMidiMessage (.controller number value) a = some a' ∧ a'.WF ∧
      a'.filterCommandsEmpty = true ∧ (∀ l ∈ a'.loops_, l.index_ < 4) ∧
      a'.loops_.length = a.loops_.length ∧
      a'.mode_ = (if number = 104 then a.mode_ else if a.mode_ = .Rec then .Play else .Rec) ∧
      ledOnAt a' RECORD = some (decide (a'.mode_ = .Rec)) := by
  have hdef : PedalDefined a value :=
    pedalDefined_of_not_track a value (by rw [hp]; simp only [RECORD]; omega)
  obtain ⟨a1, a', hd, h, hfr, hl, hwf', hm1, _⟩ :=
    handleIncomingMidiMessage_valid a number value hwf hdef hf
  rw [hp] at hd
  obtain ⟨b1, hb1, hled, hfb⟩ := dispatchPedal_record_led (if number = 104 then true else false) a hwf
  obtain ⟨c1, hc1, hwf1, hl1, _⟩ := dispatchPedal_record (if number = 104 then true else false) a hwf
  rw [hd] at hb1 hc1
  cases hb1
  cases hc1
  have hupd : updateLoops a1 = some a' := by
    unfold handleIncomingMidiMessage at h
    simp only [hf, Bool.not_true, Bool.false_eq_true, if_false, hp, hd, Option.some_bind,
      Option.bind_eq_bind] at h
    exact h
  have hfree : ∀ l ∈ a1.loops_, l.index_.toNat ≠ 4 := by
    intro l hmem
    rw [hl1] at hmem
    have := hfour l hmem
    omega
  have hkeep := updateLoops_ledOnAt 4 (by omega) a1 a' hwf1 hfree hupd
  refine ⟨a', h, hwf', ?_, ?_, by rw [hl]; simp, ?_, ?_⟩
  · rw [ledsOnly_loopsFree hfr, hfb, hf]
  · intro l hmem
    rw [hl, List.mem_map] at hmem
    obtain ⟨l0, hl0, rfl⟩ := hmem
    exact hfour l0 hl0
  · rw [ledsOnly_mode hfr, hm1]
    by_cases hn : number = 104 <;> simp [hn, hp]
  · have h4 : ledOnAt a' RECORD = ledOnAt a1 RECORD := hkeep
    rw [h4, hled, ledsOnly_mode hfr]

/-- C12, as stated, fails in its second half: after the events `staleRecordLed`
there are two loops, the mode is Play and the Record LED (index 4) is on, left on
by the loop that owned it before the second `/pingack`.  Two consecutive Record
releases (controller 105, value 5) bring the mode back to Play, but the Record
LED is then off, not on as before the first release.  The same happens without
any loop after `recordLedReset`: mode Rec with the Record LED off before the two
releases, mode Rec with the Record LED on after them. -/
theorem record_release_twice_counterexample :
    (run App.init staleRecordLed).map
        (fun a => (a.loops_.length, a.mode_, ledOnAt a RECORD)) = some (2, .Play, some true) ∧
    (run App.init (staleRecordLed ++ [.pedal (.controller 105 5), .pedal (.controller 105 5)])).map
        (fun a => (a.loops_.length, a.mode_, ledOnAt a RECORD)) = some (2, .Play, some false) ∧
    (run App.init recordLedReset).map
        (fun a => (a.loops_.length, a.mode_, ledOnAt a RECORD)) = some (0, .Rec, some false) ∧
    (run App.init (recordLedReset ++ [.pedal (.controller 105 5), .pedal (.controller 105 5)])).map
        (fun a => (a.loops_.length, a.mode_, ledOnAt a RECORD)) = some (0, .Rec, some true) ∧
    pedalIndex 5 = RECORD := by
  refine ⟨by decide, by decide, by decide, by decide, by decide⟩

/-- C12, amended.  In a well-formed state with at most 4 loops, each with an index
below the size of the collection, a Record pedal event of either phase returns,
and afterwards the Record LED (index 4) on flag equals (mode == Rec) for the mode
after the event (flipped by a release, kept by a press).  A second Record release
right after a first one returns the mode to its value before the first release and
leaves the Record LED on flag equal to (mode == Rec) for that mode: this is the
flag before the first release exactly when the flag agreed with the mode then. -/
theorem record_pedal_led (a : App) (number value : Int) (hwf : a.WF)
    (hf : a.filterCommandsEmpty = true) (hp : pedalIndex value = RECORD)
    (hlen : a.loops_.length ≤ 4) (hidx : ∀ l ∈ a.loops_, l.index_ < a.loops_.length) :
    ∃ a', handleIncomingMidiMessage (.controller number value) a = some a' ∧
      a'.mode_ = (if number = 104 then a.mode_ else if a.mode_ = .Rec then .Play else .Rec) ∧
      ledOnAt a' RECORD = some (decide (a'.mode_ = .Rec)) ∧
      (number ≠ 104 → ∀ number2 value2 : Int, number2 ≠ 104 → pedalIndex value2 = RECORD →
        ∃ a'', handleIncomingMidiMessage (.controller number2 value2) a' = some a'' ∧
          a''.mode_ = a.mode_ ∧
          ledOnAt a'' RECORD = some (decide (a.mode_ = .Rec)) ∧
          (ledOnAt a'' RECORD = ledOnAt a RECORD ↔
            ledOnAt a RECORD = some (decide (a.mode_ = .Rec)))) := by
  have hfour : ∀ l ∈ a.loops_, l.index_ < 4 := by
    intro l hl
    have := hidx l hl
    omega
  obtain ⟨a', h, hwf', hf', hfour', _, hm, hled⟩ :=
    record_pedal_valid a number value hwf hf hp hfour
  refine ⟨a', h, hm, hled, ?_⟩
  intro hn number2 value2 hn2 hp2
  obtain ⟨a'', h2, _, _, _, _, hm2, hled2⟩ :=
    record_pedal_valid a' number2 value2 hwf' hf' hp2 hfour'
  have hback : a''.mode_ = a.mode_ := by
    rw [hm2, hm, if_neg hn2, if_neg hn]
    cases a.mode_ <;> rfl
  refine ⟨a'', h2, hback, by rw [hled2, hback], ?_⟩
  rw [hled2, hback]
  exact ⟨fun e => e.symm, fun e => e.symm⟩

/-- C12 at a concrete input: the Record pedal (controller value 5) released twice
in `demoApp` (mode Play, two loops, Record LED off). -/
theorem record_pedal_led_witness :
    demoApp.WF ∧ demoApp.mode_ = .Play ∧ ledOnAt demoApp RECORD = some false ∧
    ∃ a' a'', handleIncomingMidiMessage (.controller 105 5) demoApp = some a' ∧
      a'.mode_ = .Rec ∧ ledOnAt a' RECORD = some true ∧
      handleIncomingMidiMessage (.controller 105 5) a' = some a'' ∧
      a''.mode_ = .Play ∧ ledOnAt a'' RECORD = some false := by
  obtain ⟨a', h1, h2, h3, h4⟩ :=
    record_pedal_led demoApp 105 5 (by decide) (by decide) (by decide) (by decide) (by decide)
  obtain ⟨a'', g1, g2, g3, _⟩ := h4 (by decide) 105 5 (by decide) (by decide)
  have hm : a'.mode_ = .Rec := h2
  refine ⟨by decide, rfl, by decide, a', a'', h1, hm, ?_, g1, g2, g3⟩
  rw [h3, hm]
  rfl

theorem ledsIndexed_get {a : App} (h : LedsIndexed a) {j : Nat} {l : LED}
    (hj : a.leds_[j]? = some l) : l.index_ = (j : Int) := by
  have hlt : j < a.leds_.length := by
    by_contra hc
    rw [List.getElem?_eq_none (by omega)] at hj
    cases hj
  have e := congrArg (fun xs => xs[j]?) h
  simp only [List.getElem?_map, hj, Option.map_some', List.getElem?_range hlt] at e
  exact Option.some.inj e

theorem ledsIndexed_of_map {a b : App} (h : LedsIndexed a)
    (hb : b.leds_.map (fun l => l.index_) = a.leds_.map (fun l => l.index_)) : LedsIndexed b := by
  unfold LedsIndexed at *
  have hlen : b.leds_.length = a.leds_.length := by
    have := congrArg List.length hb
    simpa using this
  rw [hb, hlen, h]

theorem blinkLed_valid (j : Nat) (a : App) (led : LED) (hj : a.leds_[j]? = some led)
    (hidx : led.index_ = (j : Int)) : blinkLed (j : Int) a = some (blinked j a) := by
  have hlt : j < a.leds_.length := by
    by_contra hc
    rw [List.getElem?_eq_none (by omega)] at hj
    cases hj
  have ht : ((j : Int)).toNat = j := by simp
  unfold blinkLed blinked
  rw [getReference_natCast, hj]
  simp only [hidx]
  by_cases hb : led.state_ = .Blink ∨ led.state_ = .FastBlink
  · simp only [hb, if_true]
    by_cases htm : led.timer_ ≤ 0
    · simp only [htm, if_true]
      have hw : ∀ (flag : Bool) (cc : Nat),
          ledWrite flag cc (j : Int) a = some (ledWritten flag cc j a) := fun flag cc =>
        ledWrite_nat flag cc j a hlt
      cases hon : led.on_
      · simp only [ledOn, ledOff, hw, Bool.false_eq_true, if_false, Option.some_bind,
          Option.bind_eq_bind, Bool.not_false]
        have := modifyLed_valid
          (fun l => { l with timer_ := if led.state_ = .Blink then TIMER_BLINK else TIMER_FASTBLINK })
          (j : Int) (ledWritten true 106 j a) (by omega) (by simpa using hlt)
        rw [ht] at this
        exact this
      · simp only [ledOn, ledOff, hw, if_true, Option.some_bind,
          Option.bind_eq_bind, Bool.not_true]
        have := modifyLed_valid
          (fun l => { l with timer_ := if led.state_ = .Blink then TIMER_BLINK else TIMER_FASTBLINK })
          (j : Int) (ledWritten false 107 j a) (by omega) (by simpa using hlt)
        rw [ht] at this
        exact this
    · simp only [htm, if_false]
      have := modifyLed_valid (fun l => { l with timer_ := l.timer_ - 1 })
        (j : Int) a (by omega) (by simpa using hlt)
      rw [ht] at this
      exact this
  · simp only [hb, if_false]

theorem blinked_getElem? (j : Nat) (a : App) (i : Nat) :
    (blinked j a).leds_[i]? = (a.leds_[i]?).map fun l => if j = i then tickLed l else l := by
  unfold blinked
  by_cases hji : j = i
  · subst hji
    cases hj : a.leds_[j]? with
    | none => simp [hj]
    | some led =>
      simp only [Option.map_some', if_true]
      by_cases hb : led.state_ = .Blink ∨ led.state_ = .FastBlink
      · by_cases htm : led.timer_ ≤ 0
        · simp only [hb, htm, if_true, ledModified_getElem?, ledWritten_getElem?, hj,
            Option.map_some', tickLed]
        · simp only [hb, htm, if_true, if_false, ledModified_getElem?, hj,
            Option.map_some', tickLed]
      · simp only [hb, if_false, hj, tickLed]
  · have hid : ∀ o : Option LED, Option.map (fun l => l) o = o := fun o => by cases o <;> rfl
    cases hj : a.leds_[j]? with
    | none => simp only [hji, if_false, hid]
    | some led =>
      simp only [hji, if_false]
      by_cases hb : led.state_ = .Blink ∨ led.state_ = .FastBlink
      · by_cases htm : led.timer_ ≤ 0
        · simp only [hb, htm, if_true, ledModified_getElem?, ledWritten_getElem?, hji, if_false,
            Option.map_map, hid]
        · simp only [hb, htm, if_true, if_false, ledModified_getElem?, hji, hid]
      · simp only [hb, if_false, hid]

theorem tickLed_index (l : LED) : (tickLed l).index_ = l.index_ := by
  unfold tickLed
  split_ifs <;> rfl

theorem blinked_ledsOnly (j : Nat) (a : App) : LedsOnly a (blinked j a) := by
  unfold blinked
  cases a.leds_[j]? with
  | none => exact ledsOnly_refl a
  | some led =>
    by_cases hb : led.state_ = .Blink ∨ led.state_ = .FastBlink
    · by_cases htm : led.timer_ ≤ 0
      · simp only [hb, htm, if_true]
        exact ledsOnly_trans (ledWritten_ledsOnly _ _ _ _) (ledModified_ledsOnly _ _ _)
      · simp only [hb, htm, if_true, if_false]
        exact ledModified_ledsOnly _ _ _
    · simp only [hb, if_false]
      exact ledsOnly_refl a

theorem blinked_loops (j : Nat) (a : App) : (blinked j a).loops_ = a.loops_ := by
  unfold blinked
  cases a.leds_[j]? with
  | none => rfl
  | some led =>
    simp only
    split_ifs <;> rfl

theorem blinked_midiOut (j : Nat) (a : App) :
    ∃ extra, (blinked j a).midiOut = a.midiOut ++ extra ∧
      ∀ m ∈ extra, ∃ cc, m = [MIDI_CMD_CONTROL, cc, ledNumber j] := by
  unfold blinked
  cases a.leds_[j]? with
  | none => exact ⟨[], by simp, by simp⟩
  | some led =>
    by_cases hb : led.state_ = .Blink ∨ led.state_ = .FastBlink
    · by_cases htm : led.timer_ ≤ 0
      · simp only [hb, htm, if_true]
        exact ⟨[[MIDI_CMD_CONTROL, if led.on_ then 107 else 106, ledNumber j]], rfl, by simp⟩
      · simp only [hb, htm, if_true, if_false]
        exact ⟨[], by simp [ledModified], by simp⟩
    · simp only [hb, if_false]
      exact ⟨[], by simp, by simp⟩

theorem blinked_indexed (j : Nat) (a : App) (h : LedsIndexed a) : LedsIndexed (blinked j a) := by
  apply ledsIndexed_of_map h
  apply List.ext_getElem?
  intro i
  rw [List.getElem?_map, List.getElem?_map, blinked_getElem?]
  cases a.leds_[i]? with
  | none => rfl
  | some l =>
    simp only [Option.map_some']
    split_ifs
    · rw [tickLed_index]
    · rfl

theorem blinked_length (j : Nat) (a : App) : (blinked j a).leds_.length = a.leds_.length := by
  unfold blinked
  cases a.leds_[j]? with
  | none => rfl
  | some led =>
    simp only
    split_ifs <;> simp

theorem forEach_blinkLed (ks : List Nat) :
    ∀ a : App, LedsIndexed a → ks.Nodup → (∀ k ∈ ks, k < a.leds_.length) →
      ∃ a', forEach blinkLed (ks.map fun (k : Nat) => (k : Int)) a = some a' ∧
        LedsOnly a a' ∧ a'.loops_ = a.loops_ ∧
        (∀ i, a'.leds_[i]? = (a.leds_[i]?).map fun l => if i ∈ ks then tickLed l else l) ∧
        ∃ extra, a'.midiOut = a.midiOut ++ extra ∧
          ∀ m ∈ extra, ∃ cc, ∃ j ∈ ks, m = [MIDI_CMD_CONTROL, cc, ledNumber j] := by
  induction ks with
  | nil =>
    intro a _ _ _
    refine ⟨a, rfl, ledsOnly_refl a, rfl, fun i => ?_, [], by simp, by simp⟩
    cases a.leds_[i]? <;> rfl
  | cons k ks ih =>
    intro a hidx hnd hks
    have hk : k < a.leds_.length := hks k (List.mem_cons_self k ks)
    have hget : a.leds_[k]? = some a.leds_[k] := List.getElem?_eq_getElem hk
    have hstep := blinkLed_valid k a a.leds_[k] hget (ledsIndexed_get hidx hget)
    rw [List.nodup_cons] at hnd
    obtain ⟨a', hrun, hfr, hl, hleds, extra, hmidi, hextra⟩ := ih (blinked k a)
      (blinked_indexed k a hidx) hnd.2
      (fun k' hk' => by rw [blinked_length]; exact hks k' (List.mem_cons_of_mem k hk'))
    obtain ⟨extra0, hmidi0, hextra0⟩ := blinked_midiOut k a
    refine ⟨a', ?_, ledsOnly_trans (blinked_ledsOnly k a) hfr, by rw [hl, blinked_loops], ?_,
      extra0 ++ extra, by rw [hmidi, hmidi0, List.append_assoc], ?_⟩
    · simp only [List.map_cons, forEach, hstep, Option.some_bind, Option.bind_eq_bind]
      exact hrun
    · intro i
      rw [hleds i, blinked_getElem?]
      cases a.leds_[i]? with
      | none => rfl
      | some l =>
        simp only [Option.map_some', List.mem_cons]
        by_cases hki : k = i
        · subst hki
          simp [hnd.1]
        · have hik : ¬ i = k := fun e => hki e.symm
          simp [hki, hik]
    · intro m hm
      rw [List.mem_append] at hm
      rcases hm with hm | hm
      · obtain ⟨cc, e⟩ := hextra0 m hm
        exact ⟨cc, k, List.mem_cons_self k ks, e⟩
      · obtain ⟨cc, j, hj, e⟩ := hextra m hm
        exact ⟨cc, j, List.mem_cons_of_mem k hj, e⟩

theorem counterRange_zero (n : Nat) :
    counterRange 0 (n : Int) = (List.range n).map fun (k : Nat) => (k : Int) := by
  unfold counterRange
  simp

theorem connect_frame (env : TickEnv) (a : App) :
    ∃ q, connect env a = { a with currentReceivePort_ := q } := by
  unfold connect
  by_cases h1 : (!isValidOscPort a.oscReceivePort_) = true
  · simp only [h1, if_true]
    exact ⟨_, rfl⟩
  · by_cases h2 : env.receiverConnects = true
    · simp only [h1, h2, if_true, if_false]
      exact ⟨_, rfl⟩
    · simp only [h1, h2, if_false]
      exact ⟨_, rfl⟩

theorem tryToConnectOsc_frame (env : TickEnv) (b : App) :
    ∃ p q o, (tryToConnectOsc env b).1 =
      { b with currentSendPort_ := p, currentReceivePort_ := q, oscOut := o } := by
  have hlast : ∀ a2 : App, ∃ o,
      (if a2.currentSendPort_ > 0 ∧ a2.currentReceivePort_ > 0 then
        if (!a2.pinged_) = true then
          (oscSend "/ping" [.string (replyUrl a2), .string "/pingack"] a2, true)
        else (a2, true)
      else (a2, false)).1 = { a2 with oscOut := o } := by
    intro a2
    by_cases h1 : a2.currentSendPort_ > 0 ∧ a2.currentReceivePort_ > 0
    · by_cases h2 : (!a2.pinged_) = true
      · simp only [h1, h2, and_self, if_true]
        exact ⟨_, rfl⟩
      · simp only [h1, h2, and_self, if_true, if_false]
        exact ⟨_, rfl⟩
    · simp only [h1, if_false]
      exact ⟨_, rfl⟩
  have hrecv : ∀ a1 : App, ∃ q,
      (if a1.currentReceivePort_ < 0 then connect env a1 else a1) =
        { a1 with currentReceivePort_ := q } := by
    intro a1
    by_cases h1 : a1.currentReceivePort_ < 0
    · simp only [h1, if_true]
      exact connect_frame env a1
    · simp only [h1, if_false]
      exact ⟨_, rfl⟩
  have hsend : ∃ p,
      (if b.currentSendPort_ < 0 then
        if env.senderConnects = true then { b with currentSendPort_ := b.oscSendPort_ } else b
      else b) = { b with currentSendPort_ := p } := by
    by_cases h1 : b.currentSendPort_ < 0
    · by_cases h2 : env.senderConnects = true
      · simp only [h1, h2, if_true]
        exact ⟨_, rfl⟩
      · simp only [h1, h2, if_true, if_false]
        exact ⟨_, rfl⟩
    · simp only [h1, if_false]
      exact ⟨_, rfl⟩
  obtain ⟨p, hp⟩ := hsend
  obtain ⟨q, hq⟩ := hrecv { b with currentSendPort_ := p }
  obtain ⟨o, ho⟩ := hlast { b with currentSendPort_ := p, currentReceivePort_ := q }
  refine ⟨p, q, o, ?_⟩
  have e : tryToConnectOsc env b =
      (fun a2 : App =>
        if a2.currentSendPort_ > 0 ∧ a2.currentReceivePort_ > 0 then
          if (!a2.pinged_) = true then
            (oscSend "/ping" [.string (replyUrl a2), .string "/pingack"] a2, true)
          else (a2, true)
        else (a2, false))
      ((fun a1 : App => if a1.currentReceivePort_ < 0 then connect env a1 else a1)
        (if b.currentSendPort_ < 0 then
          if env.senderConnects = true then { b with currentSendPort_ := b.oscSendPort_ } else b
        else b)) := rfl
  rw [e, hp]
  simp only
  rw [hq]
  exact ho

theorem heartbeatTick_frame (env : TickEnv) (a : App) :
    ∃ p q o h, heartbeatTick env a =
      { a with
        currentSendPort_ := p, currentReceivePort_ := q, oscOut := o, heartbeat_ := h
        heartbeatOn_ := if a.heartbeat_ = 0 then !a.heartbeatOn_ else a.heartbeatOn_
        midiOut := a.midiOut ++
          (if a.heartbeat_ = 0 then
            [[MIDI_CMD_CONTROL, if a.heartbeatOn_ then 107 else 106, 23]] else []) } := by
  unfold heartbeatTick
  by_cases h0 : a.heartbeat_ = 0
  · simp only [h0, if_true]
    exact ⟨_, _, _, _, rfl⟩
  · simp only [h0, if_false, List.append_nil]
    by_cases h5 : a.heartbeat_ < -5
    · simp only [h5, if_true]
      obtain ⟨p, q, o, e⟩ := tryToConnectOsc_frame env
        { a with currentReceivePort_ := -1, currentSendPort_ := -1 }
      cases hc : tryToConnectOsc env { a with currentReceivePort_ := -1, currentSendPort_ := -1 } with
      | mk a1 flag =>
        rw [hc] at e
        simp only at e
        subst e
        cases flag
        · exact ⟨_, _, _, _, rfl⟩
        · exact ⟨_, _, _, _, rfl⟩
    · simp only [h5, if_false]
      exact ⟨_, _, _, _, rfl⟩

theorem heartbeatTick_nonneg (env : TickEnv) (a : App) (h : 0 ≤ a.heartbeat_) :
    heartbeatTick env a =
      if a.heartbeat_ = 0 then
        { a with
          midiOut := a.midiOut ++ [[MIDI_CMD_CONTROL, if a.heartbeatOn_ then 107 else 106, 23]]
          heartbeatOn_ := !a.heartbeatOn_ }
      else { a with heartbeat_ := a.heartbeat_ - 1 } := by
  unfold heartbeatTick
  have h5 : ¬ a.heartbeat_ < -5 := by omega
  simp only [h5, if_false]
  rfl

theorem heartbeatTick_leds (env : TickEnv) (a : App) :
    (heartbeatTick env a).leds_ = a.leds_ ∧ (heartbeatTick env a).loops_ = a.loops_ := by
  obtain ⟨p, q, o, h, e⟩ := heartbeatTick_frame env a
  rw [e]
  exact ⟨rfl, rfl⟩

theorem ledWritten_indexed (flag : Bool) (cc n : Nat) (a : App) (h : LedsIndexed a) :
    LedsIndexed (ledWritten flag cc n a) := by
  apply ledsIndexed_of_map h
  apply List.ext_getElem?
  intro i
  rw [List.getElem?_map, List.getElem?_map, ledWritten_getElem?]
  cases a.leds_[i]? with
  | none => rfl
  | some l =>
    simp only [Option.map_some']
    split_ifs <;> rfl

theorem forEach_ledOff (ks : List Nat) :
    ∀ a : App, LedsIndexed a → (∀ k ∈ ks, k < a.leds_.length) →
      ∃ a1, forEach ledOff (ks.map fun (k : Nat) => (k : Int)) a = some a1 ∧
        LedsOnly a a1 ∧ a1.loops_ = a.loops_ ∧ LedsIndexed a1 ∧
        a1.leds_.length = a.leds_.length ∧
        ∃ pre, a1.midiOut = a.midiOut ++ pre ∧
          ∀ m ∈ pre, ∃ cc, ∃ j ∈ ks, m = [MIDI_CMD_CONTROL, cc, ledNumber j] := by
  induction ks with
  | nil =>
    intro a hidx _
    exact ⟨a, rfl, ledsOnly_refl a, rfl, hidx, rfl, [], by simp, by simp⟩
  | cons k ks ih =>
    intro a hidx hks
    have hk : k < a.leds_.length := hks k (List.mem_cons_self k ks)
    have hstep : ledOff (k : Int) a = some (ledWritten false 107 k a) := ledWrite_nat false 107 k a hk
    obtain ⟨a1, hrun, hfr, hl, hidx1, hlen1, pre, hmidi, hpre⟩ := ih (ledWritten false 107 k a)
      (ledWritten_indexed _ _ _ a hidx)
      (fun k' hk' => by rw [ledWritten_length]; exact hks k' (List.mem_cons_of_mem k hk'))
    refine ⟨a1, ?_, ledsOnly_trans (ledWritten_ledsOnly _ _ _ _) hfr, by rw [hl]; rfl, hidx1,
      by rw [hlen1, ledWritten_length], [MIDI_CMD_CONTROL, 107, ledNumber k] :: pre, ?_, ?_⟩
    · simp only [List.map_cons, forEach, hstep, Option.some_bind, Option.bind_eq_bind]
      exact hrun
    · rw [hmidi]
      simp [ledWritten]
    · intro m hm
      rw [List.mem_cons] at hm
      rcases hm with hm | hm
      · exact ⟨107, k, List.mem_cons_self k ks, hm⟩
      · obtain ⟨cc, j, hj, e⟩ := hpre m hm
        exact ⟨cc, j, List.mem_cons_of_mem k hj, e⟩

theorem timerCallback_blink (env : TickEnv) (a : App) (hidx : LedsIndexed a)
    (hopen : env.midiOutOpened = false)
    (hr : 0 ≤ a.currentReceivePort_) (hs : 0 ≤ a.currentSendPort_) :
    ∃ a' extra, timerCallback env a = some a' ∧ LedsOnly (heartbeatTick env a) a' ∧
      a'.loops_ = a.loops_ ∧ a'.leds_ = a.leds_.map tickLed ∧ LedsIndexed a' ∧
      a'.midiOut = (heartbeatTick env a).midiOut ++ extra ∧
      ∀ m ∈ extra, ∃ cc j, j < a.leds_.length ∧ m = [MIDI_CMD_CONTROL, cc, ledNumber j] := by
  have hl := heartbeatTick_leds env a
  have hidx1 : LedsIndexed (heartbeatTick env a) := ledsIndexed_of_map hidx (by rw [hl.1])
  obtain ⟨a', hrun, hfr, hloops, hleds, extra, hmidi, hextra⟩ :=
    forEach_blinkLed (List.range a.leds_.length) (heartbeatTick env a) hidx1
      (List.nodup_range _) (fun k hk => by rw [hl.1]; exact List.mem_range.mp hk)
  have hleds' : a'.leds_ = a.leds_.map tickLed := by
    apply List.ext_getElem?
    intro i
    rw [hleds i, hl.1, List.getElem?_map]
    by_cases hi : i < a.leds_.length
    · simp [List.mem_range, hi]
    · rw [List.getElem?_eq_none (by omega)]
      rfl
  refine ⟨a', extra, ?_, hfr, by rw [hloops, hl.2], hleds', ?_, hmidi, ?_⟩
  · unfold timerCallback
    have hc : ¬ (a.currentReceivePort_ < 0 ∨ a.currentSendPort_ < 0) := by omega
    simp only [hopen, Bool.false_eq_true, if_false, Option.some_bind, Option.bind_eq_bind, hc]
    rw [counterRange_zero]
    exact hrun
  · apply ledsIndexed_of_map hidx
    rw [hleds', List.map_map]
    apply List.map_congr_left
    intro l _
    exact tickLed_index l
  · intro m hm
    obtain ⟨cc, j, hj, e⟩ := hextra m hm
    exact ⟨cc, j, List.mem_range.mp hj, e⟩

theorem timerCallback_open (env : TickEnv) (a : App) (hidx : LedsIndexed a)
    (hlen : a.leds_.length = NUM_LEDS) (hopen : env.midiOutOpened = true) :
    ∃ a1 pre, timerCallback env a = timerCallback { env with midiOutOpened := false } a1 ∧
      LedsOnly a a1 ∧ a1.loops_ = a.loops_ ∧ LedsIndexed a1 ∧ a1.leds_.length = NUM_LEDS ∧
      a1.midiOut = a.midiOut ++ pre ∧
      ∀ m ∈ pre, ∃ cc j, j < NUM_LEDS ∧ m = [MIDI_CMD_CONTROL, cc, ledNumber j] := by
  obtain ⟨a1, hrun, hfr, hloops, hidx1, hlen1, pre, hmidi, hpre⟩ :=
    forEach_ledOff (List.range NUM_LEDS) a hidx (fun k hk => by rw [hlen]; exact List.mem_range.mp hk)
  refine ⟨a1, pre, ?_, hfr, hloops, hidx1, by rw [hlen1, hlen], hmidi, ?_⟩
  · have hr : counterRange 0 (NUM_LEDS : Int) =
        (List.range NUM_LEDS).map fun (k : Nat) => (k : Int) := counterRange_zero NUM_LEDS
    unfold timerCallback
    simp only [hopen, if_true, hr, hrun, Option.some_bind, Option.bind_eq_bind,
      Bool.false_eq_true, if_false]
    rfl
  · intro m hm
    obtain ⟨cc, j, hj, e⟩ := hpre m hm
    exact ⟨cc, j, List.mem_range.mp hj, e⟩

theorem ledsOnly_session {a b : App} (h : LedsOnly a b) :
    b.currentReceivePort_ = a.currentReceivePort_ ∧ b.currentSendPort_ = a.currentSendPort_ ∧
      b.heartbeat_ = a.heartbeat_ ∧ b.heartbeatOn_ = a.heartbeatOn_ := by
  unfold LedsOnly at h
  have e1 := congrArg App.currentReceivePort_ h
  have e2 := congrArg App.currentSendPort_ h
  have e3 := congrArg App.heartbeat_ h
  have e4 := congrArg App.heartbeatOn_ h
  exact ⟨e1, e2, e3, e4⟩

theorem heartbeatTick_session (env : TickEnv) (a : App) (h : 0 ≤ a.heartbeat_) :
    (heartbeatTick env a).currentReceivePort_ = a.currentReceivePort_ ∧
      (heartbeatTick env a).currentSendPort_ = a.currentSendPort_ ∧
      (heartbeatTick env a).heartbeat_ = (if a.heartbeat_ = 0 then 0 else a.heartbeat_ - 1) ∧
      (heartbeatTick env a).oscOut = a.oscOut := by
  rw [heartbeatTick_nonneg env a h]
  by_cases h0 : a.heartbeat_ = 0
  · simp [h0]
  · simp [h0]

theorem timerCallback_connected (env : TickEnv) (a : App) (hidx : LedsIndexed a)
    (hlen : a.leds_.length = NUM_LEDS)
    (hr : 0 ≤ a.currentReceivePort_) (hs : 0 ≤ a.currentSendPort_) (hb : 0 ≤ a.heartbeat_) :
    ∃ a', timerCallback env a = some a' ∧ LedsIndexed a' ∧ a'.leds_.length = NUM_LEDS ∧
      a'.currentReceivePort_ = a.currentReceivePort_ ∧
      a'.currentSendPort_ = a.currentSendPort_ ∧
      a'.heartbeat_ = (if a.heartbeat_ = 0 then 0 else a.heartbeat_ - 1) ∧
      a'.oscOut = a.oscOut ∧ a'.loops_ = a.loops_ ∧
      (env.midiOutOpened = false → a'.leds_ = a.leds_.map tickLed) := by
  have hmain : ∀ (e : TickEnv) (b : App), e.midiOutOpened = false → LedsIndexed b →
      b.leds_.length = NUM_LEDS → LedsOnly a b → b.loops_ = a.loops_ →
      ∃ a', timerCallback e b = some a' ∧ LedsIndexed a' ∧ a'.leds_.length = NUM_LEDS ∧
        a'.currentReceivePort_ = a.currentReceivePort_ ∧
        a'.currentSendPort_ = a.currentSendPort_ ∧
        a'.heartbeat_ = (if a.heartbeat_ = 0 then 0 else a.heartbeat_ - 1) ∧
        a'.oscOut = a.oscOut ∧ a'.loops_ = a.loops_ ∧ a'.leds_ = b.leds_.map tickLed := by
    intro e b he hbidx hblen hfr hbl
    obtain ⟨f1, f2, f3, _⟩ := ledsOnly_session hfr
    obtain ⟨a', _, h, hfr', hl', hleds, hidx', _, _⟩ := timerCallback_blink e b hbidx he
      (by rw [f1]; exact hr) (by rw [f2]; exact hs)
    obtain ⟨g1, g2, g3, g4⟩ := heartbeatTick_session e b (by rw [f3]; exact hb)
    obtain ⟨k1, k2, k3, _⟩ := ledsOnly_session hfr'
    refine ⟨a', h, hidx', by rw [hleds, List.length_map, hblen], by rw [k1, g1, f1],
      by rw [k2, g2, f2], by rw [k3, g3, f3], ?_, by rw [hl', hbl], hleds⟩
    rw [ledsOnly_oscOut hfr', g4, ledsOnly_oscOut hfr]
  cases hopen : env.midiOutOpened
  · obtain ⟨a', h, h1, h2, h3, h4, h5, h6, h7, h8⟩ :=
      hmain env a hopen hidx hlen (ledsOnly_refl a) rfl
    exact ⟨a', h, h1, h2, h3, h4, h5, h6, h7, fun _ => h8⟩
  · obtain ⟨a1, pre, he, hfr, hl, hidx1, hlen1, _, _⟩ := timerCallback_open env a hidx hlen hopen
    obtain ⟨a', h, h1, h2, h3, h4, h5, h6, h7, _⟩ :=
      hmain { env with midiOutOpened := false } a1 rfl hidx1 hlen1 hfr hl
    exact ⟨a', by rw [he]; exact h, h1, h2, h3, h4, h5, h6, h7, fun hc => by cases hc⟩

theorem ticks_connected (envs : List TickEnv) :
    ∀ a : App, LedsIndexed a → a.leds_.length = NUM_LEDS →
      0 ≤ a.currentReceivePort_ → 0 ≤ a.currentSendPort_ → 0 ≤ a.heartbeat_ →
      ∃ a', run a (envs.map Event.tick) = some a' ∧ LedsIndexed a' ∧
        a'.leds_.length = NUM_LEDS ∧
        a'.currentReceivePort_ = a.currentReceivePort_ ∧
        a'.currentSendPort_ = a.currentSendPort_ ∧
        a'.heartbeat_ = max (a.heartbeat_ - envs.length) 0 ∧
        a'.oscOut = a.oscOut ∧ a'.loops_ = a.loops_ ∧
        ((∀ e ∈ envs, e.midiOutOpened = false) →
          a'.leds_ = a.leds_.map (tickLed^[envs.length])) := by
  induction envs with
  | nil =>
    intro a hidx hlen _ _ hb
    refine ⟨a, rfl, hidx, hlen, rfl, rfl, ?_, rfl, rfl, fun _ => ?_⟩
    · simp only [List.length_nil, Nat.cast_zero, sub_zero]
      omega
    · simp
  | cons env envs ih =>
    intro a hidx hlen hr hs hb
    obtain ⟨a1, h, h1, h2, h3, h4, h5, h6, h7, h8⟩ :=
      timerCallback_connected env a hidx hlen hr hs hb
    obtain ⟨a', g, g1, g2, g3, g4, g5, g6, g7, g8⟩ := ih a1 h1 h2 (by rw [h3]; exact hr)
      (by rw [h4]; exact hs) (by rw [h5]; split_ifs <;> omega)
    refine ⟨a', ?_, g1, g2, by rw [g3, h3], by rw [g4, h4], ?_, by rw [g6, h6], by rw [g7, h7],
      fun hopen => ?_⟩
    · simp only [List.map_cons, run, step, h, Option.some_bind, Option.bind_eq_bind]
      exact g
    · rw [g5, h5]
      simp only [List.length_cons, Nat.cast_add, Nat.cast_one]
      split_ifs <;> omega
    · rw [g8 (fun e he => hopen e (List.mem_cons_of_mem env he)),
        h8 (hopen env (List.mem_cons_self env envs)), List.map_map]
      rfl

theorem tickLed_blink_range (l : LED) (h : l.state_ = .Blink ∧ 0 ≤ l.timer_ ∧ l.timer_ ≤ 3) :
    (tickLed l).state_ = .Blink ∧ 0 ≤ (tickLed l).timer_ ∧ (tickLed l).timer_ ≤ 3 := by
  obtain ⟨h1, h2, h3⟩ := h
  unfold tickLed
  by_cases ht : l.timer_ ≤ 0
  · simp [h1, ht]
  · simp only [h1, ht, true_or, or_true, if_true, if_false, true_and]
    omega

theorem tickLed_fastBlink_range (l : LED)
    (h : l.state_ = .FastBlink ∧ 0 ≤ l.timer_ ∧ l.timer_ ≤ 1) :
    (tickLed l).state_ = .FastBlink ∧ 0 ≤ (tickLed l).timer_ ∧ (tickLed l).timer_ ≤ 1 := by
  obtain ⟨h1, h2, h3⟩ := h
  unfold tickLed
  by_cases ht : l.timer_ ≤ 0
  · simp [h1, ht]
  · simp only [h1, ht, true_or, or_true, if_true, if_false, true_and]
    omega

theorem iterate_invariant {α : Type} (f : α → α) (P : α → Prop) (hP : ∀ x, P x → P (f x))
    (k : Nat) (x : α) (hx : P x) : P (f^[k] x) := by
  induction k generalizing x with
  | zero => exact hx
  | succ k ih => exact ih (f x) (hP x hx)

theorem flipsWithin_blink (l : LED) (h : l.state_ = .Blink ∧ 0 ≤ l.timer_ ∧ l.timer_ ≤ 3) :
    flipsWithin 4 l = 1 := by
  obtain ⟨idx, flag, t, st⟩ := l
  obtain ⟨h1, h2, h3⟩ := h
  simp only at h1 h2 h3
  subst h1
  interval_cases t <;> cases flag <;> rfl

theorem flipsWithin_fastBlink (l : LED)
    (h : l.state_ = .FastBlink ∧ 0 ≤ l.timer_ ∧ l.timer_ ≤ 1) :
    flipsWithin 2 l = 1 := by
  obtain ⟨idx, flag, t, st⟩ := l
  obtain ⟨h1, h2, h3⟩ := h
  simp only at h1 h2 h3
  subst h1
  interval_cases t <;> cases flag <;> rfl

theorem tickLed_steady (l : LED) (h : l.state_ = .Dark ∨ l.state_ = .Light) : tickLed l = l := by
  unfold tickLed
  have hb : ¬ (l.state_ = .Blink ∨ l.state_ = .FastBlink) := by
    rcases h with h | h <;> rw [h] <;> decide
  rw [if_neg hb]

/-- C13, as stated, fails.  After the events `mutedLoop` both ports are connected
and LED 0 has pattern Blink and is on; it is still on after each of the next three
ticks and goes off on the fourth one only: no flip in three consecutive ticks.
After `waitingLoop` LED 0 has pattern FastBlink and is on; it is still on after
the next tick and goes off on the second one. -/
theorem blink_period_counterexample :
    (run App.init mutedLoop).map (fun a => (a.currentReceivePort_, a.currentSendPort_)) =
      some (9000, 9951) ∧
    ((List.range 5).map fun k =>
      (run App.init (mutedLoop ++ List.replicate k (.tick connectingTick))).bind
        fun a => (getReference a.leds_ 0).map fun l => (l.state_, l.on_)) =
      [some (.Blink, true), some (.Blink, true), some (.Blink, true), some (.Blink, true),
       some (.Blink, false)] ∧
    ((List.range 3).map fun k =>
      (run App.init (waitingLoop ++ List.replicate k (.tick connectingTick))).bind
        fun a => (getReference a.leds_ 0).map fun l => (l.state_, l.on_)) =
      [some (.FastBlink, true), some (.FastBlink, true), some (.FastBlink, false)] := by
  decide

/-- C13, amended.  From a state with both OSC ports connected (markers not
negative, countdown not negative, 23 LEDs each carrying its own index), any number
of consecutive ticks on which the controller output port is not being opened
returns, and the LED array afterwards is the old one with `tickLed` applied to
every record once per tick.  For a record with pattern Blink and timer in 0..3,
the on flag flips exactly once in every 4 consecutive ticks (TIMER_BLINK + 1),
whatever the number `k` of ticks already elapsed; with pattern FastBlink and timer
in 0..1 it flips exactly once in every 2 consecutive ticks (TIMER_FASTBLINK + 1);
a record with pattern Dark or Light is left as it is, on flag, timer and pattern,
by any number of ticks. -/
theorem tick_blink_period (a : App) (envs : List TickEnv) (hidx : LedsIndexed a)
    (hlen : a.leds_.length = NUM_LEDS)
    (hr : 0 ≤ a.currentReceivePort_) (hs : 0 ≤ a.currentSendPort_) (hb : 0 ≤ a.heartbeat_)
    (hopen : ∀ e ∈ envs, e.midiOutOpened = false) :
    ∃ a', run a (envs.map Event.tick) = some a' ∧
      a'.leds_ = a.leds_.map (tickLed^[envs.length]) ∧
      ∀ l ∈ a.leds_,
        (l.state_ = .Blink → 0 ≤ l.timer_ → l.timer_ ≤ TIMER_BLINK →
          ∀ k, flipsWithin 4 (tickLed^[k] l) = 1) ∧
        (l.state_ = .FastBlink → 0 ≤ l.timer_ → l.timer_ ≤ TIMER_FASTBLINK →
          ∀ k, flipsWithin 2 (tickLed^[k] l) = 1) ∧
        (l.state_ = .Dark ∨ l.state_ = .Light → ∀ k, tickLed^[k] l = l) := by
  obtain ⟨a', h, _, _, _, _, _, _, _, hleds⟩ := ticks_connected envs a hidx hlen hr hs hb
  refine ⟨a', h, hleds hopen, fun l _ => ⟨?_, ?_, ?_⟩⟩
  · intro h1 h2 h3 k
    exact flipsWithin_blink _ (iterate_invariant tickLed _ tickLed_blink_range k l ⟨h1, h2, h3⟩)
  · intro h1 h2 h3 k
    exact flipsWithin_fastBlink _
      (iterate_invariant tickLed _ tickLed_fastBlink_range k l ⟨h1, h2, h3⟩)
  · intro h1 k
    exact iterate_invariant tickLed (fun x => x = l) (fun x hx => by rw [hx]; exact tickLed_steady l h1)
      k l rfl

/-- C13 at a concrete input: four ticks from `blinkingApp`, whose LED 0 has
pattern Blink (on, timer 3), LED 1 pattern FastBlink (on, timer 1) and LED 2
pattern Dark. -/
theorem tick_blink_period_witness :
    ∃ a', run blinkingApp (List.replicate 4 (.tick connectingTick)) = some a' ∧
      a'.leds_ = blinkingApp.leds_.map (tickLed^[4]) ∧
      flipsWithin 4 { index_ := 0, on_ := true, timer_ := 3, state_ := .Blink } = 1 ∧
      flipsWithin 2 { index_ := 1, on_ := true, timer_ := 1, state_ := .FastBlink } = 1 ∧
      tickLed^[4] { index_ := 2, on_ := false, timer_ := 0, state_ := .Dark } =
        { index_ := 2, on_ := false, timer_ := 0, state_ := .Dark } := by
  obtain ⟨a', h, hleds, hall⟩ :=
    tick_blink_period blinkingApp (List.replicate 4 connectingTick) (by decide) (by decide)
      (by decide) (by decide) (by decide) (by decide)
  exact ⟨a', h, hleds,
    (hall { index_ := 0, on_ := true, timer_ := 3, state_ := .Blink } (by decide)).1 rfl
      (by decide) (by decide) 0,
    (hall { index_ := 1, on_ := true, timer_ := 1, state_ := .FastBlink } (by decide)).2.1 rfl
      (by decide) (by decide) 0,
    (hall { index_ := 2, on_ := false, timer_ := 0, state_ := .Dark } (by decide)).2.2
      (Or.inl rfl) 4⟩

theorem ledNumber_ne_config (j : Nat) (h : j < NUM_LEDS) : ledNumber (j : Int) ≠ 23 := by
  simp only [NUM_LEDS] at h
  interval_cases j <;> decide

/-- C14 (the code does not do this).  From a Live state (23 LEDs each carrying
its own index, both connection markers not negative, countdown 5), any number of
consecutive ticks, whatever the outside world answers on each, returns with both
connection markers unchanged, nothing sent to the looper, and the countdown equal
to max (5 - n) 0: it stops at 0, so the test `heartbeat_ < -5` of the lost-session
branch is false on every later tick as well. -/
theorem lost_session_unreachable (a : App) (envs : List TickEnv) (hidx : LedsIndexed a)
    (hlen : a.leds_.length = NUM_LEDS)
    (hr : 0 ≤ a.currentReceivePort_) (hs : 0 ≤ a.currentSendPort_) (hb : a.heartbeat_ = 5) :
    ∃ a', run a (envs.map Event.tick) = some a' ∧
      a'.currentReceivePort_ = a.currentReceivePort_ ∧
      a'.currentSendPort_ = a.currentSendPort_ ∧
      a'.oscOut = a.oscOut ∧
      a'.heartbeat_ = max (5 - (envs.length : Int)) 0 ∧ ¬ a'.heartbeat_ < -5 := by
  obtain ⟨a', h, _, _, h3, h4, h5, h6, _, _⟩ :=
    ticks_connected envs a hidx hlen hr hs (by rw [hb]; decide)
  rw [hb] at h5
  refine ⟨a', h, h3, h4, h6, h5, ?_⟩
  rw [h5]
  omega

/-- C14 at a concrete input: twenty ticks from `blinkingApp` (ports 9000 and 9951
connected, countdown 5). -/
theorem lost_session_unreachable_witness :
    blinkingApp.heartbeat_ = 5 ∧
    ∃ a', run blinkingApp (List.replicate 20 (.tick connectingTick)) = some a' ∧
      a'.currentReceivePort_ = 9000 ∧ a'.currentSendPort_ = 9951 ∧ a'.oscOut = [] ∧
      a'.heartbeat_ = 0 := by
  obtain ⟨a', h, h1, h2, h3, h4, _⟩ :=
    lost_session_unreachable blinkingApp (List.replicate 20 connectingTick) (by decide) (by decide)
      (by decide) (by decide) (by decide)
  exact ⟨rfl, a', h, h1, h2, h3, h4⟩

/-- C15 (the code does not do this).  After the events `twoQuietTicks` the
countdown is 3.  A `/ctrl` global selection update (loop index -2,
"selected_loop_num", 1.0) is handled, `selectedLoop_` becomes 1, and the countdown
is still 3; a `/ctrl` state update for loop 0 handled in the same state sets it
to 5. -/
theorem ctrl_selection_keeps_countdown :
    (run App.init twoQuietTicks).map (fun a => (a.heartbeat_, a.selectedLoop_)) = some (3, -1) ∧
    (run App.init (twoQuietTicks ++
        [.ctrl ⟨"/ctrl", [.int32 (-2), .string "selected_loop_num", .float32 1]⟩])).map
      (fun a => (a.heartbeat_, a.selectedLoop_)) = some (3, 1) ∧
    (run App.init (twoQuietTicks ++
        [.ctrl ⟨"/ctrl", [.int32 0, .string "state", .float32 4]⟩])).map
      (fun a => (a.heartbeat_, a.selectedLoop_)) = some (5, -1) := by
  decide

theorem timerCallback_midiOut (env : TickEnv) (a : App) (hidx : LedsIndexed a)
    (hlen : a.leds_.length = NUM_LEDS)
    (hr : 0 ≤ a.currentReceivePort_) (hs : 0 ≤ a.currentSendPort_) :
    ∃ a' pre extra, timerCallback env a = some a' ∧
      a'.midiOut = a.midiOut ++ pre ++
        (if a.heartbeat_ = 0 then
          [[MIDI_CMD_CONTROL, if a.heartbeatOn_ then 107 else 106, 23]] else []) ++ extra ∧
      (∀ m ∈ pre ++ extra, ∃ cc j, j < NUM_LEDS ∧ m = [MIDI_CMD_CONTROL, cc, ledNumber j]) ∧
      a'.heartbeatOn_ = (if a.heartbeat_ = 0 then !a.heartbeatOn_ else a.heartbeatOn_) ∧
      (0 ≤ a.heartbeat_ → a'.heartbeat_ = if a.heartbeat_ = 0 then 0 else a.heartbeat_ - 1) := by
  have hmain : ∀ (e : TickEnv) (b : App) (pre : List (List Nat)), e.midiOutOpened = false →
      LedsIndexed b → b.leds_.length = NUM_LEDS → LedsOnly a b → b.midiOut = a.midiOut ++ pre →
      ∃ a' extra, timerCallback e b = some a' ∧
        a'.midiOut = a.midiOut ++ pre ++
          (if a.heartbeat_ = 0 then
            [[MIDI_CMD_CONTROL, if a.heartbeatOn_ then 107 else 106, 23]] else []) ++ extra ∧
        (∀ m ∈ extra, ∃ cc j, j < NUM_LEDS ∧ m = [MIDI_CMD_CONTROL, cc, ledNumber j]) ∧
        a'.heartbeatOn_ = (if a.heartbeat_ = 0 then !a.heartbeatOn_ else a.heartbeatOn_) ∧
        (0 ≤ a.heartbeat_ →
          a'.heartbeat_ = if a.heartbeat_ = 0 then 0 else a.heartbeat_ - 1) := by
    intro e b pre he hbidx hblen hfr hbm
    obtain ⟨f1, f2, f3, f4⟩ := ledsOnly_session hfr
    obtain ⟨a', extra, h, hfr', _, _, _, hmidi, hextra⟩ := timerCallback_blink e b hbidx he
      (by rw [f1]; exact hr) (by rw [f2]; exact hs)
    obtain ⟨k1, k2, k3, k4⟩ := ledsOnly_session hfr'
    obtain ⟨p, q, o, hh, eq⟩ := heartbeatTick_frame e b
    have hm : (heartbeatTick e b).midiOut = b.midiOut ++
        (if b.heartbeat_ = 0 then
          [[MIDI_CMD_CONTROL, if b.heartbeatOn_ then 107 else 106, 23]] else []) := by
      rw [eq]
    have hon : (heartbeatTick e b).heartbeatOn_ =
        (if b.heartbeat_ = 0 then !b.heartbeatOn_ else b.heartbeatOn_) := by
      rw [eq]
    refine ⟨a', extra, h, ?_, ?_, ?_, ?_⟩
    · rw [hmidi, hm, hbm, f3, f4]
    · intro m hmem
      obtain ⟨cc, j, hj, em⟩ := hextra m hmem
      exact ⟨cc, j, by rw [← hblen]; exact hj, em⟩
    · rw [k4, hon, f3, f4]
    · intro hb
      rw [k3, (heartbeatTick_session e b (by rw [f3]; exact hb)).2.2.1, f3]
  cases hopen : env.midiOutOpened
  · obtain ⟨a', extra, h, h1, h2, h3, h4⟩ :=
      hmain env a [] hopen hidx hlen (ledsOnly_refl a) (by simp)
    refine ⟨a', [], extra, h, h1, ?_, h3, h4⟩
    intro m hmem
    exact h2 m (by simpa using hmem)
  · obtain ⟨a1, pre, he, hfr, _, hidx1, hlen1, hmidi1, hpre⟩ :=
      timerCallback_open env a hidx hlen hopen
    obtain ⟨a', extra, h, h1, h2, h3, h4⟩ :=
      hmain { env with midiOutOpened := false } a1 pre rfl hidx1 hlen1 hfr hmidi1
    refine ⟨a', pre, extra, by rw [he]; exact h, h1, ?_, h3, h4⟩
    intro m hmem
    rw [List.mem_append] at hmem
    rcases hmem with hmem | hmem
    · exact hpre m hmem
    · exact h2 m hmem

/-- C16, as stated, fails: the first tick of `connectingTick` connects both ports
(countdown 5); the five ticks after it, with the session connected and the
countdown at 5, 4, 3, 2 and 1, write nothing to the controller.  The indicator is
written by the seventh and eighth ticks, which find the countdown at 0: first
CC 106, then CC 107, both with value 23. -/
theorem heartbeat_indicator_counterexample :
    (run App.init [.tick connectingTick]).map
        (fun a => (a.currentReceivePort_, a.currentSendPort_, a.heartbeat_, a.midiOut)) =
      some (9000, 9951, 5, []) ∧
    (run App.init (List.replicate 6 (.tick connectingTick))).map
        (fun a => (a.currentReceivePort_, a.currentSendPort_, a.heartbeat_, a.midiOut)) =
      some (9000, 9951, 0, []) ∧
    (run App.init (List.replicate 8 (.tick connectingTick))).map
        (fun a => (a.currentReceivePort_, a.currentSendPort_, a.heartbeat_, a.midiOut)) =
      some (9000, 9951, 0, [[MIDI_CMD_CONTROL, 106, 23], [MIDI_CMD_CONTROL, 107, 23]]) := by
  refine ⟨by decide, by decide, by decide⟩

/-- C16, amended.  While the session is connected (both connection markers not
negative, 23 LEDs each carrying its own index), every timer tick returns, and it
writes the heartbeat indicator exactly when it finds the countdown at 0: then one
message with value 23 (CONFIG) is written, on CC 107 when `heartbeatOn_` is set
and on CC 106 otherwise, `heartbeatOn_` is toggled and the countdown stays 0, so
that consecutive such ticks alternate between the two control numbers.  With any
other value of the countdown no indicator is written and `heartbeatOn_` is kept;
a countdown above 0 is decremented.  Every other message written by the tick
(`pre` when the controller port is opened on this tick, `extra` for the blinking
LEDs) addresses one of the 23 pedal LEDs, whose slot is never 23. -/
theorem heartbeat_indicator (env : TickEnv) (a : App) (hidx : LedsIndexed a)
    (hlen : a.leds_.length = NUM_LEDS)
    (hr : 0 ≤ a.currentReceivePort_) (hs : 0 ≤ a.currentSendPort_) :
    ∃ a' pre extra, timerCallback env a = some a' ∧
      a'.midiOut = a.midiOut ++ pre ++
        (if a.heartbeat_ = 0 then
          [[MIDI_CMD_CONTROL, if a.heartbeatOn_ then 107 else 106, 23]] else []) ++ extra ∧
      (∀ m ∈ pre ++ extra, ∃ cc j, m = [MIDI_CMD_CONTROL, cc, ledNumber j] ∧ ledNumber j ≠ 23) ∧
      a'.heartbeatOn_ = (if a.heartbeat_ = 0 then !a.heartbeatOn_ else a.heartbeatOn_) ∧
      (0 ≤ a.heartbeat_ → a'.heartbeat_ = if a.heartbeat_ = 0 then 0 else a.heartbeat_ - 1) := by
  obtain ⟨a', pre, extra, h, h1, h2, h3, h4⟩ := timerCallback_midiOut env a hidx hlen hr hs
  refine ⟨a', pre, extra, h, h1, ?_, h3, h4⟩
  intro m hmem
  obtain ⟨cc, j, hj, em⟩ := h2 m hmem
  exact ⟨cc, j, em, ledNumber_ne_config j hj⟩

/-- C16 at concrete inputs: one tick from `silentApp` (countdown 0) and one from
`blinkingApp` (countdown 5). -/
theorem heartbeat_indicator_witness :
    (∃ a' pre extra, timerCallback connectingTick silentApp = some a' ∧
      a'.midiOut = [] ++ pre ++ [[MIDI_CMD_CONTROL, 106, 23]] ++ extra ∧
      a'.heartbeatOn_ = true ∧ a'.heartbeat_ = 0) ∧
    (∃ a' pre extra, timerCallback connectingTick blinkingApp = some a' ∧
      a'.midiOut = [] ++ pre ++ [] ++ extra ∧ a'.heartbeatOn_ = false ∧ a'.heartbeat_ = 4) := by
  obtain ⟨a', pre, extra, h, h1, _, h3, h4⟩ :=
    heartbeat_indicator connectingTick silentApp (by decide) (by decide) (by decide) (by decide)
  obtain ⟨b', pre2, extra2, g, g1, _, g3, g4⟩ :=
    heartbeat_indicator connectingTick blinkingApp (by decide) (by decide) (by decide) (by decide)
  exact ⟨⟨a', pre, extra, h, h1, h3, h4 (by decide)⟩, ⟨b', pre2, extra2, g, g1, g3, g4 (by decide)⟩⟩

theorem oscOnly_port {a b : App} (h : OscOnly a b) :
    b.currentReceivePort_ = a.currentReceivePort_ := by
  unfold OscOnly at h
  have e := congrArg App.currentReceivePort_ h
  exact e

theorem ledsOnly_port {a b : App} (h : LedsOnly a b) :
    b.currentReceivePort_ = a.currentReceivePort_ := (ledsOnly_session h).1

theorem forEach_sent (body : Int → App → Option App) (sent : Int → Int → List OSCMessage)
    (hbody : ∀ i b b1, body i b = some b1 →
      b1.currentReceivePort_ = b.currentReceivePort_ ∧
        b1.oscOut = b.oscOut ++ sent b.currentReceivePort_ i)
    (is : List Int) :
    ∀ b b' : App, forEach body is b = some b' →
      b'.currentReceivePort_ = b.currentReceivePort_ ∧
        b'.oscOut = b.oscOut ++ is.flatMap (sent b.currentReceivePort_) := by
  induction is with
  | nil =>
    intro b b' h
    cases h
    exact ⟨rfl, by simp⟩
  | cons i is ih =>
    intro b b' h
    cases hb : body i b with
    | none =>
      simp only [forEach, hb, Option.none_bind, Option.bind_eq_bind] at h
      cases h
    | some b1 =>
      simp only [forEach, hb, Option.some_bind, Option.bind_eq_bind] at h
      obtain ⟨h1, h2⟩ := hbody i b b1 hb
      obtain ⟨g1, g2⟩ := ih b1 b' h
      refine ⟨by rw [g1, h1], ?_⟩
      rw [g2, h2, h1, List.flatMap_cons, List.append_assoc]

theorem rebuildBody_sent (i : Int) (b b1 : App)
    (h : ((addLoop i b).map fun b1 => getCurrentState i (registerAutoUpdates i false b1)) =
      some b1) :
    b1.currentReceivePort_ = b.currentReceivePort_ ∧
      b1.oscOut = b.oscOut ++
        [registerAutoUpdateMessage b.currentReceivePort_ i, getStateMessage b.currentReceivePort_ i] := by
  unfold addLoop at h
  cases hg : getReference b.leds_ i with
  | none =>
    rw [hg] at h
    cases h
  | some l =>
    rw [hg] at h
    simp only [Option.map_some', Option.some.injEq] at h
    subst h
    refine ⟨rfl, ?_⟩
    simp [getCurrentState, registerAutoUpdates, oscSend, registerAutoUpdateMessage,
      getStateMessage, replyUrl]

theorem appendBody_sent (i : Int) (b b1 : App)
    (h : addLoop i (registerAutoUpdates i false b) = some b1) :
    b1.currentReceivePort_ = b.currentReceivePort_ ∧
      b1.oscOut = b.oscOut ++ [registerAutoUpdateMessage b.currentReceivePort_ i] := by
  unfold addLoop at h
  cases hg : getReference (registerAutoUpdates i false b).leds_ i with
  | none =>
    rw [hg] at h
    cases h
  | some l =>
    rw [hg] at h
    simp only [Option.some.injEq] at h
    subst h
    refine ⟨rfl, ?_⟩
    simp [registerAutoUpdates, oscSend, registerAutoUpdateMessage, replyUrl]

theorem pingAckArgs_session (args : List OSCArgument) :
    ∀ (i : Nat) (a : App), (pingAckArgs i args a).oscOut = a.oscOut ∧
      (pingAckArgs i args a).currentReceivePort_ = a.currentReceivePort_ := by
  induction args with
  | nil => intro i a; exact ⟨rfl, rfl⟩
  | cons arg rest ih =>
    intro i a
    unfold pingAckArgs
    simp only
    rw [(ih _ _).1, (ih _ _).2]
    split <;> exact ⟨rfl, rfl⟩

theorem oscOnly_session {a b : App} (h : OscOnly a b) :
    b.loopCount_ = a.loopCount_ ∧ b.engineId_ = a.engineId_ ∧ b.heartbeat_ = a.heartbeat_ := by
  unfold OscOnly at h
  have e1 := congrArg App.loopCount_ h
  have e2 := congrArg App.engineId_ h
  have e3 := congrArg App.heartbeat_ h
  exact ⟨e1, e2, e3⟩

theorem requests_sent (b : App) :
    (registerGlobalUpdates false (getSelectedLoop b)).oscOut =
      b.oscOut ++ [getSelectedMessage b.currentReceivePort_,
        registerUpdateMessage b.currentReceivePort_] := by
  simp [registerGlobalUpdates, getSelectedLoop, oscSend, getSelectedMessage,
    registerUpdateMessage, replyUrl]

theorem handlePingAckMessage_sent (message : OSCMessage) (a : App)
    (hne : message.args ≠ []) (hl : a.leds_.length = NUM_LEDS)
    (h0 : 0 < (pingAckArgs 0 message.args a).loopCount_)
    (h1 : (pingAckArgs 0 message.args a).loopCount_ ≤ NUM_LEDS) :
    ∃ a', handlePingAckMessage message a = some a' ∧
      a'.loops_ = (counterRange 0 (pingAckArgs 0 message.args a).loopCount_).map freshLoop ∧
      a'.loopCount_ = (pingAckArgs 0 message.args a).loopCount_ ∧
      a'.engineId_ = (pingAckArgs 0 message.args a).engineId_ ∧
      a'.heartbeat_ = 5 ∧
      a'.oscOut = a.oscOut ++
        (counterRange 0 (pingAckArgs 0 message.args a).loopCount_).flatMap (fun i =>
          [registerAutoUpdateMessage a.currentReceivePort_ i,
           getStateMessage a.currentReceivePort_ i]) ++
        [getSelectedMessage a.currentReceivePort_,
         registerUpdateMessage a.currentReceivePort_] := by
  have hlen : ({ pingAckArgs 0 message.args a with loops_ := [] } : App).leds_.length = NUM_LEDS := by
    show (pingAckArgs 0 message.args a).leds_.length = NUM_LEDS
    rw [pingAckArgs_leds]; exact hl
  obtain ⟨b', hb', hloops, hfr⟩ := forEach_addLoops
    (fun i b => (addLoop i b).map fun b1 => getCurrentState i (registerAutoUpdates i false b1))
    rebuildBody_valid (counterRange 0 (pingAckArgs 0 message.args a).loopCount_)
    { pingAckArgs 0 message.args a with loops_ := [] }
    (counterRange_valid _ _ (by rw [hlen]; exact_mod_cast h1))
  obtain ⟨hport, hsent⟩ := forEach_sent
    (fun i b => (addLoop i b).map fun b1 => getCurrentState i (registerAutoUpdates i false b1))
    (fun port i => [registerAutoUpdateMessage port i, getStateMessage port i])
    rebuildBody_sent _ _ b' hb'
  have hp : b'.currentReceivePort_ = a.currentReceivePort_ := by
    rw [hport]
    exact (pingAckArgs_session message.args 0 a).2
  have ho : ({ pingAckArgs 0 message.args a with loops_ := [] } : App).oscOut = a.oscOut :=
    (pingAckArgs_session message.args 0 a).1
  have hq : ({ pingAckArgs 0 message.args a with loops_ := [] } : App).currentReceivePort_ =
      a.currentReceivePort_ := (pingAckArgs_session message.args 0 a).2
  obtain ⟨s1, s2, _⟩ := oscOnly_session hfr
  have hemp : message.args.isEmpty = false := by
    cases hargs : message.args with
    | nil => exact absurd hargs hne
    | cons x xs => rfl
  refine ⟨{ registerGlobalUpdates false (getSelectedLoop b') with heartbeat_ := 5 }, ?_, ?_, ?_,
    ?_, rfl, ?_⟩
  · unfold handlePingAckMessage
    simp only [hemp, Bool.false_eq_true, if_false, gt_iff_lt, h0, if_true, hb', Option.some_bind,
      Option.bind_eq_bind]
  · show (registerGlobalUpdates false (getSelectedLoop b')).loops_ = _
    rw [registerGlobalUpdates_loops]
    unfold getSelectedLoop
    rw [oscSend_loops, hloops]
    rfl
  · show (registerGlobalUpdates false (getSelectedLoop b')).loopCount_ = _
    rw [← s1]
    rfl
  · show (registerGlobalUpdates false (getSelectedLoop b')).engineId_ = _
    rw [← s2]
    rfl
  · show (registerGlobalUpdates false (getSelectedLoop b')).oscOut = _
    rw [requests_sent, hsent, hp, ho, hq]

/-- C17, as stated, fails for N = 0: after `zeroLoopsAnnounced`, whose second
`/pingack` carries the loop count 0, `loopCount_` is 0 but the collection still
holds the two loops of the first `/pingack`. -/
theorem pingack_zero_counterexample :
    (run App.init zeroLoopsAnnounced).map (fun a => (a.loopCount_, a.loops_)) =
      some (0, [{ index_ := 0, state_ := Off, empty_ := true },
                { index_ := 1, state_ := Off, empty_ := true }]) := by
  decide

/-- C17, amended.  For every message carrying (url string, version string, loop
count N as int32, engine id as int32) and every prior state with its 23 LEDs:
when 1 ≤ N ≤ 23, `handlePingAckMessage` returns, the loop collection then has
exactly N entries (the fresh loops 0..N-1), `loopCount_ == N`, and the messages
sent are, for each index 0..N-1 in turn, its register_auto_update followed by its
get state request, then the selected-loop request and the global registration, so
that a register_auto_update was sent for each index 0..N-1.  When N = 0 the
handler returns with `loopCount_ == 0`, the collection as it was and nothing
sent. -/
theorem handlePingAckMessage_count (message : OSCMessage) (a : App) (url ver : String)
    (N uid : Int) (hl : a.leds_.length = NUM_LEDS)
    (hargs : message.args = [.string url, .string ver, .int32 N, .int32 uid]) :
    (1 ≤ N → N ≤ NUM_LEDS →
      ∃ a', handlePingAckMessage message a = some a' ∧
        (a'.loops_.length : Int) = N ∧ a'.loops_ = (counterRange 0 N).map freshLoop ∧
        a'.loopCount_ = N ∧
        a'.oscOut = a.oscOut ++
          (counterRange 0 N).flatMap (fun i =>
            [registerAutoUpdateMessage a.currentReceivePort_ i,
             getStateMessage a.currentReceivePort_ i]) ++
          [getSelectedMessage a.currentReceivePort_,
           registerUpdateMessage a.currentReceivePort_] ∧
        ∀ i : Int, 0 ≤ i → i < N →
          registerAutoUpdateMessage a.currentReceivePort_ i ∈ a'.oscOut) ∧
    (N = 0 →
      ∃ a', handlePingAckMessage message a = some a' ∧
        a'.loopCount_ = 0 ∧ a'.loops_ = a.loops_ ∧ a'.oscOut = a.oscOut) := by
  have hcount : (pingAckArgs 0 message.args a).loopCount_ = N := by
    rw [hargs]
    rfl
  have hne : message.args ≠ [] := by
    rw [hargs]
    exact List.cons_ne_nil _ _
  refine ⟨fun h1 h2 => ?_, fun h0 => ?_⟩
  · obtain ⟨a', h, hloops, hc, _, _, hsent⟩ := handlePingAckMessage_sent message a hne hl
      (by rw [hcount]; omega) (by rw [hcount]; exact h2)
    rw [hcount] at hloops hc hsent
    refine ⟨a', h, ?_, hloops, hc, hsent, ?_⟩
    · rw [hloops, List.length_map]
      unfold counterRange
      simp only [List.length_map, List.length_range, sub_zero]
      omega
    · intro i hi0 hiN
      rw [hsent]
      apply List.mem_append_left
      apply List.mem_append_right
      rw [List.mem_flatMap]
      refine ⟨i, ?_, List.mem_cons_self _ _⟩
      unfold counterRange
      rw [List.mem_map]
      refine ⟨i.toNat, ?_, ?_⟩
      · rw [List.mem_range]
        omega
      · omega
  · subst h0
    refine ⟨{ pingAckArgs 0 message.args a with heartbeat_ := 5 }, ?_, hcount, ?_, ?_⟩
    · unfold handlePingAckMessage
      rw [hargs]
      rfl
    · rw [hargs]
      rfl
    · rw [hargs]
      rfl

/-- C17 at concrete inputs: `demoMessage` (loop count 2) and a `/pingack` with
loop count 0, both handled in `demoApp`. -/
theorem handlePingAckMessage_count_witness :
    (∃ a', handlePingAckMessage demoMessage demoApp = some a' ∧
      (a'.loops_.length : Int) = 2 ∧ a'.loopCount_ = 2 ∧
      registerAutoUpdateMessage (-1) 0 ∈ a'.oscOut ∧
      registerAutoUpdateMessage (-1) 1 ∈ a'.oscOut) ∧
    (∃ a', handlePingAckMessage
        ⟨"/pingack", [.string "x", .string "1.0", .int32 0, .int32 7]⟩ demoApp = some a' ∧
      a'.loopCount_ = 0 ∧ a'.loops_ = demoApp.loops_) := by
  obtain ⟨a', h, h1, _, h3, _, h5⟩ :=
    (handlePingAckMessage_count demoMessage demoApp "x" "1.0" 2 7 (by decide) rfl).1
      (by decide) (by decide)
  obtain ⟨b', g, g1, g2, _⟩ :=
    (handlePingAckMessage_count ⟨"/pingack", [.string "x", .string "1.0", .int32 0, .int32 7]⟩
      demoApp "x" "1.0" 0 7 (by decide) rfl).2 rfl
  exact ⟨⟨a', h, h1, h3, h5 0 (by decide) (by decide), h5 1 (by decide) (by decide)⟩,
    ⟨b', g, g1, g2⟩⟩

theorem heartbeatArgs_session (args : List OSCArgument) :
    ∀ (i : Nat) (r : App × Int × Int),
      (heartbeatArgs i args r).1.oscOut = r.1.oscOut ∧
      (heartbeatArgs i args r).1.currentReceivePort_ = r.1.currentReceivePort_ := by
  induction args with
  | nil => intro i r; exact ⟨rfl, rfl⟩
  | cons arg rest ih =>
    intro i r
    obtain ⟨a, numloops, uid⟩ := r
    unfold heartbeatArgs
    simp only
    refine ⟨((ih _ _).1).trans ?_, ((ih _ _).2).trans ?_⟩ <;> split <;> rfl

theorem ledsOnly_count {a b : App} (h : LedsOnly a b) :
    b.loopCount_ = a.loopCount_ ∧ b.engineId_ = a.engineId_ := by
  unfold LedsOnly at h
  have e1 := congrArg App.loopCount_ h
  have e2 := congrArg App.engineId_ h
  exact ⟨e1, e2⟩

theorem getSelectedLoop_sent (b : App) :
    (getSelectedLoop b).oscOut = b.oscOut ++ [getSelectedMessage b.currentReceivePort_] ∧
      (getSelectedLoop b).currentReceivePort_ = b.currentReceivePort_ := by
  simp [getSelectedLoop, oscSend, getSelectedMessage, replyUrl]

theorem registerGlobalUpdates_sent (b : App) :
    (registerGlobalUpdates false b).oscOut =
      b.oscOut ++ [registerUpdateMessage b.currentReceivePort_] := by
  simp [registerGlobalUpdates, oscSend, registerUpdateMessage, replyUrl]

theorem pingAckArgs_tail (rest : List OSCArgument) :
    ∀ (i : Nat) (a : App), 4 ≤ i → pingAckArgs i rest a = a := by
  induction rest with
  | nil => intro i a _; rfl
  | cons arg rest ih =>
    intro i a hi
    unfold pingAckArgs
    simp only
    rw [ih _ _ (by omega)]
    split <;> first | rfl | (exfalso; omega)

theorem heartbeatArgs_tail (rest : List OSCArgument) :
    ∀ (i : Nat) (r : App × Int × Int), 4 ≤ i → heartbeatArgs i rest r = r := by
  induction rest with
  | nil => intro i r _; rfl
  | cons arg rest ih =>
    intro i r hi
    obtain ⟨a, numloops, uid⟩ := r
    unfold heartbeatArgs
    simp only
    rw [ih _ _ (by omega)]
    split <;> first | rfl | (exfalso; omega)

theorem pingAckArgs_reads (args : List OSCArgument) (a : App) :
    pingAckArgs 0 args a =
      { a with
        hostUrl_ := (stringAt args 0).getD a.hostUrl_
        version_ := (stringAt args 1).getD a.version_
        loopCount_ := (int32At args 2).getD a.loopCount_
        engineId_ := (int32At args 3).getD a.engineId_ } := by
  rcases args with _ | ⟨x0, _ | ⟨x1, _ | ⟨x2, _ | ⟨x3, rest⟩⟩⟩⟩
  · rfl
  · cases x0 <;> rfl
  · cases x0 <;> cases x1 <;> rfl
  · cases x0 <;> cases x1 <;> cases x2 <;> rfl
  · cases x0 <;> cases x1 <;> cases x2 <;> cases x3 <;>
      (simp only [pingAckArgs]; refine (pingAckArgs_tail rest _ _ (by decide)).trans ?_; rfl)

theorem heartbeatArgs_reads (args : List OSCArgument) (a : App) (numloops uid : Int) :
    heartbeatArgs 0 args (a, numloops, uid) =
      ({ a with
          hostUrl_ := (stringAt args 0).getD a.hostUrl_
          version_ := (stringAt args 1).getD a.version_ },
        (int32At args 2).getD numloops, (int32At args 3).getD uid) := by
  rcases args with _ | ⟨x0, _ | ⟨x1, _ | ⟨x2, _ | ⟨x3, rest⟩⟩⟩⟩
  · rfl
  · cases x0 <;> rfl
  · cases x0 <;> cases x1 <;> rfl
  · cases x0 <;> cases x1 <;> cases x2 <;> rfl
  · cases x0 <;> cases x1 <;> cases x2 <;> cases x3 <;>
      (simp only [heartbeatArgs]; refine (heartbeatArgs_tail rest _ _ (by decide)).trans ?_; rfl)

theorem int32At_two {args : List OSCArgument} {v : Int} (h : int32At args 2 = some v) :
    ∃ x0 x1 rest, args = x0 :: x1 :: .int32 v :: rest := by
  rcases args with _ | ⟨x0, _ | ⟨x1, _ | ⟨x2, rest⟩⟩⟩
  · cases h
  · cases h
  · cases h
  · cases x2 with
    | int32 w =>
      have e : w = v := by
        have : some w = some v := h
        exact Option.some.inj this
      exact ⟨x0, x1, rest, by rw [e]⟩
    | float32 w => cases h
    | string s => cases h
    | blob => cases h

theorem int32At_three {args : List OSCArgument} {v : Int} (h : int32At args 3 = some v) :
    ∃ x0 x1 x2 rest, args = x0 :: x1 :: x2 :: .int32 v :: rest := by
  rcases args with _ | ⟨x0, _ | ⟨x1, _ | ⟨x2, _ | ⟨x3, rest⟩⟩⟩⟩
  · cases h
  · cases h
  · cases h
  · cases h
  · cases x3 with
    | int32 w =>
      have e : w = v := by
        have : some w = some v := h
        exact Option.some.inj this
      exact ⟨x0, x1, x2, rest, by rw [e]⟩
    | float32 w => cases h
    | string s => cases h
    | blob => cases h

theorem oscOnly_host {a b : App} (h : OscOnly a b) :
    b.hostUrl_ = a.hostUrl_ ∧ b.version_ = a.version_ ∧ b.selectedLoop_ = a.selectedLoop_ := by
  unfold OscOnly at h
  have e1 := congrArg App.hostUrl_ h
  have e2 := congrArg App.version_ h
  have e3 := congrArg App.selectedLoop_ h
  exact ⟨e1, e2, e3⟩

theorem ledsOnly_host {a b : App} (h : LedsOnly a b) :
    b.hostUrl_ = a.hostUrl_ ∧ b.version_ = a.version_ ∧ b.selectedLoop_ = a.selectedLoop_ := by
  unfold LedsOnly at h
  have e1 := congrArg App.hostUrl_ h
  have e2 := congrArg App.version_ h
  have e3 := congrArg App.selectedLoop_ h
  exact ⟨e1, e2, e3⟩

theorem getSelectedLoop_oscOnly (b : App) : OscOnly b (getSelectedLoop b) := by
  unfold getSelectedLoop
  exact oscSend_oscOnly _ _ _

theorem handleHeartbeatMessage_sent (message : OSCMessage) (a a1 : App) (numloops uid : Int)
    (hne : message.args ≠ []) (hl : a.leds_.length = NUM_LEDS)
    (hr : heartbeatArgs 0 message.args (a, 0, a.engineId_) = (a1, numloops, uid))
    (huid : uid ≠ a.engineId_) (h0 : 0 < numloops) (h1 : numloops ≤ NUM_LEDS) :
    ∃ a', handleHeartbeatMessage message a = some a' ∧
      a'.loops_ = (counterRange 0 numloops).map freshLoop ∧
      a'.loopCount_ = numloops ∧ a'.heartbeat_ = 5 ∧
      a'.oscOut = a.oscOut ++
        (counterRange 0 numloops).flatMap (fun i =>
          [registerAutoUpdateMessage a.currentReceivePort_ i,
           getStateMessage a.currentReceivePort_ i]) ++
        [getSelectedMessage a.currentReceivePort_,
         registerUpdateMessage a.currentReceivePort_] ∧
      a'.hostUrl_ = a1.hostUrl_ ∧ a'.version_ = a1.version_ ∧
      a'.selectedLoop_ = a1.selectedLoop_ ∧ a'.engineId_ = a.engineId_ := by
  obtain ⟨e1, e2, e3, e4⟩ := heartbeatArgs_leds message.args 0 (a, 0, a.engineId_)
  obtain ⟨e5, e6⟩ := heartbeatArgs_session message.args 0 (a, 0, a.engineId_)
  rw [hr] at e1 e2 e3 e4 e5 e6
  simp only at e1 e2 e3 e4 e5 e6
  have hlen : ({ a1 with loopCount_ := numloops, loops_ := [] } : App).leds_.length = NUM_LEDS := by
    show a1.leds_.length = NUM_LEDS
    rw [e1]; exact hl
  obtain ⟨b', hb', hloops, hfr⟩ := forEach_addLoops
    (fun i b => (addLoop i b).map fun b1 => getCurrentState i (registerAutoUpdates i false b1))
    rebuildBody_valid (counterRange 0 numloops)
    { a1 with loopCount_ := numloops, loops_ := [] }
    (counterRange_valid _ _ (by rw [hlen]; exact_mod_cast h1))
  obtain ⟨hport, hsent⟩ := forEach_sent
    (fun i b => (addLoop i b).map fun b1 => getCurrentState i (registerAutoUpdates i false b1))
    (fun port i => [registerAutoUpdateMessage port i, getStateMessage port i])
    rebuildBody_sent _ _ b' hb'
  have hp : b'.currentReceivePort_ = a.currentReceivePort_ := by
    rw [hport]
    exact e6
  have ho : ({ a1 with loopCount_ := numloops, loops_ := [] } : App).oscOut = a.oscOut := e5
  have hq : ({ a1 with loopCount_ := numloops, loops_ := [] } : App).currentReceivePort_ =
      a.currentReceivePort_ := e6
  obtain ⟨s1, _, _⟩ := oscOnly_session hfr
  have hloops' : (getSelectedLoop b').loops_ = (counterRange 0 numloops).map freshLoop := by
    unfold getSelectedLoop
    rw [oscSend_loops, hloops]
    rfl
  have hleds' : (getSelectedLoop b').leds_.length = NUM_LEDS := by
    unfold getSelectedLoop
    rw [oscOnly_leds (oscSend_oscOnly _ _ _), oscOnly_leds hfr]
    exact hlen
  have hwf : (getSelectedLoop b').WF := by
    refine ⟨hleds', ?_⟩
    intro l hmem
    rw [hloops', List.mem_map] at hmem
    obtain ⟨i, hi, rfl⟩ := hmem
    have := counterRange_mem 0 numloops i hi
    simp only [freshLoop, NUM_LEDS] at h1 ⊢
    omega
  obtain ⟨a3, ha3, hfr3, hwf3, hl3⟩ := updateLoops_valid (getSelectedLoop b') hwf
  have hemp : message.args.isEmpty = false := by
    cases hargs : message.args with
    | nil => exact absurd hargs hne
    | cons x xs => rfl
  have huid' : uid ≠ a1.engineId_ := by rw [e3]; exact huid
  have hc3 : a3.loopCount_ = numloops := by
    rw [(ledsOnly_count hfr3).1]
    show b'.loopCount_ = numloops
    rw [s1]
  have k1 := oscOnly_host (registerGlobalUpdates_oscOnly false a3)
  have k2 := ledsOnly_host hfr3
  have k3 := oscOnly_host (getSelectedLoop_oscOnly b')
  have k4 := oscOnly_host hfr
  have k5 := (oscOnly_session (registerGlobalUpdates_oscOnly false a3)).2.1
  have k6 := (ledsOnly_count hfr3).2
  have k7 := (oscOnly_session (getSelectedLoop_oscOnly b')).2.1
  have k8 := (oscOnly_session hfr).2.1
  refine ⟨{ registerGlobalUpdates false a3 with heartbeat_ := 5 }, ?_, ?_, ?_, rfl, ?_,
    k1.1.trans (k2.1.trans (k3.1.trans k4.1)), k1.2.1.trans (k2.2.1.trans (k3.2.1.trans k4.2.1)),
    k1.2.2.trans (k2.2.2.trans (k3.2.2.trans k4.2.2)),
    k5.trans (k6.trans (k7.trans (k8.trans e3)))⟩
  · unfold handleHeartbeatMessage
    simp only [hemp, Bool.false_eq_true, if_false, hr, ne_eq, huid', not_false_eq_true, if_true,
      gt_iff_lt, h0, hb', Option.some_bind, Option.bind_eq_bind, ha3]
  · show (registerGlobalUpdates false a3).loops_ = _
    rw [registerGlobalUpdates_loops, hl3, hloops', List.map_map]
    apply List.map_congr_left
    intro i _
    rfl
  · show (registerGlobalUpdates false a3).loopCount_ = _
    rw [← hc3]
    rfl
  · show (registerGlobalUpdates false a3).oscOut = _
    rw [registerGlobalUpdates_sent, ledsOnly_oscOut hfr3, ledsOnly_port hfr3,
      (getSelectedLoop_sent b').1, (getSelectedLoop_sent b').2, hsent, hp, ho, hq]
    simp

/-- C19, as stated, fails for M = 0: after `newEngineNoLoops`, whose `/heartbeat`
carries engine id 8 (the tracked one is 7) and loop count 0, the collection still
holds the two loops announced before, and nothing was sent beyond the six messages
of the `/pingack`. -/
theorem heartbeat_zero_counterexample :
    (run App.init newEngineNoLoops).map (fun a => (a.engineId_, a.loops_, a.oscOut.length)) =
      some (7, [{ index_ := 0, state_ := Off, empty_ := true },
                { index_ := 1, state_ := Off, empty_ := true }], 6) := by
  decide

/-- C19, amended.  For every `/heartbeat` message whose third argument is the
int32 loop count M and whose fourth argument is an int32 engine id different from
the tracked `engineId_` (the first two arguments and any argument after the
fourth being arbitrary), handled in a state with its 23 LEDs: when 1 ≤ M ≤ 23,
the handler returns, the loop collection then consists of exactly the M fresh
loops 0..M-1 (all Off and empty), and the messages sent are, for each of them in
turn, a register_auto_update and a get state request, then the selected-loop
request and the global update registration.  When M ≤ 0 the handler returns with
the collection as it was and nothing sent. -/
theorem handleHeartbeatMessage_fresh (message : OSCMessage) (a : App) (x0 x1 : OSCArgument)
    (M uid : Int) (rest : List OSCArgument) (hl : a.leds_.length = NUM_LEDS)
    (hargs : message.args = x0 :: x1 :: .int32 M :: .int32 uid :: rest)
    (huid : uid ≠ a.engineId_) :
    (1 ≤ M → M ≤ NUM_LEDS →
      ∃ a', handleHeartbeatMessage message a = some a' ∧
        a'.loops_ = (counterRange 0 M).map freshLoop ∧
        (a'.loops_.length : Int) = M ∧
        (∀ l ∈ a'.loops_, l.state_ = Off ∧ l.empty_ = true) ∧
        a'.oscOut = a.oscOut ++
          (counterRange 0 M).flatMap (fun i =>
            [registerAutoUpdateMessage a.currentReceivePort_ i,
             getStateMessage a.currentReceivePort_ i]) ++
          [getSelectedMessage a.currentReceivePort_,
           registerUpdateMessage a.currentReceivePort_]) ∧
    (M ≤ 0 →
      ∃ a', handleHeartbeatMessage message a = some a' ∧
        a'.loops_ = a.loops_ ∧ a'.oscOut = a.oscOut) := by
  have hne : message.args ≠ [] := by rw [hargs]; exact List.cons_ne_nil _ _
  have hr : heartbeatArgs 0 message.args (a, 0, a.engineId_) =
      ({ a with
          hostUrl_ := (stringAt message.args 0).getD a.hostUrl_
          version_ := (stringAt message.args 1).getD a.version_ }, M, uid) := by
    rw [heartbeatArgs_reads, hargs]
    rfl
  refine ⟨fun h1 h2 => ?_, fun h0 => ?_⟩
  · obtain ⟨a', h, hloops, _, _, hsent, _⟩ :=
      handleHeartbeatMessage_sent message a _ M uid hne hl hr huid (by omega) h2
    refine ⟨a', h, hloops, ?_, ?_, hsent⟩
    · rw [hloops, List.length_map]
      unfold counterRange
      simp only [List.length_map, List.length_range, sub_zero]
      omega
    · intro l hmem
      rw [hloops, List.mem_map] at hmem
      obtain ⟨i, _, rfl⟩ := hmem
      exact ⟨rfl, rfl⟩
  · have hemp : message.args.isEmpty = false := by rw [hargs]; rfl
    have hn : ¬ 0 < M := by omega
    refine ⟨{ a with
        hostUrl_ := (stringAt message.args 0).getD a.hostUrl_
        version_ := (stringAt message.args 1).getD a.version_
        heartbeat_ := 5 }, ?_, rfl, rfl⟩
    unfold handleHeartbeatMessage
    simp only [hemp, Bool.false_eq_true, if_false, hr, ne_eq, huid, not_false_eq_true, if_true,
      gt_iff_lt, hn, Option.some_bind, Option.bind_eq_bind]

/-- C19 at a concrete input: `demoMessage`, with arguments ("x", "1.0", 2, 7),
handled as a `/heartbeat` in `demoApp`, whose tracked engine id is 0. -/
theorem handleHeartbeatMessage_fresh_witness :
    ∃ a', handleHeartbeatMessage demoMessage demoApp = some a' ∧
      a'.loops_ = [freshLoop 0, freshLoop 1] ∧
      a'.oscOut = [registerAutoUpdateMessage (-1) 0, getStateMessage (-1) 0,
        registerAutoUpdateMessage (-1) 1, getStateMessage (-1) 1,
        getSelectedMessage (-1), registerUpdateMessage (-1)] := by
  obtain ⟨a', h, h1, _, _, h4⟩ :=
    (handleHeartbeatMessage_fresh demoMessage demoApp (.string "x") (.string "1.0") 2 7 []
      (by decide) rfl (by decide)).1 (by decide) (by decide)
  exact ⟨a', h, h1, h4⟩

theorem handleHeartbeatMessage_append (message : OSCMessage) (a a1 : App) (M uid : Int)
    (hne : message.args ≠ []) (hwf : a.WF)
    (hr : heartbeatArgs 0 message.args (a, 0, a.engineId_) = (a1, M, uid))
    (huid : uid = a.engineId_) (hM : M ≤ NUM_LEDS) (hK : 0 ≤ a.loopCount_)
    (hKM : a.loopCount_ ≠ M) :
    ∃ a', handleHeartbeatMessage message a = some a' ∧
      a'.loops_ = a.loops_.map fixEmpty ++ (counterRange a.loopCount_ M).map freshLoop ∧
      a'.loopCount_ = M ∧
      a'.oscOut = a.oscOut ++
        (counterRange a.loopCount_ M).flatMap (fun i =>
          [registerAutoUpdateMessage a.currentReceivePort_ i]) ++
        [getSelectedMessage a.currentReceivePort_] ∧
      a'.hostUrl_ = a1.hostUrl_ ∧ a'.version_ = a1.version_ ∧
      a'.selectedLoop_ = a1.selectedLoop_ ∧ a'.engineId_ = a.engineId_ ∧ a'.heartbeat_ = 5 := by
  obtain ⟨e1, e2, e3, e4⟩ := heartbeatArgs_leds message.args 0 (a, 0, a.engineId_)
  obtain ⟨e5, e6⟩ := heartbeatArgs_session message.args 0 (a, 0, a.engineId_)
  rw [hr] at e1 e2 e3 e4 e5 e6
  simp only at e1 e2 e3 e4 e5 e6
  have hlen : a1.leds_.length = NUM_LEDS := by rw [e1]; exact hwf.1
  have hrange : ∀ i ∈ counterRange a1.loopCount_ M, 0 ≤ i ∧ i.toNat < a1.leds_.length := by
    intro i hi
    have := counterRange_mem _ _ i hi
    rw [e4] at this
    rw [hlen]
    simp only [NUM_LEDS] at hM ⊢
    omega
  obtain ⟨b', hb', hloops, hfr⟩ := forEach_addLoops
    (fun i b => addLoop i (registerAutoUpdates i false b))
    appendBody_valid (counterRange a1.loopCount_ M) a1 hrange
  obtain ⟨hport, hsent⟩ := forEach_sent
    (fun i b => addLoop i (registerAutoUpdates i false b))
    (fun port i => [registerAutoUpdateMessage port i])
    appendBody_sent _ _ b' hb'
  have hloops' : (getSelectedLoop b').loops_ =
      a.loops_ ++ (counterRange a.loopCount_ M).map freshLoop := by
    unfold getSelectedLoop
    rw [oscSend_loops, hloops, e2, e4]
  have hleds' : (getSelectedLoop b').leds_.length = NUM_LEDS := by
    unfold getSelectedLoop
    rw [oscOnly_leds (oscSend_oscOnly _ _ _), oscOnly_leds hfr]
    exact hlen
  have hwf' : (getSelectedLoop b').WF := by
    refine ⟨hleds', ?_⟩
    intro l hmem
    rw [hloops', List.mem_append] at hmem
    rcases hmem with hmem | hmem
    · exact hwf.2 l hmem
    · rw [List.mem_map] at hmem
      obtain ⟨i, hi, rfl⟩ := hmem
      have := counterRange_mem _ _ i hi
      simp only [freshLoop, NUM_LEDS] at hM ⊢
      omega
  obtain ⟨a3, ha3, hfr3, _, hl3⟩ := updateLoops_valid (getSelectedLoop b') hwf'
  have hemp : message.args.isEmpty = false := by
    cases hargs : message.args with
    | nil => exact absurd hargs hne
    | cons x xs => rfl
  have huid' : ¬ uid ≠ a1.engineId_ := by rw [e3, huid]; simp
  have hKM' : a1.loopCount_ ≠ M := by rw [e4]; exact hKM
  have k2 := ledsOnly_host hfr3
  have k3 := oscOnly_host (getSelectedLoop_oscOnly b')
  have k4 := oscOnly_host hfr
  have k6 := (ledsOnly_count hfr3).2
  have k7 := (oscOnly_session (getSelectedLoop_oscOnly b')).2.1
  have k8 := (oscOnly_session hfr).2.1
  refine ⟨{ a3 with loopCount_ := M, heartbeat_ := 5 }, ?_, ?_, rfl, ?_,
    k2.1.trans (k3.1.trans k4.1), k2.2.1.trans (k3.2.1.trans k4.2.1),
    k2.2.2.trans (k3.2.2.trans k4.2.2), k6.trans (k7.trans (k8.trans e3)), rfl⟩
  · unfold handleHeartbeatMessage
    simp only [hemp, Bool.false_eq_true, if_false, hr, huid', ne_eq, hKM', not_false_eq_true,
      if_true, hb', Option.some_bind, Option.bind_eq_bind, ha3]
  · show a3.loops_ = _
    rw [hl3, hloops', List.map_append, List.map_map]
    congr 1
  · show a3.oscOut = _
    rw [ledsOnly_oscOut hfr3, (getSelectedLoop_sent b').1, hsent, hport, e5, e6, e4]

theorem flatMap_single {α β : Type} (f : α → β) (xs : List α) :
    (xs.flatMap fun x => [f x]) = xs.map f := by
  induction xs with
  | nil => rfl
  | cons x xs ih => rw [List.flatMap_cons, ih]; rfl

theorem handleHeartbeatMessage_cases (message : OSCMessage) (a a1 : App) (M uid : Int)
    (hne : message.args ≠ []) (hwf : a.WF)
    (hr : heartbeatArgs 0 message.args (a, 0, a.engineId_) = (a1, M, uid))
    (hM : M ≤ NUM_LEDS) (hK : 0 ≤ a.loopCount_) :
    ∃ a', handleHeartbeatMessage message a = some a' ∧
      a'.hostUrl_ = a1.hostUrl_ ∧ a'.version_ = a1.version_ ∧
      a'.selectedLoop_ = a1.selectedLoop_ ∧ a'.engineId_ = a.engineId_ ∧ a'.heartbeat_ = 5 ∧
      a'.loopCount_ = (if uid ≠ a.engineId_ then (if 0 < M then M else a.loopCount_) else M) ∧
      a'.loops_ =
        (if uid ≠ a.engineId_ then
          (if 0 < M then (counterRange 0 M).map freshLoop else a.loops_)
        else if a.loopCount_ ≠ M then
          a.loops_.map fixEmpty ++ (counterRange a.loopCount_ M).map freshLoop
        else a.loops_) ∧
      a'.oscOut =
        (if uid ≠ a.engineId_ then
          (if 0 < M then
            a.oscOut ++
              (counterRange 0 M).flatMap (fun i =>
                [registerAutoUpdateMessage a.currentReceivePort_ i,
                 getStateMessage a.currentReceivePort_ i]) ++
              [getSelectedMessage a.currentReceivePort_,
               registerUpdateMessage a.currentReceivePort_]
          else a.oscOut)
        else if a.loopCount_ ≠ M then
          a.oscOut ++
            (counterRange a.loopCount_ M).map (registerAutoUpdateMessage a.currentReceivePort_) ++
            [getSelectedMessage a.currentReceivePort_]
        else a.oscOut) := by
  obtain ⟨e1, e2, e3, e4⟩ := heartbeatArgs_leds message.args 0 (a, 0, a.engineId_)
  obtain ⟨e5, e6⟩ := heartbeatArgs_session message.args 0 (a, 0, a.engineId_)
  rw [hr] at e1 e2 e3 e4 e5 e6
  simp only at e1 e2 e3 e4 e5 e6
  have hemp : message.args.isEmpty = false := by
    cases hargs : message.args with
    | nil => exact absurd hargs hne
    | cons x xs => rfl
  by_cases huid : uid ≠ a.engineId_
  · by_cases h0 : 0 < M
    · obtain ⟨a', h, hloops, hcount, hhb, hsent, hhost, hver, hsel, heng⟩ :=
        handleHeartbeatMessage_sent message a a1 M uid hne hwf.1 hr huid h0 hM
      refine ⟨a', h, hhost, hver, hsel, heng, hhb, ?_, ?_, ?_⟩
      · rw [if_pos huid, if_pos h0]; exact hcount
      · rw [if_pos huid, if_pos h0]; exact hloops
      · rw [if_pos huid, if_pos h0]; exact hsent
    · have huid' : uid ≠ a1.engineId_ := by rw [e3]; exact huid
      refine ⟨{ a1 with heartbeat_ := 5 }, ?_, rfl, rfl, rfl, e3, rfl, ?_, ?_, ?_⟩
      · unfold handleHeartbeatMessage
        simp only [hemp, Bool.false_eq_true, if_false, hr, ne_eq, huid', not_false_eq_true,
          if_true, gt_iff_lt, h0, Option.some_bind, Option.bind_eq_bind]
      · rw [if_pos huid, if_neg h0]; exact e4
      · rw [if_pos huid, if_neg h0]; exact e2
      · rw [if_pos huid, if_neg h0]; exact e5
  · have hu : uid = a.engineId_ := not_not.mp huid
    by_cases hKM : a.loopCount_ ≠ M
    · obtain ⟨a', h, hloops, hcount, hsent, hhost, hver, hsel, heng, hhb⟩ :=
        handleHeartbeatMessage_append message a a1 M uid hne hwf hr hu hM hK hKM
      refine ⟨a', h, hhost, hver, hsel, heng, hhb, ?_, ?_, ?_⟩
      · rw [if_neg huid]; exact hcount
      · rw [if_neg huid, if_pos hKM]; exact hloops
      · rw [if_neg huid, if_pos hKM, hsent, flatMap_single]
    · have huid' : ¬ uid ≠ a1.engineId_ := by rw [e3, hu]; simp
      have hKM' : ¬ a1.loopCount_ ≠ M := by rw [e4]; exact hKM
      refine ⟨{ a1 with heartbeat_ := 5 }, ?_, rfl, rfl, rfl, e3, rfl, ?_, ?_, ?_⟩
      · unfold handleHeartbeatMessage
        simp only [hemp, Bool.false_eq_true, if_false, hr, huid', hKM', if_false,
          Option.some_bind, Option.bind_eq_bind]
      · rw [if_neg huid]
        show a1.loopCount_ = M
        rw [e4]
        exact not_not.mp hKM
      · rw [if_neg huid, if_neg hKM]; exact e2
      · rw [if_neg huid, if_neg hKM]; exact e5

/-- C20.  For every non-empty `/heartbeat` message that carries no int32 engine
id (fourth argument) different from the tracked `engineId_`, handled in a
well-formed state with `loopCount_` not negative, the int32 loop count of the
message (third argument), if there is one, being at most 23: the handler returns,
the collection does not get shorter, and every loop already in it is still at its
position with its index and state unchanged.  If the third argument is the int32
count M and M is greater than `loopCount_` = K, the collection afterwards is the
old one (with `empty_` recomputed from the state) followed by exactly the fresh
loops K..M-1 (Off, empty), and the messages sent are one register_auto_update for
each of the indices K..M-1, in order, followed by the selected-loop request. -/
theorem heartbeat_same_engine (message : OSCMessage) (a : App)
    (hne : message.args ≠ []) (hwf : a.WF) (hK : 0 ≤ a.loopCount_)
    (hid : ∀ (x0 x1 x2 : OSCArgument) (uid : Int) (rest : List OSCArgument),
      message.args = x0 :: x1 :: x2 :: .int32 uid :: rest → uid = a.engineId_)
    (hM : ∀ (x0 x1 : OSCArgument) (M : Int) (rest : List OSCArgument),
      message.args = x0 :: x1 :: .int32 M :: rest → M ≤ NUM_LEDS) :
    ∃ a', handleHeartbeatMessage message a = some a' ∧
      a.loops_.length ≤ a'.loops_.length ∧
      (∀ (k : Nat) (l : Loop), a.loops_[k]? = some l →
        ∃ l', a'.loops_[k]? = some l' ∧ l'.index_ = l.index_ ∧ l'.state_ = l.state_) ∧
      (∀ (x0 x1 : OSCArgument) (M : Int) (rest : List OSCArgument),
        message.args = x0 :: x1 :: .int32 M :: rest → a.loopCount_ < M →
        a'.loops_ = a.loops_.map fixEmpty ++ (counterRange a.loopCount_ M).map freshLoop ∧
        (∀ l ∈ (counterRange a.loopCount_ M).map freshLoop, l.state_ = Off ∧ l.empty_ = true) ∧
        a'.oscOut = a.oscOut ++
          (counterRange a.loopCount_ M).map (registerAutoUpdateMessage a.currentReceivePort_) ++
          [getSelectedMessage a.currentReceivePort_]) := by
  have huid : (int32At message.args 3).getD a.engineId_ = a.engineId_ := by
    cases h3 : int32At message.args 3 with
    | none => rfl
    | some u =>
      obtain ⟨y0, y1, y2, ys, e⟩ := int32At_three h3
      exact hid y0 y1 y2 u ys e
  have hM' : (int32At message.args 2).getD 0 ≤ NUM_LEDS := by
    cases h2 : int32At message.args 2 with
    | none => exact (by decide : (0 : Int) ≤ NUM_LEDS)
    | some v =>
      obtain ⟨y0, y1, ys, e⟩ := int32At_two h2
      exact hM y0 y1 v ys e
  obtain ⟨a', h, _, _, _, _, _, _, hloops, hsent⟩ :=
    handleHeartbeatMessage_cases message a _ _ _ hne hwf
      (heartbeatArgs_reads message.args a 0 a.engineId_) hM' hK
  rw [if_neg (not_not.mpr huid)] at hloops hsent
  refine ⟨a', h, ?_, ?_, ?_⟩
  · rw [hloops]
    split_ifs
    · rw [List.length_append, List.length_map]
      omega
    · exact le_refl _
  · intro k l hk
    have hklt : k < a.loops_.length := by
      by_contra hc
      rw [List.getElem?_eq_none (by omega)] at hk
      cases hk
    rw [hloops]
    split_ifs
    · refine ⟨fixEmpty l, ?_, rfl, rfl⟩
      rw [List.getElem?_append_left (by rw [List.length_map]; exact hklt),
        List.getElem?_map, hk]
      rfl
    · exact ⟨l, hk, rfl, rfl⟩
  · intro x0 x1 M rest hargs hlt
    have hread : (int32At message.args 2).getD 0 = M := by rw [hargs]; rfl
    rw [hread] at hloops hsent
    have hKM : a.loopCount_ ≠ M := by omega
    rw [if_pos hKM] at hloops hsent
    refine ⟨hloops, ?_, hsent⟩
    intro l hmem
    rw [List.mem_map] at hmem
    obtain ⟨i, _, rfl⟩ := hmem
    exact ⟨rfl, rfl⟩

/-- C20 at a concrete input: a `/heartbeat` of engine 0 reporting four loops,
handled in `demoApp` (engine 0, two loops: Playing and Multiplying). -/
theorem heartbeat_same_engine_witness :
    ∃ a', handleHeartbeatMessage
        ⟨"/heartbeat", [.string "x", .string "1.0", .int32 4, .int32 0]⟩ demoApp = some a' ∧
      a'.loops_ = [{ index_ := 0, state_ := Playing, empty_ := false },
        { index_ := 1, state_ := Multiplying, empty_ := false }, freshLoop 2, freshLoop 3] ∧
      a'.oscOut = [registerAutoUpdateMessage (-1) 2, registerAutoUpdateMessage (-1) 3,
        getSelectedMessage (-1)] := by
  obtain ⟨a', h, _, _, h3⟩ :=
    heartbeat_same_engine ⟨"/heartbeat", [.string "x", .string "1.0", .int32 4, .int32 0]⟩
      demoApp (by decide) (by decide) (by decide)
      (by intro x0 x1 x2 uid rest e; cases e; rfl)
      (by intro x0 x1 M rest e; cases e; decide)
  obtain ⟨g1, _, g3⟩ := h3 (.string "x") (.string "1.0") 4 [.int32 0] rfl (by decide)
  exact ⟨a', h, g1, g3⟩

/-- C18. Handling the `/pingack` message `demoMessage`, with arguments
("x", "1.0", 2, 7), in the initial state returns; the loop collection is then
exactly the two loops 0 and 1, each Off with `empty_` true, `engineId_` is 7, the
heartbeat countdown is 5, and exactly six messages were sent to the looper, in
this order: register_auto_update and get state for loop 0, the same two for loop
1, get selected_loop_num, register_update selected_loop_num.  Each carries the
reply URL (built from `currentReceivePort_`, still -1 in the initial state) and
the reply path "/ctrl". -/
theorem handlePingAckMessage_initial :
    (handlePingAckMessage demoMessage App.init).map
        (fun a => (a.loops_, a.engineId_, a.heartbeat_, a.loopCount_, a.oscOut)) =
      some ([{ index_ := 0, state_ := Off, empty_ := true },
             { index_ := 1, state_ := Off, empty_ := true }], 7, 5, 2,
        [{ address := "/sl/0/register_auto_update",
           args := [.string "state", .int32 100, .string "osc.udp://localhost:-1/",
             .string "/ctrl"] },
         { address := "/sl/0/get",
           args := [.string "state", .string "osc.udp://localhost:-1/", .string "/ctrl"] },
         { address := "/sl/1/register_auto_update",
           args := [.string "state", .int32 100, .string "osc.udp://localhost:-1/",
             .string "/ctrl"] },
         { address := "/sl/1/get",
           args := [.string "state", .string "osc.udp://localhost:-1/", .string "/ctrl"] },
         { address := "/get",
           args := [.string "selected_loop_num", .string "osc.udp://localhost:-1/",
             .string "/ctrl"] },
         { address := "/register_update",
           args := [.string "selected_loop_num", .string "osc.udp://localhost:-1/",
             .string "/ctrl"] }]) := by
  decide

theorem calm_refl (a : App) : Calm a a := ⟨rfl, rfl, rfl, rfl, fun h => h⟩

theorem calm_trans {a b c : App} (h1 : Calm a b) (h2 : Calm b c) : Calm a c :=
  ⟨h2.1.trans h1.1, h2.2.1.trans h1.2.1, h2.2.2.1.trans h1.2.2.1, h2.2.2.2.1.trans h1.2.2.2.1,
    fun h => h2.2.2.2.2 (h1.2.2.2.2 h)⟩

theorem calm_of_leds {a b : App} (h1 : b.heartbeat_ = a.heartbeat_)
    (h2 : b.loopCount_ = a.loopCount_) (h3 : b.engineId_ = a.engineId_)
    (h4 : b.loops_.length = a.loops_.length) (h5 : b.leds_ = a.leds_) : Calm a b :=
  ⟨h1, h2, h3, h4, fun h l hl => h l (h5 ▸ hl)⟩

theorem getReference_mem {α : Type} {xs : List α} {i : Int} {x : α}
    (h : getReference xs i = some x) : 0 ≤ i ∧ xs[i.toNat]? = some x := by
  unfold getReference at h
  by_cases hi : i < 0
  · rw [if_pos hi] at h
    cases h
  · rw [if_neg hi] at h
    exact ⟨by omega, h⟩

theorem timersOk_set {a : App} (h : TimersOk a) (n : Nat) (l : LED) (hl : TimerOk l) :
    ∀ x ∈ a.leds_.set n l, TimerOk x := by
  intro x hx
  rcases List.mem_or_eq_of_mem_set hx with h1 | h1
  · exact h x h1
  · rw [h1]
    exact hl

theorem ledWrite_calm (flag : Bool) (cc : Nat) (i : Int) (a a' : App)
    (h : ledWrite flag cc i a = some a') : Calm a a' := by
  unfold ledWrite at h
  cases hg : getReference a.leds_ i with
  | none =>
    rw [hg] at h
    cases h
  | some led0 =>
    rw [hg] at h
    simp only [Option.some.injEq] at h
    subst h
    refine ⟨rfl, rfl, rfl, rfl, fun hok => ?_⟩
    have hmem : led0 ∈ a.leds_ := List.getElem?_mem (getReference_mem hg).2
    exact timersOk_set hok _ _ (hok led0 hmem)

theorem modifyLed_calm (f : LED → LED) (i : Int) (a a' : App)
    (hf : ∀ led, getReference a.leds_ i = some led → TimerOk led → TimerOk (f led))
    (h : modifyLed i f a = some a') : Calm a a' := by
  unfold modifyLed at h
  cases hg : getReference a.leds_ i with
  | none =>
    rw [hg] at h
    cases h
  | some led0 =>
    rw [hg] at h
    simp only [Option.some.injEq] at h
    subst h
    refine ⟨rfl, rfl, rfl, rfl, fun hok => ?_⟩
    have hmem : led0 ∈ a.leds_ := List.getElem?_mem (getReference_mem hg).2
    exact timersOk_set hok _ _ (hf led0 hg (hok led0 hmem))

theorem bind_calm {f g : App → Option App} {a a' : App}
    (hf : ∀ b b', f b = some b' → Calm b b') (hg : ∀ b b', g b = some b' → Calm b b')
    (h : (f a >>= g) = some a') : Calm a a' := by
  cases hfa : f a with
  | none =>
    rw [hfa] at h
    cases h
  | some a1 =>
    rw [hfa] at h
    exact calm_trans (hf a a1 hfa) (hg a1 a' h)

theorem patternOk_ite (c : Prop) [Decidable c] (x y : LedStates × Int)
    (hx : PatternOk x) (hy : PatternOk y) : PatternOk (if c then x else y) := by
  split_ifs <;> assumption

theorem newPattern_ok (mode : Modes) (s : Int) :
    0 ≤ (newPattern mode s).2 ∧ (newPattern mode s).2 ≤ period (newPattern mode s).1 := by
  have h : PatternOk (newPattern mode s) := by
    unfold newPattern
    repeat' (first | exact (by decide) | apply patternOk_ite)
  exact h

theorem setLoopLed_calm (loop : Loop) (mode : Modes) (s : Int) (a a' : App)
    (h : setLoopLed loop (newPattern mode s).1 (newPattern mode s).2 a = some a') : Calm a a' := by
  unfold setLoopLed at h
  exact modifyLed_calm
    (fun led => { led with state_ := (newPattern mode s).1, timer_ := (newPattern mode s).2 })
    _ a a' (fun _ _ _ => newPattern_ok mode s) h

theorem applyNewState_calm (loop : Loop) (s : Int) (a a' : App)
    (h : applyNewState loop s a = some a') : Calm a a' := by
  rw [applyNewState_table] at h
  cases hs : sideLed s with
  | none =>
    rw [hs] at h
    exact bind_calm (fun b b' hb => setLoopLed_calm loop a.mode_ s b b' hb)
      (fun b b' hb => ledWrite_calm _ _ _ b b' hb) h
  | some i =>
    rw [hs] at h
    exact bind_calm
      (fun b b' hb => bind_calm (fun c c' hc => setLoopLed_calm loop a.mode_ s c c' hc)
        (fun c c' hc => ledWrite_calm _ _ _ c c' hc) hb)
      (fun b b' hb => ledWrite_calm _ _ _ b b' hb) h

theorem clearOldState_calm (old : Int) (a a' : App)
    (h : clearOldState old a = some a') : Calm a a' := by
  rw [clearOldState_table] at h
  cases hs : sideLed old with
  | none =>
    rw [hs] at h
    cases h
    exact calm_refl a
  | some i =>
    rw [hs] at h
    exact ledWrite_calm _ _ _ a a' h

theorem updateLoopLedState_calm (k : Nat) (s : Int) (a a' : App)
    (h : updateLoopLedState k s a = some a') : Calm a a' := by
  unfold updateLoopLedState at h
  cases hk : a.loops_[k]? with
  | none =>
    rw [hk] at h
    cases h
  | some loop =>
    rw [hk] at h
    simp only at h
    cases h2 : (applyNewState loop s a >>= fun a1 =>
        if s ≠ loop.state_ then clearOldState loop.state_ a1 else some a1) with
    | none =>
      rw [h2] at h
      cases h
    | some a2 =>
      rw [h2] at h
      simp only [Option.some_bind, Option.bind_eq_bind, Option.some.injEq] at h
      subst h
      have hc2 : Calm a a2 := by
        refine bind_calm (fun b b' hb => applyNewState_calm loop s b b' hb) ?_ h2
        intro b b' hb
        by_cases hne : s ≠ loop.state_
        · rw [if_pos hne] at hb
          exact clearOldState_calm _ b b' hb
        · rw [if_neg hne] at hb
          cases hb
          exact calm_refl b
      refine calm_trans hc2 ⟨rfl, rfl, rfl, ?_, fun hok => hok⟩
      simp

theorem updateLoopsFrom_calm (ks : List Nat) :
    ∀ a a' : App, updateLoopsFrom ks a = some a' → Calm a a' := by
  induction ks with
  | nil =>
    intro a a' h
    cases h
    exact calm_refl a
  | cons k ks ih =>
    intro a a' h
    unfold updateLoopsFrom at h
    cases hk : a.loops_[k]? with
    | none =>
      rw [hk] at h
      cases h
    | some loop =>
      rw [hk] at h
      exact bind_calm (fun b b' hb => updateLoopLedState_calm k loop.state_ b b' hb) ih h

theorem updateLoops_calm (a a' : App) (h : updateLoops a = some a') : Calm a a' :=
  updateLoopsFrom_calm _ a a' h

theorem forEach_calm (body : Int → App → Option App)
    (hbody : ∀ i b b', body i b = some b' → Calm b b') (is : List Int) :
    ∀ a a' : App, forEach body is a = some a' → Calm a a' := by
  induction is with
  | nil =>
    intro a a' h
    cases h
    exact calm_refl a
  | cons i is ih =>
    intro a a' h
    unfold forEach at h
    exact bind_calm (hbody i) ih h

theorem blinkLed_calm (j : Int) (a a' : App) (h : blinkLed j a = some a') : Calm a a' := by
  unfold blinkLed at h
  cases hg : getReference a.leds_ j with
  | none =>
    rw [hg] at h
    cases h
  | some led =>
    rw [hg] at h
    simp only at h
    obtain ⟨hj0, hget⟩ := getReference_mem hg
    by_cases hb : led.state_ = .Blink ∨ led.state_ = .FastBlink
    · rw [if_pos hb] at h
      by_cases ht : led.timer_ ≤ 0
      · rw [if_pos ht] at h
        cases hw : (if led.on_ = true then ledOff led.index_ a else ledOn led.index_ a) with
        | none =>
          rw [hw] at h
          cases h
        | some a1 =>
          rw [hw] at h
          simp only [Option.some_bind, Option.bind_eq_bind] at h
          have hw' : ∃ flag cc, ledWrite flag cc led.index_ a = some a1 := by
            by_cases hon : led.on_ = true
            · rw [if_pos hon] at hw
              exact ⟨_, _, hw⟩
            · rw [if_neg hon] at hw
              exact ⟨_, _, hw⟩
          obtain ⟨flag, cc, hw2⟩ := hw'
          have hc1 : Calm a a1 := ledWrite_calm _ _ _ a a1 hw2
          refine calm_trans hc1 (modifyLed_calm _ j a1 a' ?_ h)
          intro led1 hg1 _
          have hstate : led1.state_ = led.state_ := by
            obtain ⟨_, hget1⟩ := getReference_mem hg1
            cases hgi : getReference a.leds_ led.index_ with
            | none =>
              unfold ledWrite at hw2
              rw [hgi] at hw2
              cases hw2
            | some led0 =>
              obtain ⟨hi0, hget0⟩ := getReference_mem hgi
              have hlt : led.index_.toNat < a.leds_.length := by
                by_contra hc
                rw [List.getElem?_eq_none (by omega)] at hget0
                cases hget0
              rw [ledWrite_valid flag cc led.index_ a hi0 hlt] at hw2
              cases hw2
              rw [ledWritten_getElem?, hget] at hget1
              simp only [Option.map_some', Option.some.injEq] at hget1
              rw [← hget1]
              split_ifs <;> rfl
          unfold TimerOk
          simp only [hstate]
          rcases hb with hb | hb <;> rw [hb] <;> decide
      · rw [if_neg ht] at h
        refine modifyLed_calm _ j a a' ?_ h
        intro led1 hg1 hok
        rw [hg] at hg1
        cases hg1
        unfold TimerOk at hok ⊢
        simp only
        omega
    · rw [if_neg hb] at h
      cases h
      exact calm_refl a

theorem sendRecordOrOverdubSelected_calm (down : Bool) (b b' : App)
    (h : sendRecordOrOverdubSelected down b = some b') : Calm b b' := by
  unfold sendRecordOrOverdubSelected at h
  cases hg : getReference b.loops_ b.selectedLoop_ with
  | none =>
    rw [hg] at h
    cases h
  | some loop =>
    rw [hg] at h
    simp only at h
    split_ifs at h <;> cases h <;> exact calm_of_leds rfl rfl rfl rfl rfl

theorem dispatchPedal_calm (p : Int) (down : Bool) (a a1 : App)
    (h : dispatchPedal p down a = some a1) : Calm a a1 := by
  by_cases htrack : p = TRACK1 ∨ p = TRACK2 ∨ p = TRACK3 ∨ p = TRACK4
  · unfold dispatchPedal at h
    rw [if_pos htrack] at h
    simp only at h
    have hsel : Calm a (sendSelectTrack p a) := calm_of_leds rfl rfl rfl rfl rfl
    by_cases hm : (sendSelectTrack p a).mode_ = .Rec
    · rw [if_pos hm] at h
      exact calm_trans hsel (sendRecordOrOverdubSelected_calm down _ a1 h)
    · rw [if_neg hm] at h
      cases h
      exact calm_of_leds rfl rfl rfl rfl rfl
  · by_cases hrec : p = RECORD
    · subst hrec
      have hd : dispatchPedal RECORD down a =
          (if (if !down then { a with mode_ := if a.mode_ = .Rec then .Play else .Rec } else a).mode_
              = .Rec then
            ledOn RECORD (if !down then { a with mode_ := if a.mode_ = .Rec then .Play else .Rec }
              else a)
          else
            ledOff RECORD (if !down then { a with mode_ := if a.mode_ = .Rec then .Play else .Rec }
              else a)) := by
        unfold dispatchPedal
        rfl
      rw [hd] at h
      have hb : Calm a (if !down then { a with mode_ := if a.mode_ = .Rec then .Play else .Rec }
          else a) := by
        cases down
        · exact calm_of_leds rfl rfl rfl rfl rfl
        · exact calm_refl a
      have hled : ∀ b : App,
          (if b.mode_ = .Rec then ledOn RECORD b else ledOff RECORD b) = some a1 → Calm b a1 := by
        intro b hb'
        by_cases hm : b.mode_ = .Rec
        · rw [if_pos hm] at hb'
          exact ledWrite_calm _ _ _ _ _ hb'
        · rw [if_neg hm] at hb'
          exact ledWrite_calm _ _ _ _ _ hb'
      exact calm_trans hb (hled _ h)
    · obtain ⟨msgs, hmsgs⟩ := dispatchPedal_other p down a htrack hrec
      rw [hmsgs] at h
      cases h
      exact calm_of_leds rfl rfl rfl rfl rfl

theorem handleIncomingMidiMessage_calm (msg : MidiMessage) (a a' : App)
    (h : handleIncomingMidiMessage msg a = some a') : Calm a a' := by
  unfold handleIncomingMidiMessage at h
  by_cases hf : (!a.filterCommandsEmpty) = true
  · rw [if_pos hf] at h
    cases h
    exact calm_refl a
  · rw [if_neg hf] at h
    cases msg with
    | controller number value =>
      simp only at h
      exact bind_calm (fun b b' hb => dispatchPedal_calm _ _ b b' hb) updateLoops_calm h
    | other =>
      cases h
      exact calm_refl a

theorem inv_of_calm {a b : App} (h : Calm a b) (hi : Inv a) : Inv b := by
  obtain ⟨h1, h2, _, h4, h5⟩ := h
  obtain ⟨⟨i1, i2⟩, i3, i4⟩ := hi
  refine ⟨⟨by rw [h1]; exact i1, by rw [h1]; exact i2⟩, h5 i3, ?_⟩
  rw [h2, h4]
  exact i4

theorem inv_reset {a : App} (hi : Inv a) : Inv { a with heartbeat_ := 5 } :=
  ⟨⟨show (0 : Int) ≤ 5 by decide, show (5 : Int) ≤ 5 by decide⟩, hi.2.1, hi.2.2⟩

theorem tryToConnectOsc_calm (env : TickEnv) (b : App) : Calm b (tryToConnectOsc env b).1 := by
  obtain ⟨p, q, o, e⟩ := tryToConnectOsc_frame env b
  rw [e]
  exact calm_of_leds rfl rfl rfl rfl rfl

theorem heartbeatTick_inv (env : TickEnv) (a : App) (hi : Inv a) : Inv (heartbeatTick env a) := by
  obtain ⟨⟨i1, i2⟩, i3, i4⟩ := hi
  obtain ⟨_, _, s3, _⟩ := heartbeatTick_session env a i1
  obtain ⟨p, q, o, hh, e⟩ := heartbeatTick_frame env a
  refine ⟨?_, ?_, ?_⟩
  · rw [s3]
    split_ifs <;> omega
  · rw [e]
    exact i3
  · rw [e]
    exact i4

theorem timerCallback_inv (env : TickEnv) (a a' : App) (hi : Inv a)
    (h : timerCallback env a = some a') : Inv a' := by
  unfold timerCallback at h
  cases h1 : (if env.midiOutOpened = true then forEach ledOff (counterRange 0 NUM_LEDS) a
      else some a) with
  | none =>
    rw [h1] at h
    cases h
  | some a1 =>
    rw [h1] at h
    simp only [Option.some_bind, Option.bind_eq_bind] at h
    have hc1 : Calm a a1 := by
      by_cases ho : env.midiOutOpened = true
      · rw [if_pos ho] at h1
        exact forEach_calm ledOff (fun i b b' hb => ledWrite_calm _ _ i b b' hb) _ a a1 h1
      · rw [if_neg ho] at h1
        cases h1
        exact calm_refl a
    have hi1 : Inv a1 := inv_of_calm hc1 hi
    by_cases hp : a1.currentReceivePort_ < 0 ∨ a1.currentSendPort_ < 0
    · rw [if_pos hp] at h
      have hc2 := tryToConnectOsc_calm env a1
      have hi2 : Inv (tryToConnectOsc env a1).1 := inv_of_calm hc2 hi1
      cases ht : tryToConnectOsc env a1 with
      | mk a2 flag =>
        rw [ht] at h hi2
        simp only at hi2
        cases flag
        · simp only [Option.some.injEq] at h
          subst h
          exact hi2
        · simp only [Option.some.injEq] at h
          subst h
          exact inv_reset hi2
    · rw [if_neg hp] at h
      exact inv_of_calm (forEach_calm blinkLed blinkLed_calm _ _ a' h) (heartbeatTick_inv env a1 hi1)

theorem ctrl_state_calm (idx : Int) (rest : List OSCArgument) (a a1 : App)
    (h : (match rest with
      | [] => none
      | .string s :: rest2 =>
        if s = "state" then
          match rest2 with
          | [] => none
          | .float32 v :: _ =>
            (floatToInt v) >>= fun loopState =>
            updateLoopLedState idx.toNat loopState a
          | _ :: _ => some a
        else some a
      | _ :: _ => some a) = some a1) : Calm a a1 := by
  split at h
  · cases h
  · split_ifs at h
    · split at h
      · cases h
      · cases hv : floatToInt ‹ℚ› with
        | none =>
          rw [hv] at h
          cases h
        | some n =>
          rw [hv] at h
          exact updateLoopLedState_calm _ _ a a1 h
      · cases h
        exact calm_refl a
    · cases h
      exact calm_refl a
  · cases h
    exact calm_refl a

theorem ctrl_select_calm (rest : List OSCArgument) (a a' : App)
    (h : (match rest with
      | [] => none
      | .string s :: rest2 =>
        if s = "selected_loop_num" then
          match rest2 with
          | [] => none
          | .float32 v :: _ =>
            (floatToInt v).map fun n => selectLoop { a with selectedLoop_ := n }
          | _ :: _ => some a
        else some a
      | _ :: _ => some a) = some a') : Calm a a' := by
  split at h
  · cases h
  · split_ifs at h
    · split at h
      · cases h
      · cases hv : floatToInt ‹ℚ› with
        | none =>
          rw [hv] at h
          cases h
        | some n =>
          rw [hv] at h
          cases h
          exact calm_of_leds rfl rfl rfl rfl rfl
      · cases h
        exact calm_refl a
    · cases h
      exact calm_refl a
  · cases h
    exact calm_refl a

theorem handleCtrlMessage_inv (message : OSCMessage) (a a' : App) (hi : Inv a)
    (h : handleCtrlMessage message a = some a') : Inv a' := by
  unfold handleCtrlMessage at h
  split at h
  · cases h
    exact hi
  · rename_i loopIndex rest _
    by_cases h2 : loopIndex = -2
    · rw [if_pos h2] at h
      exact inv_of_calm (ctrl_select_calm rest a a' h) hi
    · rw [if_neg h2] at h
      by_cases hneg : loopIndex < 0
      · rw [if_pos hneg] at h
        cases h
        exact hi
      · rw [if_neg hneg] at h
        rw [Option.bind_eq_bind, Option.bind_eq_some] at h
        obtain ⟨a1, h1, h3⟩ := h
        cases h3
        exact inv_reset (inv_of_calm (ctrl_state_calm loopIndex rest a a1 h1) hi)
  · cases h
    exact hi

theorem forEach_addLoops_some (body : Int → App → Option App)
    (hbody : ∀ i b b1, body i b = some b1 →
      b1.loops_ = b.loops_ ++ [freshLoop i] ∧ OscOnly b b1)
    (is : List Int) :
    ∀ b b' : App, forEach body is b = some b' →
      b'.loops_ = b.loops_ ++ is.map freshLoop ∧ OscOnly b b' := by
  induction is with
  | nil =>
    intro b b' h
    cases h
    exact ⟨by simp, oscOnly_refl b⟩
  | cons i is ih =>
    intro b b' h
    cases hb : body i b with
    | none =>
      simp only [forEach, hb, Option.none_bind, Option.bind_eq_bind] at h
      cases h
    | some b1 =>
      simp only [forEach, hb, Option.some_bind, Option.bind_eq_bind] at h
      obtain ⟨h1, h2⟩ := hbody i b b1 hb
      obtain ⟨g1, g2⟩ := ih b1 b' h
      refine ⟨?_, oscOnly_trans h2 g2⟩
      rw [g1, h1]
      simp

theorem addLoop_some (i : Int) (b b1 : App) (h : addLoop i b = some b1) :
    b1 = { b with loops_ := b.loops_ ++ [freshLoop i] } := by
  unfold addLoop at h
  cases hg : getReference b.leds_ i with
  | none =>
    rw [hg] at h
    cases h
  | some l =>
    rw [hg] at h
    simp only [Option.some.injEq] at h
    exact h.symm

theorem rebuildBody_some (i : Int) (b b1 : App)
    (h : ((addLoop i b).map fun b1 => getCurrentState i (registerAutoUpdates i false b1)) =
      some b1) :
    b1.loops_ = b.loops_ ++ [freshLoop i] ∧ OscOnly b b1 := by
  cases ha : addLoop i b with
  | none =>
    rw [ha] at h
    cases h
  | some b0 =>
    rw [ha] at h
    simp only [Option.map_some', Option.some.injEq] at h
    subst h
    have e := addLoop_some i b b0 ha
    subst e
    refine ⟨?_, ?_⟩
    · unfold getCurrentState
      rw [oscSend_loops, registerAutoUpdates_loops]
    · have e1 : OscOnly b { b with loops_ := b.loops_ ++ [freshLoop i] } := by
        cases b; rfl
      exact oscOnly_trans (oscOnly_trans e1 (registerAutoUpdates_oscOnly _ _ _))
        (oscSend_oscOnly _ _ _)

theorem appendBody_some (i : Int) (b b1 : App)
    (h : addLoop i (registerAutoUpdates i false b) = some b1) :
    b1.loops_ = b.loops_ ++ [freshLoop i] ∧ OscOnly b b1 := by
  have e := addLoop_some i _ b1 h
  subst e
  refine ⟨?_, ?_⟩
  · simp [registerAutoUpdates_loops]
  · have e1 : OscOnly (registerAutoUpdates i false b)
        { registerAutoUpdates i false b with
          loops_ := (registerAutoUpdates i false b).loops_ ++ [freshLoop i] } := by
      cases (registerAutoUpdates i false b); rfl
    exact oscOnly_trans (registerAutoUpdates_oscOnly _ _ _) e1

theorem pingAckArgs_frame (args : List OSCArgument) :
    ∀ (i : Nat) (a : App), ∃ h v c e,
      pingAckArgs i args a = { a with hostUrl_ := h, version_ := v, loopCount_ := c, engineId_ := e } := by
  induction args with
  | nil => intro i a; exact ⟨_, _, _, _, rfl⟩
  | cons arg rest ih =>
    intro i a
    unfold pingAckArgs
    simp only
    split
    · obtain ⟨h', v', c', e', e2⟩ := ih _ { a with hostUrl_ := ‹String› }
      rw [e2]
      exact ⟨_, _, _, _, rfl⟩
    · obtain ⟨h', v', c', e', e2⟩ := ih _ { a with version_ := ‹String› }
      rw [e2]
      exact ⟨_, _, _, _, rfl⟩
    · obtain ⟨h', v', c', e', e2⟩ := ih _ { a with loopCount_ := ‹Int› }
      rw [e2]
      exact ⟨_, _, _, _, rfl⟩
    · obtain ⟨h', v', c', e', e2⟩ := ih _ { a with engineId_ := ‹Int› }
      rw [e2]
      exact ⟨_, _, _, _, rfl⟩
    · exact ih _ a

theorem heartbeatArgs_frame (args : List OSCArgument) :
    ∀ (i : Nat) (a : App) (n u : Int), ∃ h v,
      (heartbeatArgs i args (a, n, u)).1 = { a with hostUrl_ := h, version_ := v } := by
  induction args with
  | nil => intro i a n u; exact ⟨_, _, rfl⟩
  | cons arg rest ih =>
    intro i a n u
    unfold heartbeatArgs
    simp only
    split
    · obtain ⟨h', v', e2⟩ := ih _ { a with hostUrl_ := ‹String› } n u
      rw [e2]
      exact ⟨_, _, rfl⟩
    · obtain ⟨h', v', e2⟩ := ih _ { a with version_ := ‹String› } n u
      rw [e2]
      exact ⟨_, _, rfl⟩
    · exact ih _ a _ u
    · exact ih _ a n _
    · exact ih _ a n u

theorem counterRange_length (lo hi : Int) : ((counterRange lo hi).length : Int) = max (hi - lo) 0 := by
  unfold counterRange
  simp only [List.length_map, List.length_range]
  omega

theorem inv_of_oscOnly {a b : App} (h : OscOnly a b) :
    b.heartbeat_ = a.heartbeat_ ∧ b.loopCount_ = a.loopCount_ ∧ b.engineId_ = a.engineId_ ∧
      b.leds_ = a.leds_ :=
  ⟨(oscOnly_session h).2.2, (oscOnly_session h).1, (oscOnly_session h).2.1, oscOnly_leds h⟩

theorem handlePingAckMessage_rebuilt (message : OSCMessage) (a a' : App)
    (h : handlePingAckMessage message a = some a') (hne : message.args ≠ [])
    (hc : 0 < a'.loopCount_) : a'.loopCount_ = a'.loops_.length := by
  unfold handlePingAckMessage at h
  have hemp : ¬ message.args.isEmpty = true := by
    cases hargs : message.args with
    | nil => exact absurd hargs hne
    | cons x xs => simp
  rw [if_neg hemp] at h
  simp only at h
  obtain ⟨a3, h3, h4⟩ := Option.bind_eq_some.mp h
  cases h4
  by_cases hc' : (pingAckArgs 0 message.args a).loopCount_ > 0
  · rw [if_pos hc'] at h3
    obtain ⟨a2, h2, h5⟩ := Option.bind_eq_some.mp h3
    cases h5
    obtain ⟨hl, hfr⟩ := forEach_addLoops_some _ rebuildBody_some _ _ a2 h2
    obtain ⟨_, f2, _, f4⟩ := inv_of_oscOnly hfr
    show (registerGlobalUpdates false (getSelectedLoop a2)).loopCount_ =
      ((registerGlobalUpdates false (getSelectedLoop a2)).loops_.length : Int)
    have e2 : (registerGlobalUpdates false (getSelectedLoop a2)).loops_ = a2.loops_ := by
      rw [registerGlobalUpdates_loops]
      unfold getSelectedLoop
      rw [oscSend_loops]
    have e3 : (registerGlobalUpdates false (getSelectedLoop a2)).loopCount_ =
        (pingAckArgs 0 message.args a).loopCount_ := by
      rw [← f2]
      rfl
    rw [e2, e3, hl]
    simp only [List.nil_append, List.length_map]
    rw [counterRange_length]
    omega
  · rw [if_neg hc'] at h3
    cases h3
    exact absurd hc hc'

theorem handlePingAckMessage_inv (message : OSCMessage) (a a' : App) (hi : Inv a)
    (h : handlePingAckMessage message a = some a') : Inv a' := by
  unfold handlePingAckMessage at h
  by_cases hemp : message.args.isEmpty = true
  · rw [if_pos hemp] at h
    cases h
    exact hi
  · rw [if_neg hemp] at h
    simp only at h
    obtain ⟨hu, v, c, e, ea⟩ := pingAckArgs_frame message.args 0 a
    obtain ⟨a3, h3, h4⟩ := Option.bind_eq_some.mp h
    cases h4
    obtain ⟨⟨i1, i2⟩, i3, i4⟩ := hi
    by_cases hc : (pingAckArgs 0 message.args a).loopCount_ > 0
    · rw [if_pos hc] at h3
      obtain ⟨a2, h2, h5⟩ := Option.bind_eq_some.mp h3
      cases h5
      obtain ⟨hl, hfr⟩ := forEach_addLoops_some _ rebuildBody_some _ _ a2 h2
      obtain ⟨_, f2, _, f4⟩ := inv_of_oscOnly hfr
      refine ⟨⟨show (0 : Int) ≤ 5 by decide, show (5 : Int) ≤ 5 by decide⟩, ?_, ?_⟩
      · intro l hl'
        have e1 : (registerGlobalUpdates false (getSelectedLoop a2)).leds_ = a.leds_ := by
          rw [oscOnly_leds (registerGlobalUpdates_oscOnly _ _)]
          unfold getSelectedLoop
          rw [oscOnly_leds (oscSend_oscOnly _ _ _), f4]
          show (pingAckArgs 0 message.args a).leds_ = a.leds_
          rw [ea]
        exact i3 l (e1 ▸ hl')
      · show (registerGlobalUpdates false (getSelectedLoop a2)).loopCount_ ≤
          ((registerGlobalUpdates false (getSelectedLoop a2)).loops_.length : Int)
        have e2 : (registerGlobalUpdates false (getSelectedLoop a2)).loops_ = a2.loops_ := by
          rw [registerGlobalUpdates_loops]
          unfold getSelectedLoop
          rw [oscSend_loops]
        have e3 : (registerGlobalUpdates false (getSelectedLoop a2)).loopCount_ =
            (pingAckArgs 0 message.args a).loopCount_ := by
          rw [← f2]
          rfl
        rw [e2, e3, hl]
        simp only [List.nil_append, List.length_map]
        rw [counterRange_length]
        omega
    · rw [if_neg hc] at h3
      cases h3
      refine ⟨⟨show (0 : Int) ≤ 5 by decide, show (5 : Int) ≤ 5 by decide⟩, ?_, ?_⟩
      · intro l hl'
        have e1 : (pingAckArgs 0 message.args a).leds_ = a.leds_ := by rw [ea]
        exact i3 l (e1 ▸ hl')
      · show (pingAckArgs 0 message.args a).loopCount_ ≤
          ((pingAckArgs 0 message.args a).loops_.length : Int)
        have e1 : (pingAckArgs 0 message.args a).loops_ = a.loops_ := by rw [ea]
        rw [e1]
        omega

theorem handleHeartbeatMessage_inv (message : OSCMessage) (a a' : App)
    (h : handleHeartbeatMessage message a = some a') :
    a'.engineId_ = a.engineId_ ∧ (Inv a → Inv a') := by
  unfold handleHeartbeatMessage at h
  by_cases hemp : message.args.isEmpty = true
  · rw [if_pos hemp] at h
    cases h
    exact ⟨rfl, fun hi => hi⟩
  · rw [if_neg hemp] at h
    obtain ⟨hu, v, ea⟩ := heartbeatArgs_frame message.args 0 a 0 a.engineId_
    cases hr : heartbeatArgs 0 message.args (a, 0, a.engineId_) with
    | mk a1 r =>
      obtain ⟨numloops, uid⟩ := r
      rw [hr] at h ea
      simp only at h ea
      subst ea
      obtain ⟨a4, h4, h5⟩ := Option.bind_eq_some.mp h
      cases h5
      have hkey : a4.engineId_ = a.engineId_ ∧ (TimersOk a → TimersOk a4) ∧
          (a.loopCount_ ≤ a.loops_.length → a4.loopCount_ ≤ a4.loops_.length) := by
        split_ifs at h4 with c1 c2 c3
        · obtain ⟨a2, h2, h6⟩ := Option.bind_eq_some.mp h4
          obtain ⟨a3, h3, h7⟩ := Option.bind_eq_some.mp h6
          cases h7
          obtain ⟨hl, hfr⟩ := forEach_addLoops_some _ rebuildBody_some _ _ a2 h2
          obtain ⟨_, f2, f3, f4⟩ := inv_of_oscOnly hfr
          obtain ⟨_, g2, g3, g4, g5⟩ := updateLoops_calm _ a3 h3
          refine ⟨?_, ?_, fun _ => ?_⟩
          · show a3.engineId_ = a.engineId_
            rw [g3]
            show a2.engineId_ = a.engineId_
            rw [f3]
          · intro hok
            apply g5
            intro l hl'
            have e1 : (getSelectedLoop a2).leds_ = a.leds_ := by
              unfold getSelectedLoop
              rw [oscOnly_leds (oscSend_oscOnly _ _ _), f4]
            exact hok l (e1 ▸ hl')
          · show a3.loopCount_ ≤ (a3.loops_.length : Int)
            rw [g2, g4]
            have e2 : (getSelectedLoop a2).loops_ = a2.loops_ := by
              unfold getSelectedLoop
              rw [oscSend_loops]
            have e3 : (getSelectedLoop a2).loopCount_ = numloops := by
              show a2.loopCount_ = numloops
              rw [f2]
            rw [e2, e3, hl]
            simp only [List.nil_append, List.length_map]
            rw [counterRange_length]
            omega
        · cases h4
          exact ⟨rfl, fun hok => hok, fun hc => hc⟩
        · obtain ⟨a2, h2, h6⟩ := Option.bind_eq_some.mp h4
          obtain ⟨a3, h3, h7⟩ := Option.bind_eq_some.mp h6
          cases h7
          obtain ⟨hl, hfr⟩ := forEach_addLoops_some _ appendBody_some _ _ a2 h2
          obtain ⟨_, f2, f3, f4⟩ := inv_of_oscOnly hfr
          obtain ⟨_, g2, g3, g4, g5⟩ := updateLoops_calm _ a3 h3
          refine ⟨?_, ?_, fun hc => ?_⟩
          · show a3.engineId_ = a.engineId_
            rw [g3]
            show a2.engineId_ = a.engineId_
            rw [f3]
          · intro hok
            apply g5
            intro l hl'
            have e1 : (getSelectedLoop a2).leds_ = a.leds_ := by
              unfold getSelectedLoop
              rw [oscOnly_leds (oscSend_oscOnly _ _ _), f4]
            exact hok l (e1 ▸ hl')
          · show numloops ≤ (a3.loops_.length : Int)
            rw [g4]
            have e2 : (getSelectedLoop a2).loops_ = a2.loops_ := by
              unfold getSelectedLoop
              rw [oscSend_loops]
            rw [e2, hl]
            simp only [List.length_append, List.length_map, Nat.cast_add]
            rw [counterRange_length]
            have hc' : a.loopCount_ ≤ (a.loops_.length : Int) := hc
            show numloops ≤ (a.loops_.length : Int) + max (numloops - a.loopCount_) 0
            omega
        · cases h4
          exact ⟨rfl, fun hok => hok, fun hc => hc⟩
      refine ⟨hkey.1, fun hi => ?_⟩
      exact ⟨⟨show (0 : Int) ≤ 5 by decide, show (5 : Int) ≤ 5 by decide⟩, hkey.2.1 hi.2.1,
        hkey.2.2 hi.2.2⟩

theorem step_inv (e : Event) (a a' : App) (hi : Inv a) (h : step a e = some a') : Inv a' := by
  cases e with
  | pingack message => exact handlePingAckMessage_inv message a a' hi h
  | heartbeat message => exact (handleHeartbeatMessage_inv message a a' h).2 hi
  | ctrl message => exact handleCtrlMessage_inv message a a' hi h
  | pedal msg => exact inv_of_calm (handleIncomingMidiMessage_calm msg a a' h) hi
  | tick env => exact timerCallback_inv env a a' hi h

theorem run_inv (es : List Event) : ∀ a a' : App, Inv a → run a es = some a' → Inv a' := by
  induction es with
  | nil =>
    intro a a' hi h
    cases h
    exact hi
  | cons e es ih =>
    intro a a' hi h
    unfold run at h
    obtain ⟨a1, h1, h2⟩ := Option.bind_eq_some.mp h
    exact ih a1 a' (step_inv e a a1 hi h1) h2

theorem init_inv : Inv App.init :=
  ⟨⟨by decide, by decide⟩, by decide, by decide⟩

theorem reachable_inv (a : App) (h : Reachable a) : Inv a := by
  obtain ⟨es, hes⟩ := h
  exact run_inv es App.init a init_inv hes

theorem timerCallback_timersOk (env : TickEnv) (a a' : App) (hok : TimersOk a)
    (h : timerCallback env a = some a') : TimersOk a' := by
  unfold timerCallback at h
  obtain ⟨a1, h1, h2⟩ := Option.bind_eq_some.mp h
  have hc1 : Calm a a1 := by
    by_cases ho : env.midiOutOpened = true
    · rw [if_pos ho] at h1
      exact forEach_calm ledOff (fun i b b' hb => ledWrite_calm _ _ i b b' hb) _ a a1 h1
    · rw [if_neg ho] at h1
      cases h1
      exact calm_refl a
  have hok1 : TimersOk a1 := hc1.2.2.2.2 hok
  by_cases hp : a1.currentReceivePort_ < 0 ∨ a1.currentSendPort_ < 0
  · rw [if_pos hp] at h2
    have hok2 : TimersOk (tryToConnectOsc env a1).1 := (tryToConnectOsc_calm env a1).2.2.2.2 hok1
    cases ht : tryToConnectOsc env a1 with
    | mk a2 flag =>
      rw [ht] at h2 hok2
      cases flag
      · simp only [Option.some.injEq] at h2
        subst h2
        exact hok2
      · simp only [Option.some.injEq] at h2
        subst h2
        exact hok2
  · rw [if_neg hp] at h2
    refine (forEach_calm blinkLed blinkLed_calm _ _ a' h2).2.2.2.2 ?_
    intro l hl
    rw [(heartbeatTick_leds env a1).1] at hl
    exact hok1 l hl

/-- C21, as stated, fails.  After `zeroLoopsAnnounced` (a `/pingack` for two
loops, then one announcing zero loops) `loopCount_` is 0 while the collection
holds two loops; after `fewerLoopsReported` (a `/pingack` for three loops, then a
`/heartbeat` of the same engine reporting two) `loopCount_` is 2 while the
collection holds three loops. -/
theorem loop_count_counterexample :
    (run App.init zeroLoopsAnnounced).map (fun a => (a.loopCount_, a.loops_.length)) =
      some (0, 2) ∧
    (run App.init fewerLoopsReported).map (fun a => (a.loopCount_, a.loops_.length)) =
      some (2, 3) := by
  refine ⟨by decide, by decide⟩

/-- C21, amended.  In every state reachable from the initial state by any
sequence of `/pingack`, `/heartbeat`, `/ctrl`, pedal and tick events, `loopCount_`
is at most the size of the loop collection; and whenever a non-empty `/pingack`
handled in such a state returns with a positive `loopCount_`, the size of the
collection equals `loopCount_`. -/
theorem loop_count_le_size (a : App) (h : Reachable a) :
    a.loopCount_ ≤ a.loops_.length ∧
    ∀ (message : OSCMessage) (a' : App), message.args ≠ [] →
      handlePingAckMessage message a = some a' → 0 < a'.loopCount_ →
      a'.loopCount_ = a'.loops_.length :=
  ⟨(reachable_inv a h).2.2, fun message a' hne hm hc =>
    handlePingAckMessage_rebuilt message a a' hm hne hc⟩

/-- C21 at a concrete input: the state reached by `zeroLoopsAnnounced`. -/
theorem loop_count_le_size_witness :
    ∃ a, run App.init zeroLoopsAnnounced = some a ∧ a.loopCount_ ≤ a.loops_.length := by
  have hs : (run App.init zeroLoopsAnnounced).isSome = true := by decide
  obtain ⟨a, ha⟩ := Option.isSome_iff_exists.mp hs
  exact ⟨a, ha, (loop_count_le_size a ⟨zeroLoopsAnnounced, ha⟩).1⟩

/-- C27.  In every state reachable from the initial state the heartbeat countdown
satisfies 0 ≤ `heartbeat_` ≤ 5, so the test `heartbeat_ < -5` of the reconnect
branch of `timerCallback` is false; and the heartbeat part of a tick in such a
state leaves a countdown of 0 at 0 and decrements a positive one. -/
theorem heartbeat_bounds (a : App) (h : Reachable a) :
    0 ≤ a.heartbeat_ ∧ a.heartbeat_ ≤ 5 ∧ ¬ a.heartbeat_ < -5 ∧
    ∀ env : TickEnv,
      (heartbeatTick env a).heartbeat_ = (if a.heartbeat_ = 0 then 0 else a.heartbeat_ - 1) := by
  obtain ⟨⟨h1, h2⟩, _, _⟩ := reachable_inv a h
  exact ⟨h1, h2, by omega, fun env => (heartbeatTick_session env a h1).2.2.1⟩

/-- C27 at a concrete input: the state reached by eight ticks from startup. -/
theorem heartbeat_bounds_witness :
    ∃ a, run App.init (List.replicate 8 (.tick connectingTick)) = some a ∧
      0 ≤ a.heartbeat_ ∧ a.heartbeat_ ≤ 5 := by
  have hs : (run App.init (List.replicate 8 (.tick connectingTick))).isSome = true := by decide
  obtain ⟨a, ha⟩ := Option.isSome_iff_exists.mp hs
  obtain ⟨h1, h2, _⟩ := heartbeat_bounds a ⟨_, ha⟩
  exact ⟨a, ha, h1, h2⟩

/-- C29.  In every reachable state every LED satisfies
0 ≤ `timer_` ≤ `period state_`, with `period` 3 for Blink, 1 for FastBlink and 0
for Dark and Light.  The bound holds in the initial state and is preserved by
`updateLoopLedState`, `ledOn`, `ledOff` and `timerCallback` whenever they return,
from any state in which it holds. -/
theorem led_timer_bounds (a : App) (h : Reachable a) :
    (∀ l ∈ a.leds_, 0 ≤ l.timer_ ∧ l.timer_ ≤ period l.state_) ∧
    (period .Blink = 3 ∧ period .FastBlink = 1 ∧ period .Dark = 0 ∧ period .Light = 0) ∧
    TimersOk App.init ∧
    (∀ (k : Nat) (s : Int) (b b' : App), TimersOk b → updateLoopLedState k s b = some b' →
      TimersOk b') ∧
    (∀ (i : Int) (b b' : App), TimersOk b → ledOn i b = some b' → TimersOk b') ∧
    (∀ (i : Int) (b b' : App), TimersOk b → ledOff i b = some b' → TimersOk b') ∧
    (∀ (env : TickEnv) (b b' : App), TimersOk b → timerCallback env b = some b' →
      TimersOk b') :=
  ⟨(reachable_inv a h).2.1, ⟨rfl, rfl, rfl, rfl⟩, init_inv.2.1,
    fun k s b b' hok hb => (updateLoopLedState_calm k s b b' hb).2.2.2.2 hok,
    fun i b b' hok hb => (ledWrite_calm _ _ i b b' hb).2.2.2.2 hok,
    fun i b b' hok hb => (ledWrite_calm _ _ i b b' hb).2.2.2.2 hok,
    fun env b b' hok hb => timerCallback_timersOk env b b' hok hb⟩

/-- C29 at a concrete input: the state reached by `mutedLoop` followed by four
ticks, in which LED 0 is blinking. -/
theorem led_timer_bounds_witness :
    ∃ a, run App.init (mutedLoop ++ List.replicate 4 (.tick connectingTick)) = some a ∧
      ∀ l ∈ a.leds_, 0 ≤ l.timer_ ∧ l.timer_ ≤ period l.state_ := by
  have hs : (run App.init (mutedLoop ++ List.replicate 4 (.tick connectingTick))).isSome =
      true := by decide
  obtain ⟨a, ha⟩ := Option.isSome_iff_exists.mp hs
  exact ⟨a, ha, (led_timer_bounds a ⟨_, ha⟩).1⟩

/-- C22 (the code does not do this).  From the initial state (no loop, mode
Play) a press of the Track3 pedal (controller 104, value 3) leaves
`selectedLoop_` at 2 although the collection is empty; after a `/pingack` for two
loops, the `/ctrl` message (-2, "selected_loop_num", 7.0) leaves it at 7.  With
the mode switched to Rec first (Record released), the same Track3 press reads
`loops_[2]` of the empty collection: the run is undefined. -/
theorem selected_loop_unchecked :
    pedalIndex 3 = TRACK3 ∧
    (run App.init [.pedal (.controller 104 3)]).map
        (fun a => (a.selectedLoop_, a.loops_.length, a.mode_)) = some (2, 0, .Play) ∧
    (run App.init
        [.pingack ⟨"/pingack", [.string "x", .string "1.0", .int32 2, .int32 7]⟩,
         .ctrl ⟨"/ctrl", [.int32 (-2), .string "selected_loop_num", .float32 7]⟩]).map
        (fun a => (a.selectedLoop_, a.loops_.length)) = some (7, 2) ∧
    (run App.init [.pedal (.controller 105 5), .pedal (.controller 104 3)]).isSome = false := by
  refine ⟨by decide, by decide, by decide, by decide⟩

/-- C30 (the code does not do this).  In the initial state, before any
`/pingack`, the `/ctrl` message (0, "state", 4.0) makes the handler read
`loops_[0]` of the empty collection: the call is undefined.  After a `/pingack`
for two loops the same happens with loop index 2, while index 1 is handled. -/
theorem ctrl_index_unchecked :
    App.init.loops_ = [] ∧
    (handleCtrlMessage ⟨"/ctrl", [.int32 0, .string "state", .float32 4]⟩ App.init).isSome =
      false ∧
    (run App.init
        [.pingack ⟨"/pingack", [.string "x", .string "1.0", .int32 2, .int32 7]⟩,
         .ctrl ⟨"/ctrl", [.int32 2, .string "state", .float32 4]⟩]).isSome = false ∧
    (run App.init
        [.pingack ⟨"/pingack", [.string "x", .string "1.0", .int32 2, .int32 7]⟩,
         .ctrl ⟨"/ctrl", [.int32 1, .string "state", .float32 4]⟩]).map
        (fun a => a.loops_.map fun l => l.state_) = some [Off, Playing] := by
  refine ⟨rfl, by decide, by decide, by decide⟩

/-- C23, as stated, fails.  After `playingThenQuiet` loop 0 is Playing, the
countdown is 3 and `hostUrl_` is "x".  A `/pingack` with the single argument
"newhost" (argument count 1) then changes `hostUrl_`, resets the countdown to 5
and rebuilds the collection, so that loop 0 is Off again.  A `/ctrl` message
(0, "bogus", 1.0), whose second argument is neither "state" nor
"selected_loop_num", resets the countdown to 5. -/
theorem malformed_message_counterexample :
    (run App.init playingThenQuiet).map
        (fun a => (a.hostUrl_, a.heartbeat_, a.loops_.map fun l => l.state_)) =
      some ("x", 3, [Playing, Off]) ∧
    (run App.init (playingThenQuiet ++ [.pingack ⟨"/pingack", [.string "newhost"]⟩])).map
        (fun a => (a.hostUrl_, a.heartbeat_, a.loops_.map fun l => l.state_)) =
      some ("newhost", 5, [Off, Off]) ∧
    (run App.init (playingThenQuiet ++
        [.ctrl ⟨"/ctrl", [.int32 0, .string "bogus", .float32 1]⟩])).map
        (fun a => (a.hostUrl_, a.heartbeat_, a.loops_.map fun l => l.state_)) =
      some ("x", 5, [Playing, Off]) := by
  refine ⟨by decide, by decide, by decide⟩

theorem isEmpty_of_ne_nil {α : Type} {xs : List α} (h : xs ≠ []) : ¬ xs.isEmpty = true := by
  cases xs with
  | nil => exact absurd rfl h
  | cons x xs => simp

theorem handlePingAckMessage_reset (message : OSCMessage) (a a' : App)
    (hne : message.args ≠ []) (h : handlePingAckMessage message a = some a') :
    a'.heartbeat_ = 5 ∧ a'.leds_ = a.leds_ := by
  unfold handlePingAckMessage at h
  rw [if_neg (isEmpty_of_ne_nil hne)] at h
  simp only at h
  obtain ⟨a3, h3, h4⟩ := Option.bind_eq_some.mp h
  cases h4
  refine ⟨rfl, ?_⟩
  show a3.leds_ = a.leds_
  by_cases hc : (pingAckArgs 0 message.args a).loopCount_ > 0
  · rw [if_pos hc] at h3
    obtain ⟨a2, h2, h5⟩ := Option.bind_eq_some.mp h3
    cases h5
    obtain ⟨_, hfr⟩ := forEach_addLoops_some _ rebuildBody_some _ _ a2 h2
    rw [oscOnly_leds (registerGlobalUpdates_oscOnly _ _)]
    unfold getSelectedLoop
    rw [oscOnly_leds (oscSend_oscOnly _ _ _), oscOnly_leds hfr]
    exact pingAckArgs_leds _ _ _
  · rw [if_neg hc] at h3
    cases h3
    exact pingAckArgs_leds _ _ _

theorem handleHeartbeatMessage_reset (message : OSCMessage) (a a' : App)
    (hne : message.args ≠ []) (h : handleHeartbeatMessage message a = some a') :
    a'.heartbeat_ = 5 := by
  unfold handleHeartbeatMessage at h
  rw [if_neg (isEmpty_of_ne_nil hne)] at h
  cases hr : heartbeatArgs 0 message.args (a, 0, a.engineId_) with
  | mk a1 r =>
    obtain ⟨numloops, uid⟩ := r
    rw [hr] at h
    simp only at h
    obtain ⟨a4, _, h5⟩ := Option.bind_eq_some.mp h
    cases h5
    rfl

theorem handlePingAckMessage_fields (message : OSCMessage) (a a' : App)
    (hne : message.args ≠ []) (h : handlePingAckMessage message a = some a') :
    a'.hostUrl_ = (pingAckArgs 0 message.args a).hostUrl_ ∧
      a'.version_ = (pingAckArgs 0 message.args a).version_ ∧
      a'.selectedLoop_ = (pingAckArgs 0 message.args a).selectedLoop_ := by
  unfold handlePingAckMessage at h
  rw [if_neg (isEmpty_of_ne_nil hne)] at h
  simp only at h
  obtain ⟨a3, h3, h4⟩ := Option.bind_eq_some.mp h
  cases h4
  show a3.hostUrl_ = _ ∧ a3.version_ = _ ∧ a3.selectedLoop_ = _
  by_cases hc : (pingAckArgs 0 message.args a).loopCount_ > 0
  · rw [if_pos hc] at h3
    obtain ⟨a2, h2, h5⟩ := Option.bind_eq_some.mp h3
    cases h5
    obtain ⟨_, hfr⟩ := forEach_addLoops_some _ rebuildBody_some _ _ a2 h2
    have k1 := oscOnly_host (registerGlobalUpdates_oscOnly false (getSelectedLoop a2))
    have k3 := oscOnly_host (getSelectedLoop_oscOnly a2)
    have k4 := oscOnly_host hfr
    exact ⟨k1.1.trans (k3.1.trans k4.1), k1.2.1.trans (k3.2.1.trans k4.2.1),
      k1.2.2.trans (k3.2.2.trans k4.2.2)⟩
  · rw [if_neg hc] at h3
    cases h3
    exact ⟨rfl, rfl, rfl⟩

theorem handlePingAckMessage_cases (message : OSCMessage) (a : App)
    (hne : message.args ≠ []) (hl : a.leds_.length = NUM_LEDS)
    (h1 : (int32At message.args 2).getD a.loopCount_ ≤ NUM_LEDS) :
    ∃ a', handlePingAckMessage message a = some a' ∧
      a'.hostUrl_ = (stringAt message.args 0).getD a.hostUrl_ ∧
      a'.version_ = (stringAt message.args 1).getD a.version_ ∧
      a'.loopCount_ = (int32At message.args 2).getD a.loopCount_ ∧
      a'.engineId_ = (int32At message.args 3).getD a.engineId_ ∧
      a'.heartbeat_ = 5 ∧ a'.selectedLoop_ = a.selectedLoop_ ∧ a'.leds_ = a.leds_ ∧
      a'.loops_ =
        (if 0 < a'.loopCount_ then (counterRange 0 a'.loopCount_).map freshLoop else a.loops_) ∧
      a'.oscOut =
        (if 0 < a'.loopCount_ then
          a.oscOut ++
            (counterRange 0 a'.loopCount_).flatMap (fun i =>
              [registerAutoUpdateMessage a.currentReceivePort_ i,
               getStateMessage a.currentReceivePort_ i]) ++
            [getSelectedMessage a.currentReceivePort_,
             registerUpdateMessage a.currentReceivePort_]
        else a.oscOut) := by
  have hreads := pingAckArgs_reads message.args a
  have r1 : (pingAckArgs 0 message.args a).hostUrl_ = (stringAt message.args 0).getD a.hostUrl_ := by
    rw [hreads]
  have r2 : (pingAckArgs 0 message.args a).version_ = (stringAt message.args 1).getD a.version_ := by
    rw [hreads]
  have r3 : (pingAckArgs 0 message.args a).loopCount_ =
      (int32At message.args 2).getD a.loopCount_ := by
    rw [hreads]
  have r4 : (pingAckArgs 0 message.args a).engineId_ =
      (int32At message.args 3).getD a.engineId_ := by
    rw [hreads]
  have r5 : (pingAckArgs 0 message.args a).selectedLoop_ = a.selectedLoop_ := by
    rw [hreads]
  by_cases h0 : 0 < (pingAckArgs 0 message.args a).loopCount_
  · obtain ⟨a', h, hloops, hcount, heng, hhb, hsent⟩ :=
      handlePingAckMessage_sent message a hne hl h0 (by rw [r3]; exact h1)
    obtain ⟨f1, f2, f3⟩ := handlePingAckMessage_fields message a a' hne h
    have h0' : 0 < a'.loopCount_ := by rw [hcount]; exact h0
    refine ⟨a', h, f1.trans r1, f2.trans r2, hcount.trans r3, heng.trans r4, hhb, f3.trans r5,
      (handlePingAckMessage_reset message a a' hne h).2, ?_, ?_⟩
    · rw [if_pos h0', hcount]; exact hloops
    · rw [if_pos h0', hcount]; exact hsent
  · have hemp : message.args.isEmpty = false := by
      cases hargs : message.args with
      | nil => exact absurd hargs hne
      | cons x xs => rfl
    have h0' : ¬ 0 < ({ pingAckArgs 0 message.args a with heartbeat_ := 5 } : App).loopCount_ := h0
    refine ⟨{ pingAckArgs 0 message.args a with heartbeat_ := 5 }, ?_, r1, r2, r3, r4, rfl, r5,
      pingAckArgs_leds _ _ _, ?_, ?_⟩
    · unfold handlePingAckMessage
      simp only [hemp, Bool.false_eq_true, if_false, gt_iff_lt, h0, Option.some_bind,
        Option.bind_eq_bind]
    · rw [if_neg h0']
      show (pingAckArgs 0 message.args a).loops_ = a.loops_
      rw [hreads]
    · rw [if_neg h0']
      exact (pingAckArgs_session message.args 0 a).1

/-- C23, amended.  Of the malformed messages only some are dropped.  A `/ctrl`
message leaves the whole state as it was when its first argument is not an int32,
when its loop index is negative and not -2, and when its loop index is -2 and the
next two arguments are not ("selected_loop_num", float32).  A `/ctrl` message with
a loop index of 0 or more whose next two arguments are not ("state", float32)
changes `heartbeat_` (set to 5) and nothing else.  A non-empty `/pingack`,
whatever the number and types of its arguments, is handled like a well-formed
one: in a state with its 23 LEDs, the resulting loop count being at most 23, the
handler returns; `hostUrl_`, `version_`, `loopCount_` and `engineId_` are each
set from the argument at position 0, 1, 2, 3 when that argument is a string
(positions 0, 1) or an int32 (positions 2, 3) and are kept otherwise;
`heartbeat_` is 5, `selectedLoop_` and the LED array are as they were; and when
the resulting `loopCount_` is positive the collection is rebuilt to the fresh
loops 0..loopCount_-1 with the requests of a rebuild sent, the collection being
kept and nothing sent otherwise.  A non-empty `/heartbeat`, whatever the number
and types of its arguments, is handled likewise: with M the int32 at position 2
(0 when there is none) and uid the int32 at position 3 (the tracked `engineId_`
when there is none), in a well-formed state with `loopCount_` not negative and
M at most 23, the handler returns; `hostUrl_` and `version_` are set from the
strings at positions 0 and 1, `engineId_` and `selectedLoop_` are as they were,
`heartbeat_` is 5; when uid differs from `engineId_` the collection is rebuilt to
the fresh loops 0..M-1 with `loopCount_` = M if M is positive and everything is
kept if not; when uid equals `engineId_`, `loopCount_` becomes M and, if it was
not M, the collection is the old one (`empty_` recomputed) followed by the fresh
loops `loopCount_`..M-1, with one register_auto_update for each of them and the
selected-loop request sent. -/
theorem malformed_messages (a : App) (address : String) :
    (∀ (arg : OSCArgument) (rest : List OSCArgument), (∀ i, arg ≠ .int32 i) →
      handleCtrlMessage ⟨address, arg :: rest⟩ a = some a) ∧
    (∀ (i : Int) (rest : List OSCArgument), i < 0 → i ≠ -2 →
      handleCtrlMessage ⟨address, .int32 i :: rest⟩ a = some a) ∧
    (∀ (x y : OSCArgument) (rest : List OSCArgument),
      ¬ (x = .string "selected_loop_num" ∧ ∃ v, y = .float32 v) →
      handleCtrlMessage ⟨address, .int32 (-2) :: x :: y :: rest⟩ a = some a) ∧
    (∀ (i : Int) (x y : OSCArgument) (rest : List OSCArgument), 0 ≤ i →
      ¬ (x = .string "state" ∧ ∃ v, y = .float32 v) →
      handleCtrlMessage ⟨address, .int32 i :: x :: y :: rest⟩ a =
        some { a with heartbeat_ := 5 }) ∧
    (∀ (message : OSCMessage), message.args ≠ [] → a.leds_.length = NUM_LEDS →
      (int32At message.args 2).getD a.loopCount_ ≤ NUM_LEDS →
      ∃ a', handlePingAckMessage message a = some a' ∧
        a'.hostUrl_ = (stringAt message.args 0).getD a.hostUrl_ ∧
        a'.version_ = (stringAt message.args 1).getD a.version_ ∧
        a'.loopCount_ = (int32At message.args 2).getD a.loopCount_ ∧
        a'.engineId_ = (int32At message.args 3).getD a.engineId_ ∧
        a'.heartbeat_ = 5 ∧ a'.selectedLoop_ = a.selectedLoop_ ∧ a'.leds_ = a.leds_ ∧
        a'.loops_ =
          (if 0 < a'.loopCount_ then (counterRange 0 a'.loopCount_).map freshLoop
           else a.loops_) ∧
        a'.oscOut =
          (if 0 < a'.loopCount_ then
            a.oscOut ++
              (counterRange 0 a'.loopCount_).flatMap (fun i =>
                [registerAutoUpdateMessage a.currentReceivePort_ i,
                 getStateMessage a.currentReceivePort_ i]) ++
              [getSelectedMessage a.currentReceivePort_,
               registerUpdateMessage a.currentReceivePort_]
          else a.oscOut)) ∧
    (∀ (message : OSCMessage) (M uid : Int), message.args ≠ [] → a.WF → 0 ≤ a.loopCount_ →
      M = (int32At message.args 2).getD 0 →
      uid = (int32At message.args 3).getD a.engineId_ → M ≤ NUM_LEDS →
      ∃ a', handleHeartbeatMessage message a = some a' ∧
        a'.hostUrl_ = (stringAt message.args 0).getD a.hostUrl_ ∧
        a'.version_ = (stringAt message.args 1).getD a.version_ ∧
        a'.selectedLoop_ = a.selectedLoop_ ∧ a'.engineId_ = a.engineId_ ∧
        a'.heartbeat_ = 5 ∧
        a'.loopCount_ =
          (if uid ≠ a.engineId_ then (if 0 < M then M else a.loopCount_) else M) ∧
        a'.loops_ =
          (if uid ≠ a.engineId_ then
            (if 0 < M then (counterRange 0 M).map freshLoop else a.loops_)
          else if a.loopCount_ ≠ M then
            a.loops_.map fixEmpty ++ (counterRange a.loopCount_ M).map freshLoop
          else a.loops_) ∧
        a'.oscOut =
          (if uid ≠ a.engineId_ then
            (if 0 < M then
              a.oscOut ++
                (counterRange 0 M).flatMap (fun i =>
                  [registerAutoUpdateMessage a.currentReceivePort_ i,
                   getStateMessage a.currentReceivePort_ i]) ++
                [getSelectedMessage a.currentReceivePort_,
                 registerUpdateMessage a.currentReceivePort_]
            else a.oscOut)
          else if a.loopCount_ ≠ M then
            a.oscOut ++
              (counterRange a.loopCount_ M).map
                (registerAutoUpdateMessage a.currentReceivePort_) ++
              [getSelectedMessage a.currentReceivePort_]
          else a.oscOut)) := by
  refine ⟨?_, ?_, ?_, ?_, ?_, ?_⟩
  · intro arg rest harg
    cases arg with
    | int32 i => exact absurd rfl (harg i)
    | float32 v => rfl
    | string s => rfl
    | blob => rfl
  · intro i rest h1 h2
    unfold handleCtrlMessage
    simp only [h2, if_false, h1, if_true]
  · intro x y rest hxy
    unfold handleCtrlMessage
    simp only [if_true]
    cases x with
    | string s =>
      by_cases hs : s = "selected_loop_num"
      · simp only [hs, if_true]
        cases y with
        | float32 v => exact absurd ⟨by rw [hs], v, rfl⟩ hxy
        | int32 i => rfl
        | string s => rfl
        | blob => rfl
      · simp only [hs, if_false]
    | int32 i => rfl
    | float32 v => rfl
    | blob => rfl
  · intro i x y rest h0 hxy
    have h1 : ¬ i = -2 := by omega
    have h2 : ¬ i < 0 := by omega
    unfold handleCtrlMessage
    simp only [h1, h2, if_false]
    cases x with
    | string s =>
      by_cases hs : s = "state"
      · simp only [hs, if_true]
        cases y with
        | float32 v => exact absurd ⟨by rw [hs], v, rfl⟩ hxy
        | int32 i => rfl
        | string s => rfl
        | blob => rfl
      · simp only [hs, if_false]
        rfl
    | int32 i => rfl
    | float32 v => rfl
    | blob => rfl
  · intro message hne hl h1
    exact handlePingAckMessage_cases message a hne hl h1
  · intro message M uid hne hwf hK hMdef hudef hM
    rw [hMdef] at hM
    rw [hMdef, hudef]
    exact handleHeartbeatMessage_cases message a _ _ _ hne hwf
      (heartbeatArgs_reads message.args a 0 a.engineId_) hM hK

/-- C23 at concrete inputs, in `demoApp` (engine 0, two loops: Playing and
Multiplying): a `/ctrl` message starting with a string, one with loop index -1, a
global update with a misspelt name, a per-loop message whose third argument is an
int32, a `/pingack` with the single argument "newhost", which rebuilds the two
loops, and a `/heartbeat` with the two arguments ("newhost", 3), which reports
no count at position 2: `loopCount_` becomes 0 and the loops are kept. -/
theorem malformed_messages_witness :
    handleCtrlMessage ⟨"/ctrl", [.string "state", .float32 4]⟩ demoApp = some demoApp ∧
    handleCtrlMessage ⟨"/ctrl", [.int32 (-1), .string "state", .float32 4]⟩ demoApp =
      some demoApp ∧
    handleCtrlMessage ⟨"/ctrl", [.int32 (-2), .string "selected", .float32 1]⟩ demoApp =
      some demoApp ∧
    handleCtrlMessage ⟨"/ctrl", [.int32 0, .string "state", .int32 4]⟩ demoApp =
      some { demoApp with heartbeat_ := 5 } ∧
    (∃ a', handlePingAckMessage ⟨"/pingack", [.string "newhost"]⟩ demoApp = some a' ∧
      a'.hostUrl_ = "newhost" ∧ a'.loopCount_ = 2 ∧ a'.heartbeat_ = 5 ∧
      a'.loops_ = [freshLoop 0, freshLoop 1]) ∧
    (∃ a', handleHeartbeatMessage ⟨"/heartbeat", [.string "newhost", .int32 3]⟩ demoApp =
        some a' ∧
      a'.hostUrl_ = "newhost" ∧ a'.loopCount_ = 0 ∧ a'.heartbeat_ = 5 ∧
      a'.loops_ = [{ index_ := 0, state_ := Playing, empty_ := false },
        { index_ := 1, state_ := Multiplying, empty_ := false }]) := by
  refine ⟨(malformed_messages demoApp "/ctrl").1 (.string "state") [.float32 4] (by simp),
    (malformed_messages demoApp "/ctrl").2.1 (-1) [.string "state", .float32 4] (by decide)
      (by decide),
    (malformed_messages demoApp "/ctrl").2.2.1 (.string "selected") (.float32 1) [] (by simp),
    (malformed_messages demoApp "/ctrl").2.2.2.1 0 (.string "state") (.int32 4) []
      (by decide) (by simp), ?_, ?_⟩
  · obtain ⟨a', h, h1, _, h3, _, h5, _, _, h8, _⟩ :=
      (malformed_messages demoApp "/ctrl").2.2.2.2.1 ⟨"/pingack", [.string "newhost"]⟩
        (by decide) (by decide) (by decide)
    have hc : a'.loopCount_ = 2 := h3
    rw [hc] at h8
    exact ⟨a', h, h1, hc, h5, h8⟩
  · obtain ⟨a', h, h1, _, _, _, h5, h6, h7, _⟩ :=
      (malformed_messages demoApp "/ctrl").2.2.2.2.2
        ⟨"/heartbeat", [.string "newhost", .int32 3]⟩ 0 0 (by decide) (by decide) (by decide)
        rfl rfl (by decide)
    exact ⟨a', h, h1, h6, h5, h7⟩

theorem floatToInt_four : floatToInt 4 = some 4 := by decide

theorem handleCtrlMessage_playing (a : App) (address : String) (loop : Loop) (hwf : a.WF)
    (h0 : a.loops_[0]? = some loop) :
    handleCtrlMessage ⟨address, [.int32 0, .string "state", .float32 4]⟩ a =
      some { updated 0 loop 4 a with heartbeat_ := 5 } := by
  have h := updateLoopLedState_wf 0 loop 4 a h0 hwf
  unfold handleCtrlMessage
  simp only [floatToInt_four]
  have e : ((0 : Int)).toNat = 0 := rfl
  simp [e, h]

/-- C24, as stated, fails when loop 0 leaves a state with a side LED: after
`oneMultiplying` the mode is Play, loop 0 is Multiplying and the Multiply LED is
on; the `/ctrl` message (0, "state", 4.0) then sets the pattern of LED 0 to Light
and switches the Multiply LED off. -/
theorem ctrl_playing_counterexample :
    (run App.init oneMultiplying).map
        (fun a => (a.mode_, a.loops_.map (fun l => l.state_), ledOnAt a MULTIPLY)) =
      some (.Play, [Multiplying], some true) ∧
    (run App.init (oneMultiplying ++
        [.ctrl ⟨"/ctrl", [.int32 0, .string "state", .float32 4]⟩])).map
        (fun a => (ledPatternAt a 0, ledOnAt a MULTIPLY)) = some (some .Light, some false) := by
  refine ⟨by decide, by decide⟩

/-- C24, amended.  In a well-formed state with mode Play whose loop 0 exists and
owns none of the four side LEDs, handling the `/ctrl` message (0, "state", 4.0)
returns and sets the pattern of loop 0's LED to Light.  Each side LED (Multiply,
Replace, Insert, Substitute) keeps its on flag unless the previous state of loop 0
is the state of that side LED (Multiplying, Replacing, Inserting, Substitute): that
side LED is switched off. -/
theorem ctrl_playing_in_play (a : App) (address : String) (loop : Loop) (hwf : a.WF)
    (hmode : a.mode_ = .Play) (h0 : a.loops_[0]? = some loop)
    (hidx : loop.index_ < 5 ∨ 8 < loop.index_) :
    ∃ a', handleCtrlMessage ⟨address, [.int32 0, .string "state", .float32 4]⟩ a = some a' ∧
      ledPatternAt a' loop.index_ = some .Light ∧
      ∀ (i S : Int), (i, S) ∈ [(MULTIPLY, Multiplying), (REPLACE, Replacing),
          (INSERT, Inserting), (SUBSTITUTE, Substitute)] →
        ledOnAt a' i = if loop.state_ = S then some false else ledOnAt a i := by
  obtain ⟨g0, g1, g8⟩ := wf_loop_valid hwf h0
  refine ⟨_, handleCtrlMessage_playing a address loop hwf h0, ?_, ?_⟩
  · show ledPatternAt (updated 0 loop 4 a) loop.index_ = some .Light
    rw [ledPatternAt_updated 0 loop 4 a h0 hwf, hmode]
    rfl
  · intro i S hmem
    show ledOnAt (updated 0 loop 4 a) i = _
    simp only [List.mem_cons, Prod.mk.injEq, List.mem_singleton, List.not_mem_nil, or_false] at hmem
    rcases hmem with ⟨rfl, rfl⟩ | ⟨rfl, rfl⟩ | ⟨rfl, rfl⟩ | ⟨rfl, rfl⟩
    · exact side_on_after a 0 loop 4 5 Multiplying rfl g8 (by omega)
    · exact side_on_after a 0 loop 4 6 Replacing rfl g8 (by omega)
    · exact side_on_after a 0 loop 4 7 Inserting rfl g8 (by omega)
    · exact side_on_after a 0 loop 4 8 Substitute rfl g8 (by omega)

/-- C24 at a concrete input: `demoApp` (mode Play, loop 0 Playing, loop 1
Multiplying with the side LEDs off). -/
theorem ctrl_playing_in_play_witness :
    ∃ a', handleCtrlMessage ⟨"/ctrl", [.int32 0, .string "state", .float32 4]⟩ demoApp =
        some a' ∧
      ledPatternAt a' 0 = some .Light ∧ ledOnAt a' MULTIPLY = ledOnAt demoApp MULTIPLY := by
  obtain ⟨a', h, h1, h2⟩ :=
    ctrl_playing_in_play demoApp "/ctrl" { index_ := 0, state_ := Playing, empty_ := false }
      (by decide) (by decide) (by decide) (by decide)
  exact ⟨a', h, h1, h2 MULTIPLY Multiplying (by decide)⟩

theorem ledNumber_slot (i : Nat) (hi : i ≤ 9) :
    ledNumber (i : Int) = if i = 9 then 0 else i + 1 := by
  interval_cases i <;> decide

/-- C25.  In a state whose LED array holds the pedal LED `i` (0..9), `ledOn (i)`
and `ledOff (i)` return; the LED array afterwards is the old one with the on flag
of `leds_[i]` set to true, respectively false, and nothing else changed in it;
each appends to the controller output exactly one 3-byte message
(MIDI_CMD_CONTROL, c, slot) with c = 106 for on and 107 for off, slot = i + 1 for
i in 0..8 and slot = 0 for i = 9; and apart from the LED array and the two LED
traces the state is unchanged. -/
theorem led_write_effect (a : App) (i : Nat) (hi : i ≤ 9) (hlen : i < a.leds_.length) :
    ∃ a1 a2, ledOn (i : Int) a = some a1 ∧ ledOff (i : Int) a = some a2 ∧
      a1.leds_ = a.leds_.modify (fun l => { l with on_ := true }) i ∧
      a2.leds_ = a.leds_.modify (fun l => { l with on_ := false }) i ∧
      a1.midiOut = a.midiOut ++ [[MIDI_CMD_CONTROL, 106, if i = 9 then 0 else i + 1]] ∧
      a2.midiOut = a.midiOut ++ [[MIDI_CMD_CONTROL, 107, if i = 9 then 0 else i + 1]] ∧
      LedsOnly a a1 ∧ LedsOnly a a2 ∧ a1.loops_ = a.loops_ ∧ a2.loops_ = a.loops_ := by
  refine ⟨_, _, ledWrite_nat true 106 i a hlen, ledWrite_nat false 107 i a hlen, rfl, rfl, ?_, ?_,
    ledWritten_ledsOnly _ _ _ _, ledWritten_ledsOnly _ _ _ _, rfl, rfl⟩
  · show a.midiOut ++ [[MIDI_CMD_CONTROL, 106, ledNumber (i : Int)]] = _
    rw [ledNumber_slot i hi]
  · show a.midiOut ++ [[MIDI_CMD_CONTROL, 107, ledNumber (i : Int)]] = _
    rw [ledNumber_slot i hi]

/-- C25 at concrete inputs: LED 9 (slot 0) and LED 4 (slot 5) of the initial
state. -/
theorem led_write_effect_witness :
    (∃ a1, ledOn 9 App.init = some a1 ∧ a1.midiOut = [[MIDI_CMD_CONTROL, 106, 0]] ∧
      ledOnAt a1 9 = some true) ∧
    (∃ a2, ledOff 4 App.init = some a2 ∧ a2.midiOut = [[MIDI_CMD_CONTROL, 107, 5]] ∧
      ledOnAt a2 4 = some false) := by
  obtain ⟨a1, _, h1, _, h3, _, h5, _⟩ := led_write_effect App.init 9 (by decide) (by decide)
  obtain ⟨_, b2, _, g2, _, g4, _, g6, _⟩ := led_write_effect App.init 4 (by decide) (by decide)
  refine ⟨⟨a1, h1, h5, ?_⟩, ⟨b2, g2, g6, ?_⟩⟩
  · unfold ledOnAt
    rw [h3]
    decide
  · unfold ledOnAt
    rw [g4]
    decide

theorem ledModified_midiOut (f : LED → LED) (n : Nat) (a : App) :
    (ledModified f n a).midiOut = a.midiOut := rfl

theorem ledWritten_midiOut (flag : Bool) (cc n : Nat) (a : App) :
    (ledWritten flag cc n a).midiOut = a.midiOut ++ [[MIDI_CMD_CONTROL, cc, ledNumber n]] := rfl

theorem sideWritten_midiOut (flag : Bool) (cc : Nat) (side : Option Nat) (a : App) :
    (sideWritten flag cc side a).midiOut =
      a.midiOut ++ (side.map fun (i : Nat) => [MIDI_CMD_CONTROL, cc, ledNumber i]).toList := by
  cases side with
  | none => simp [sideWritten]
  | some i => rfl

theorem updated_midiOut (k : Nat) (loop : Loop) (s : Int) (a : App) :
    (updated k loop s a).midiOut =
      a.midiOut ++
        [[MIDI_CMD_CONTROL, if newFlag s then 106 else 107, ledNumber loop.index_.toNat]] ++
        ((sideLed s).map fun (i : Nat) => [MIDI_CMD_CONTROL, 106, ledNumber i]).toList ++
        (if s ≠ loop.state_ then
          ((sideLed loop.state_).map fun (i : Nat) => [MIDI_CMD_CONTROL, 107, ledNumber i]).toList
        else []) := by
  have h1 : (appliedNew loop.index_.toNat s a).midiOut =
      a.midiOut ++
        [[MIDI_CMD_CONTROL, if newFlag s then 106 else 107, ledNumber loop.index_.toNat]] ++
        ((sideLed s).map fun (i : Nat) => [MIDI_CMD_CONTROL, 106, ledNumber i]).toList := by
    unfold appliedNew
    rw [sideWritten_midiOut, ledWritten_midiOut, ledModified_midiOut]
  by_cases hs : s ≠ loop.state_
  · have e : (updated k loop s a).midiOut =
        (sideWritten false 107 (sideLed loop.state_) (appliedNew loop.index_.toNat s a)).midiOut := by
      unfold updated
      simp only [hs, ne_eq, not_false_eq_true, if_true]
    rw [e, sideWritten_midiOut, h1, if_pos hs]
  · have e : (updated k loop s a).midiOut = (appliedNew loop.index_.toNat s a).midiOut := by
      unfold updated
      simp only [hs, if_false]
    rw [e, h1, if_neg hs, List.append_nil]

/-- C26, as stated, fails: the order is the opposite.  After `oneMultiplying`
(loop 0 Multiplying) the `/ctrl` message moving loop 0 to Playing appends two
writes to the controller output, first CC 106 to slot 1 (the loop LED switched
on for the new state), then CC 107 to slot 6 (the Multiply LED switched off).
Moving it to Replacing instead appends CC 106 to slot 1, CC 106 to slot 7 (the
Replace LED), and last CC 107 to slot 6. -/
theorem side_led_order_counterexample :
    (run App.init oneMultiplying).map (fun a => a.midiOut.length) = some 2 ∧
    (run App.init (oneMultiplying ++
        [.ctrl ⟨"/ctrl", [.int32 0, .string "state", .float32 4]⟩])).map
        (fun a => a.midiOut.drop 2) =
      some [[MIDI_CMD_CONTROL, 106, 1], [MIDI_CMD_CONTROL, 107, 6]] ∧
    (run App.init (oneMultiplying ++
        [.ctrl ⟨"/ctrl", [.int32 0, .string "state", .float32 8]⟩])).map
        (fun a => a.midiOut.drop 2) =
      some [[MIDI_CMD_CONTROL, 106, 1], [MIDI_CMD_CONTROL, 106, 7], [MIDI_CMD_CONTROL, 107, 6]] := by
  refine ⟨by decide, by decide, by decide⟩

/-- C26, amended.  In a well-formed state, one `updateLoopLedState` call that
changes the state of a loop away from a state with a side LED (Multiplying,
Replacing, Inserting or Substitute; side LED `j`) returns and appends these writes
to the controller output, in this order: the write for the loop LED under the new
state (CC 106 or 107), then the write switching on the side LED of the new state
when it has one, and last the write (CC 107) switching off the side LED `j` of the
previous state. -/
theorem side_led_order (a : App) (k : Nat) (loop : Loop) (s : Int) (j : Nat)
    (hk : a.loops_[k]? = some loop) (hwf : a.WF)
    (hs : s ≠ loop.state_) (hj : sideLed loop.state_ = some j) :
    ∃ a', updateLoopLedState k s a = some a' ∧
      a'.midiOut = a.midiOut ++
        [[MIDI_CMD_CONTROL, if newFlag s then 106 else 107, ledNumber loop.index_]] ++
        ((sideLed s).map fun (i : Nat) => [MIDI_CMD_CONTROL, 106, ledNumber i]).toList ++
        [[MIDI_CMD_CONTROL, 107, ledNumber j]] := by
  obtain ⟨g0, _, _⟩ := wf_loop_valid hwf hk
  refine ⟨_, updateLoopLedState_wf k loop s a hk hwf, ?_⟩
  have e : ((loop.index_.toNat : Nat) : Int) = loop.index_ := Int.toNat_of_nonneg g0
  rw [updated_midiOut, if_pos hs, hj, e]
  rfl

/-- C26 at a concrete input: loop 1 of `demoApp` (Multiplying) moved to
Replacing. -/
theorem side_led_order_witness :
    ∃ a', updateLoopLedState 1 Replacing demoApp = some a' ∧
      a'.midiOut =
        [[MIDI_CMD_CONTROL, 106, 2], [MIDI_CMD_CONTROL, 106, 7], [MIDI_CMD_CONTROL, 107, 6]] := by
  obtain ⟨a', h, h1⟩ :=
    side_led_order demoApp 1 { index_ := 1, state_ := Multiplying, empty_ := false } Replacing 5
      (by decide) (by decide) (by decide) (by decide)
  exact ⟨a', h, h1⟩

theorem heartbeatArgs_locals (args : List OSCArgument) :
    ∀ (i : Nat) (a b : App) (n u : Int),
      (heartbeatArgs i args (a, n, u)).2 = (heartbeatArgs i args (b, n, u)).2 := by
  induction args with
  | nil => intro i a b n u; rfl
  | cons arg rest ih =>
    intro i a b n u
    unfold heartbeatArgs
    simp only
    split
    · exact ih _ _ _ n u
    · exact ih _ _ _ n u
    · exact ih _ _ _ _ u
    · exact ih _ _ _ n _
    · exact ih _ _ _ n u

/-- C28.  `handleHeartbeatMessage` never modifies `engineId_`: for every message
and state, whenever it returns, `engineId_` is as before.  Consequently, for a
non-empty `/heartbeat` whose engine id differs from `engineId_` and which reports
between 1 and 23 loops, handled in a state with its 23 LEDs: the handler returns
with the collection rebuilt (fresh loops, all Off); an identical second heartbeat,
handled right after it or in any later state with the same `engineId_` and LED
count, again sees a differing identity and rebuilds the collection to the same
fresh loops. -/
theorem heartbeat_keeps_engine (message : OSCMessage) (a a1 : App) (M uid : Int)
    (hne : message.args ≠ []) (hl : a.leds_.length = NUM_LEDS)
    (hr : heartbeatArgs 0 message.args (a, 0, a.engineId_) = (a1, M, uid))
    (huid : uid ≠ a.engineId_) (h1 : 1 ≤ M) (h2 : M ≤ NUM_LEDS) :
    (∀ (m : OSCMessage) (b b' : App), handleHeartbeatMessage m b = some b' →
      b'.engineId_ = b.engineId_) ∧
    (∀ b : App, b.leds_.length = NUM_LEDS → b.engineId_ = a.engineId_ →
      ∃ b', handleHeartbeatMessage message b = some b' ∧ b'.engineId_ = a.engineId_ ∧
        b'.leds_.length = NUM_LEDS ∧
        b'.loops_ = (counterRange 0 M).map freshLoop ∧ ∀ l ∈ b'.loops_, l.state_ = Off) ∧
    ∃ a' a'', handleHeartbeatMessage message a = some a' ∧
      handleHeartbeatMessage message a' = some a'' ∧
      a'.engineId_ = a.engineId_ ∧ a''.engineId_ = a.engineId_ ∧
      a'.loops_ = (counterRange 0 M).map freshLoop ∧
      a''.loops_ = (counterRange 0 M).map freshLoop := by
  have hkeep : ∀ (m : OSCMessage) (b b' : App), handleHeartbeatMessage m b = some b' →
      b'.engineId_ = b.engineId_ := fun m b b' h => (handleHeartbeatMessage_inv m b b' h).1
  have hagain : ∀ b : App, b.leds_.length = NUM_LEDS → b.engineId_ = a.engineId_ →
      ∃ b', handleHeartbeatMessage message b = some b' ∧ b'.engineId_ = a.engineId_ ∧
        b'.leds_.length = NUM_LEDS ∧
        b'.loops_ = (counterRange 0 M).map freshLoop ∧ ∀ l ∈ b'.loops_, l.state_ = Off := by
    intro b hbl hbe
    have hloc := heartbeatArgs_locals message.args 0 b a 0 a.engineId_
    rw [hr] at hloc
    have hrb : heartbeatArgs 0 message.args (b, 0, b.engineId_) =
        ((heartbeatArgs 0 message.args (b, 0, b.engineId_)).1, M, uid) := by
      rw [hbe]
      exact Prod.ext rfl hloc
    obtain ⟨b', hb', hloops, hleds⟩ := handleHeartbeatMessage_rebuild message b _ M uid hne hbl hrb
      (by rw [hbe]; exact huid) (by omega) h2
    refine ⟨b', hb', by rw [hkeep message b b' hb', hbe], hleds, hloops, ?_⟩
    intro l hmem
    rw [hloops, List.mem_map] at hmem
    obtain ⟨i, _, rfl⟩ := hmem
    rfl
  obtain ⟨a', ha', e1, l1, f1, _⟩ := hagain a hl rfl
  obtain ⟨a'', ha'', e2, _, f2, _⟩ := hagain a' l1 e1
  exact ⟨hkeep, hagain, a', a'', ha', ha'', e1, e2, f1, f2⟩

/-- C28 at a concrete input: `demoMessage` (engine 7, two loops) handled twice as
a `/heartbeat` from `demoApp`, whose tracked engine id is 0. -/
theorem heartbeat_keeps_engine_witness :
    demoApp.engineId_ = 0 ∧
    ∃ a' a'', handleHeartbeatMessage demoMessage demoApp = some a' ∧
      handleHeartbeatMessage demoMessage a' = some a'' ∧
      a'.engineId_ = 0 ∧ a''.engineId_ = 0 ∧
      a''.loops_ = [freshLoop 0, freshLoop 1] := by
  obtain ⟨_, _, a', a'', h1, h2, h3, h4, _, h6⟩ :=
    heartbeat_keeps_engine demoMessage demoApp
      { demoApp with hostUrl_ := "x", version_ := "1.0" } 2 7 (by decide) (by decide) rfl
      (by decide) (by decide) (by decide)
  exact ⟨rfl, a', a'', h1, h2, h3, h4, h6⟩

end Loop4r
